import Mathlib

/-!
# PicAI: the face-obfuscation pipeline of the photo app

A shallow embedding of the JavaScript sources (`app-simple.js` and its sibling
variants).

* JavaScript numbers are exact rationals; `Math.sqrt` is computed to 16 binary digits.
* `Math.random` is an explicit stream of draws.
* A `Uint8ClampedArray` is a list of bytes, read and written by index.
* A `for` loop is a recursion with a bound on its iterations; it returns `none` when the
  bound is exhausted, which stands for a loop that does not end, and a canvas call that
  throws also gives `none`.
* A canvas bitmap is a function from pixel coordinates to RGBA pixels with a size.  A
  path covers a pixel when it contains the centre of the pixel (no anti-aliasing), a
  fill is composited source-over and rounded to bytes, `getImageData` and
  `putImageData` take their arguments truncated to integers and are not subject to the
  clipping region, and the encoding of a canvas to a JPEG blob is taken to be lossless.
* Object URLs are numbered in the order of their creation, and the array of faces of an
  analysis result is an object that the session state holds by reference.
-/

namespace PicAI

/-! ## Loops and byte buffers -/

/-- One entry of a `Uint8ClampedArray`. -/
abbrev Byte := Fin 256

/-- Conversion performed by a store into a `Uint8ClampedArray`: clamp to 255. -/
def toByte (n : Nat) : Byte := ⟨min n 255, by omega⟩

/-- The loop `for (i = i0; cond(i); i = step(i)) body`, run with a bound on the
number of iterations; `none` when the bound is exhausted while `cond` still holds
or when the body fails. -/
def forLoop {σ : Type} (cond : Nat → Bool) (step : Nat → Nat) (body : Nat → σ → Option σ) :
    Nat → Nat → σ → Option σ
  | 0, i, s => if cond i then none else some s
  | fuel + 1, i, s =>
    if cond i then (body i s).bind (fun s' => forLoop cond step body fuel (step i) s')
    else some s

/-- Read `data[i]` as a number (an index past the end reads as 0). -/
def readAt (data : List Byte) (i : Nat) : Nat := (data.getD i 0).val

/-- The store `data[i] = v` (ignored past the end, as on a typed array). -/
def writeAt (data : List Byte) (i v : Nat) : List Byte := data.set i (toByte v)

/-- The accumulators `r, g, b, a, count` of `applyHeavyPixelation`. -/
structure Acc where
  r : Nat
  g : Nat
  b : Nat
  a : Nat
  count : Nat
deriving DecidableEq, Repr

/-- Channel `c` (0 = r, 1 = g, 2 = b, otherwise a) of the accumulators. -/
def Acc.chan (acc : Acc) (c : Nat) : Nat :=
  match c with
  | 0 => acc.r
  | 1 => acc.g
  | 2 => acc.b
  | _ => acc.a

/-- The summing loops of `applyHeavyPixelation` for the block at `(px, py)`:
`for dy ... for dx ... { r += data[pixelIndex]; ...; count++ }`. -/
def sumBlock (data : List Byte) (imgWidth imgHeight pixelSize px py : Nat) : Option Acc :=
  forLoop (fun dy => decide (dy < pixelSize) && decide (py + dy < imgHeight)) (· + 1)
    (fun dy acc =>
      forLoop (fun dx => decide (dx < pixelSize) && decide (px + dx < imgWidth)) (· + 1)
        (fun dx acc =>
          let pixelIndex := ((py + dy) * imgWidth + (px + dx)) * 4
          some { r := acc.r + readAt data pixelIndex
                 g := acc.g + readAt data (pixelIndex + 1)
                 b := acc.b + readAt data (pixelIndex + 2)
                 a := acc.a + readAt data (pixelIndex + 3)
                 count := acc.count + 1 })
        pixelSize 0 acc)
    pixelSize 0 { r := 0, g := 0, b := 0, a := 0, count := 0 }

/-- The writing loops of `applyHeavyPixelation` for the block at `(px, py)`:
`for dy ... for dx ... { data[pixelIndex] = r; ... }`. -/
def fillBlock (data : List Byte) (imgWidth imgHeight pixelSize px py r g b a : Nat) :
    Option (List Byte) :=
  forLoop (fun dy => decide (dy < pixelSize) && decide (py + dy < imgHeight)) (· + 1)
    (fun dy d =>
      forLoop (fun dx => decide (dx < pixelSize) && decide (px + dx < imgWidth)) (· + 1)
        (fun dx d =>
          let pixelIndex := ((py + dy) * imgWidth + (px + dx)) * 4
          some (writeAt (writeAt (writeAt (writeAt d pixelIndex r) (pixelIndex + 1) g)
            (pixelIndex + 2) b) (pixelIndex + 3) a))
        pixelSize 0 d)
    pixelSize 0 data

/-- The block loop of `applyHeavyPixelation` on the bytes of an `ImageData` of size
`imgWidth` by `imgHeight`: every `pixelSize`-block is replaced by the floor of its
average.  `Math.floor(r / count)` is natural-number division. -/
def blockLoop (data : List Byte) (imgWidth imgHeight pixelSize : Nat) : Option (List Byte) :=
  forLoop (fun py => decide (py < imgHeight)) (· + pixelSize)
    (fun py d =>
      forLoop (fun px => decide (px < imgWidth)) (· + pixelSize)
        (fun px d =>
          (sumBlock d imgWidth imgHeight pixelSize px py).bind fun acc =>
            fillBlock d imgWidth imgHeight pixelSize px py
              (acc.r / acc.count) (acc.g / acc.count) (acc.b / acc.count) (acc.a / acc.count))
        imgWidth 0 d)
    imgHeight 0 data

/-- Index of channel `c` of pixel `(x, y)` in a buffer of width `w`. -/
def chanIndex (w x y c : Nat) : Nat := (y * w + x) * 4 + c

/-- Width (or height) of the block that starts at `start` in a side of length `len`:
the block is cut at the edge of the buffer. -/
def blockSide (len p start : Nat) : Nat := min p (len - start)

/-- Sum of channel `c` over the original pixels of the block containing `(x, y)`. -/
def blockSum (data : List Byte) (w h p x y c : Nat) : Nat :=
  ∑ dy in Finset.range (blockSide h p (y / p * p)),
    ∑ dx in Finset.range (blockSide w p (x / p * p)),
      readAt data (chanIndex w (x / p * p + dx) (y / p * p + dy) c)

/-- Number of pixels of the block containing `(x, y)`. -/
def blockCount (w h p x y : Nat) : Nat :=
  blockSide h p (y / p * p) * blockSide w p (x / p * p)

/-! ## Numbers, random draws -/

/-- Conversion of a JavaScript number to a WebIDL `long` (the arguments of
`getImageData` and `putImageData`): truncation toward zero. -/
def toLong (q : ℚ) : Int := if 0 ≤ q then Rat.floor q else -Rat.floor (-q)

/-- Newton iteration for the integer square root. -/
def sqrtIter (n : Nat) : Nat → Nat → Nat
  | 0, guess => guess
  | fuel + 1, guess =>
    let next := (guess + n / guess) / 2
    if next < guess then sqrtIter n fuel next else guess

/-- Integer square root. -/
def isqrt (n : Nat) : Nat := if n ≤ 1 then n else sqrtIter n 64 (n / 2)

/-- `Math.sqrt`, computed to 16 binary digits after the point. -/
def jsSqrt (q : ℚ) : ℚ := (isqrt (Rat.floor (q * 4294967296)).toNat : ℚ) / 65536

/-- The stream of values returned by successive calls of `Math.random`. -/
structure Rng where
  draws : Nat → ℚ
  pos : Nat

/-- One call of `Math.random`. -/
def Rng.next (g : Rng) : ℚ × Rng := (g.draws g.pos, { g with pos := g.pos + 1 })

/-! ## Canvas -/

/-- An RGBA pixel. -/
structure Pixel where
  r : Byte
  g : Byte
  b : Byte
  a : Byte
deriving DecidableEq, Repr

/-- Channel `c` (0 = r, 1 = g, 2 = b, otherwise a) of a pixel. -/
def Pixel.chan (p : Pixel) (c : Nat) : Byte :=
  match c with
  | 0 => p.r
  | 1 => p.g
  | 2 => p.b
  | _ => p.a

/-- Transparent black, the content of a new or cleared canvas. -/
def Pixel.clear : Pixel := { r := 0, g := 0, b := 0, a := 0 }

/-- A decoded image or the bitmap of a canvas; `px x y` is the pixel in column `x` of
row `y`, meaningful for `x < width` and `y < height`. -/
structure Bitmap where
  width : Nat
  height : Nat
  px : Nat → Nat → Pixel

/-- Two bitmaps hold the same pixel buffer. -/
def Bitmap.SameAs (p q : Bitmap) : Prop :=
  p.width = q.width ∧ p.height = q.height ∧
    ∀ x y, x < p.width → y < p.height → p.px x y = q.px x y

/-- Every pixel of the bitmap has alpha 255, as in a decoded JPEG photo. -/
def Bitmap.FullAlpha (p : Bitmap) : Prop := ∀ x y, (p.px x y).a = 255

/-- The bitmap with its pixels replaced. -/
def Bitmap.withPx (bm : Bitmap) (f : Nat → Nat → Pixel) : Bitmap :=
  { width := bm.width, height := bm.height, px := f }

/-- A new canvas bitmap. -/
def Bitmap.blank (w h : Nat) : Bitmap := { width := w, height := h, px := fun _ _ => Pixel.clear }

/-- Pixel at integer coordinates; transparent black outside the bitmap. -/
def Bitmap.get (bm : Bitmap) (x y : Int) : Pixel :=
  if 0 ≤ x ∧ x < bm.width ∧ 0 ≤ y ∧ y < bm.height then bm.px x.toNat y.toNat else Pixel.clear

/-- An `ImageData` object. -/
structure ImageData where
  width : Nat
  height : Nat
  data : List Byte

/-- The call `ctx.getImageData(sx, sy, sw, sh)` after conversion of the arguments: it
throws when a side is zero, and ignores the clipping region. -/
def getImageData (bm : Bitmap) (sx sy sw sh : Int) : Option ImageData :=
  if sw = 0 ∨ sh = 0 then none
  else
    let x0 := if sw < 0 then sx + sw else sx
    let y0 := if sh < 0 then sy + sh else sy
    let w := sw.natAbs
    let h := sh.natAbs
    some { width := w, height := h,
           data := (List.range (4 * w * h)).map fun i =>
             (bm.get (x0 + ((i / 4 % w : Nat) : Int)) (y0 + ((i / 4 / w : Nat) : Int))).chan
               (i % 4) }

/-- The call `ctx.putImageData(imageData, dx, dy)` after conversion of the arguments:
every pixel of the image data is stored, whatever the clipping region. -/
def putImageData (bm : Bitmap) (img : ImageData) (dx dy : Int) : Bitmap :=
  bm.withPx fun x y =>
    let ix : Int := (x : Int) - dx
    let iy : Int := (y : Int) - dy
    if 0 ≤ ix ∧ ix < img.width ∧ 0 ≤ iy ∧ iy < img.height then
      let k := (iy.toNat * img.width + ix.toNat) * 4
      { r := img.data.getD k 0, g := img.data.getD (k + 1) 0,
        b := img.data.getD (k + 2) 0, a := img.data.getD (k + 3) 0 }
    else bm.px x y

/-- A CSS colour `rgba(r, g, b, a)`. -/
structure Color where
  r : ℚ
  g : ℚ
  b : ℚ
  a : ℚ

/-- Linear interpolation between two colours, alpha included. -/
def Color.mix (c d : Color) (t : ℚ) : Color :=
  { r := c.r + (d.r - c.r) * t, g := c.g + (d.g - c.g) * t,
    b := c.b + (d.b - c.b) * t, a := c.a + (d.a - c.a) * t }

/-- Colour of a gradient with the given colour stops at parameter `t`. -/
def gradientAt : List (ℚ × Color) → ℚ → Color
  | [], _ => { r := 0, g := 0, b := 0, a := 0 }
  | [s], _ => s.2
  | s1 :: s2 :: rest, t =>
    if t ≤ s1.1 then s1.2
    else if t ≤ s2.1 then s1.2.mix s2.2 ((t - s1.1) / (s2.1 - s1.1))
    else gradientAt (s2 :: rest) t

/-- A fill style: a colour, or the gradient of `createRadialGradient(cx, cy, 0, cx, cy, r)`
with its colour stops. -/
inductive Paint where
  | solid (c : Color)
  | radial (cx cy r : ℚ) (stops : List (ℚ × Color))

/-- Colour of the paint at the centre of pixel `(i, j)`; a gradient of radius 0 paints
nothing. -/
def Paint.colorAt : Paint → Nat → Nat → Option Color
  | Paint.solid c, _, _ => some c
  | Paint.radial cx cy r stops, i, j =>
    if r = 0 then none
    else
      some (gradientAt stops
        (min 1 (jsSqrt (((i : ℚ) + 1 / 2 - cx) ^ 2 + ((j : ℚ) + 1 / 2 - cy) ^ 2) / r)))

/-- Rounding of a computed channel value to a byte. -/
def roundByte (q : ℚ) : Byte := toByte (Int.toNat ⌊q + 1 / 2⌋)

/-- Source-over compositing of a colour onto a pixel. -/
def over (c : Color) (d : Pixel) : Pixel :=
  let da : ℚ := (d.a.val : ℚ) / 255
  let oa : ℚ := c.a + da * (1 - c.a)
  { r := roundByte ((c.r * c.a + (d.r.val : ℚ) * da * (1 - c.a)) / oa)
    g := roundByte ((c.g * c.a + (d.g.val : ℚ) * da * (1 - c.a)) / oa)
    b := roundByte ((c.b * c.a + (d.b.val : ℚ) * da * (1 - c.a)) / oa)
    a := roundByte (oa * 255) }

/-- The colour of an image pixel, as a source of compositing. -/
def Pixel.toColor (p : Pixel) : Color :=
  { r := p.r.val, g := p.g.val, b := p.b.val, a := (p.a.val : ℚ) / 255 }

/-- A closed subpath: the full circle of `arc(cx, cy, r, 0, 2 * Math.PI)` or a
rectangle. -/
inductive Region where
  | circle (cx cy r : ℚ)
  | rect (x y w h : ℚ)
deriving DecidableEq

/-- The region contains the centre of pixel `(i, j)`. -/
def Region.covers : Region → Nat → Nat → Bool
  | Region.circle cx cy r, i, j =>
    decide ((((i : ℚ) + 1 / 2 - cx) ^ 2 + ((j : ℚ) + 1 / 2 - cy) ^ 2) ≤ r ^ 2)
  | Region.rect x y w h, i, j =>
    decide (min x (x + w) ≤ (i : ℚ) + 1 / 2) && decide ((i : ℚ) + 1 / 2 < max x (x + w)) &&
    decide (min y (y + h) ≤ (j : ℚ) + 1 / 2) && decide ((j : ℚ) + 1 / 2 < max y (y + h))

/-- The part of the drawing state that `save` and `restore` handle: the clipping
region (an intersection of paths) and the fill style. -/
structure DrawState where
  clip : List (List Region)
  fillStyle : Paint

/-- A 2D rendering context with its canvas bitmap and current path. -/
structure Ctx where
  bitmap : Bitmap
  path : List Region
  state : DrawState
  stack : List DrawState

/-- Context of a canvas whose size has just been set to `w` by `h`. -/
def Ctx.fresh (w h : Nat) : Ctx :=
  { bitmap := Bitmap.blank w h, path := [],
    state := { clip := [], fillStyle := Paint.solid { r := 0, g := 0, b := 0, a := 1 } },
    stack := [] }

def Ctx.save (c : Ctx) : Ctx := { c with stack := c.state :: c.stack }

def Ctx.restore (c : Ctx) : Ctx :=
  match c.stack with
  | [] => c
  | s :: rest => { c with state := s, stack := rest }

def Ctx.beginPath (c : Ctx) : Ctx := { c with path := [] }

/-- The call `ctx.arc(x, y, r, 0, 2 * Math.PI)`; throws for a negative radius. -/
def Ctx.arc (c : Ctx) (x y r : ℚ) : Option Ctx :=
  if r < 0 then none else some { c with path := c.path ++ [Region.circle x y r] }

def Ctx.clip (c : Ctx) : Ctx :=
  { c with state := { c.state with clip := c.path :: c.state.clip } }

def Ctx.setFillStyle (c : Ctx) (p : Paint) : Ctx :=
  { c with state := { c.state with fillStyle := p } }

/-- The pixel `(i, j)` lies in the current clipping region. -/
def Ctx.inClip (c : Ctx) (i j : Nat) : Bool :=
  c.state.clip.all fun path => path.any fun reg => reg.covers i j

/-- The context with the pixels of its canvas recomputed from the old ones. -/
def Ctx.mapPx (c : Ctx) (f : Nat → Nat → Pixel → Pixel) : Ctx :=
  { c with bitmap := c.bitmap.withPx fun i j => f i j (c.bitmap.px i j) }

/-- Paint the pixels of `shape` that lie on the canvas and in the clipping region with
the fill style. -/
def Ctx.paint (c : Ctx) (shape : Nat → Nat → Bool) : Ctx :=
  c.mapPx fun i j old =>
    if i < c.bitmap.width ∧ j < c.bitmap.height ∧ shape i j = true ∧ c.inClip i j = true then
      match c.state.fillStyle.colorAt i j with
      | some col => over col old
      | none => old
    else old

/-- The call `ctx.fill()` without anti-aliasing: a pixel is painted in full when its
centre lies in a subpath and not at all otherwise; `Ctx.fillWith` is the fill with an
arbitrary rasteriser. -/
def Ctx.fill (c : Ctx) : Ctx := c.paint fun i j => c.path.any fun reg => reg.covers i j

def Ctx.fillRect (c : Ctx) (x y w h : ℚ) : Ctx := c.paint (Region.rect x y w h).covers

def Ctx.clearRect (c : Ctx) (x y w h : ℚ) : Ctx :=
  c.mapPx fun i j old =>
    if i < c.bitmap.width ∧ j < c.bitmap.height ∧ (Region.rect x y w h).covers i j = true ∧
        c.inClip i j = true then Pixel.clear
    else old

/-- The call `ctx.drawImage(image, 0, 0)`: the image at its natural size. -/
def Ctx.drawImage (c : Ctx) (img : Bitmap) : Ctx :=
  c.mapPx fun i j old =>
    if i < c.bitmap.width ∧ j < c.bitmap.height ∧ i < img.width ∧ j < img.height ∧
        c.inClip i j = true then over (img.px i j).toColor old
    else old

/-- The call `ctx.drawImage(image, 0, 0, dw, dh)`: the image scaled to `dw` by `dh`,
sampled at the nearest source pixel. -/
def Ctx.drawImageScaled (c : Ctx) (img : Bitmap) (dw dh : Nat) : Ctx :=
  c.mapPx fun i j old =>
    if i < c.bitmap.width ∧ j < c.bitmap.height ∧ i < dw ∧ j < dh ∧ c.inClip i j = true then
      over (img.px (i * img.width / dw) (j * img.height / dh)).toColor old
    else old

/-! ## Face regions and the still-mode renderers -/

/-- A face region: centre, radius and, in the variants that record it, a confidence. -/
structure FaceRegion where
  x : ℚ
  y : ℚ
  radius : ℚ
  confidence : Option ℚ

/-- The drawing context together with the random stream. -/
structure Draw where
  ctx : Ctx
  rng : Rng

/-- The method `applyHeavyPixelation(ctx, x, y, width, height, pixelSize)` of app-simple,
app-live and app-optimized. -/
def applyHeavyPixelation (ctx : Ctx) (x y width height : ℚ) (pixelSize : Nat) : Option Ctx :=
  (getImageData ctx.bitmap (toLong x) (toLong y) (toLong width) (toLong height)).bind
    fun imageData =>
      (blockLoop imageData.data imageData.width imageData.height pixelSize).map fun data =>
        { ctx with bitmap :=
            putImageData ctx.bitmap { imageData with data := data } (toLong x) (toLong y) }

/-- The three pixelation layers of `createBlurredImage` for one face:
`for (let layer = 0; layer < 3; layer++) { save; beginPath; arc; clip;
applyHeavyPixelation(..., 15 + layer * 5); restore }`. -/
def pixelateLayers (face : FaceRegion) (ctx : Ctx) : Option Ctx :=
  let blurRadius := face.radius
  forLoop (fun layer => decide (layer < 3)) (· + 1)
    (fun layer blurCtx =>
      (blurCtx.save.beginPath.arc face.x face.y blurRadius).bind fun blurCtx =>
        (applyHeavyPixelation blurCtx.clip (face.x - blurRadius) (face.y - blurRadius)
          (blurRadius * 2) (blurRadius * 2) (15 + layer * 5)).map fun blurCtx =>
          blurCtx.restore)
    3 0 ctx

/-- The call `createRadialGradient(x, y, 0, x, y, r)` followed by its `addColorStop`
calls; throws for a negative radius. -/
def createRadialGradient (x y r : ℚ) (stops : List (ℚ × Color)) : Option Paint :=
  if r < 0 then none else some (Paint.radial x y r stops)

/-- The colour stops of the dark overlay of `createBlurredImage`:
`addColorStop(0, 'rgba(60, 60, 60, 0.8)')`, `addColorStop(0.5, 'rgba(80, 80, 80, 0.7)')`,
`addColorStop(1, 'rgba(100, 100, 100, 0.5)')`. -/
def washStops : List (ℚ × Color) :=
  [(0, { r := 60, g := 60, b := 60, a := 8 / 10 }),
   (1 / 2, { r := 80, g := 80, b := 80, a := 7 / 10 }),
   (1, { r := 100, g := 100, b := 100, a := 5 / 10 })]

/-- No colour channel of the pixel exceeds 178. -/
def Pixel.Dim (p : Pixel) : Prop := p.r.val ≤ 178 ∧ p.g.val ≤ 178 ∧ p.b.val ≤ 178

/-- The dark overlay of `createBlurredImage` for one face: the radial gradient filled
over the circle. -/
def washFace (face : FaceRegion) (ctx : Ctx) : Option Ctx :=
  let blurRadius := face.radius
  (createRadialGradient face.x face.y blurRadius washStops).bind fun gradient =>
    (((ctx.setFillStyle gradient).beginPath).arc face.x face.y blurRadius).map fun blurCtx =>
      blurCtx.fill

/-- One iteration of the noise loop of `createBlurredImage`. -/
def noiseStep (face : FaceRegion) (s : Draw) : Option Draw :=
  let blurRadius := face.radius
  let u1 := s.rng.next
  let noiseX := face.x + (u1.1 - 1 / 2) * blurRadius * 2
  let u2 := u1.2.next
  let noiseY := face.y + (u2.1 - 1 / 2) * blurRadius * 2
  let distance := jsSqrt ((noiseX - face.x) ^ 2 + (noiseY - face.y) ^ 2)
  if distance ≤ blurRadius then
    let u3 := u2.2.next
    let u4 := u3.2.next
    let u5 := u4.2.next
    let blurCtx := s.ctx.setFillStyle
      (Paint.solid { r := u3.1 * 100 + 50, g := u4.1 * 100 + 50, b := u5.1 * 100 + 50,
                     a := 3 / 10 })
    let u6 := u5.2.next
    (blurCtx.beginPath.arc noiseX noiseY (u6.1 * 8 + 3)).map fun blurCtx =>
      { ctx := blurCtx.fill, rng := u6.2 }
  else some { ctx := s.ctx, rng := u2.2 }

/-- The noise loop of `createBlurredImage`: `for (let i = 0; i < 30; i++) ...`. -/
def noiseLoop (face : FaceRegion) (s : Draw) : Option Draw :=
  forLoop (fun i => decide (i < 30)) (· + 1) (fun _ s => noiseStep face s) 30 0 s

/-- The body of `faces.forEach(face => ...)` in `createBlurredImage`. -/
def blurFace (s : Draw) (face : FaceRegion) : Option Draw :=
  (pixelateLayers face s.ctx).bind fun blurCtx =>
    (washFace face blurCtx).bind fun blurCtx =>
      noiseLoop face { ctx := blurCtx, rng := s.rng }

/-- The `onload` handler of `createBlurredImage(photoBlob, faces)` in app-simple,
app-live and app-optimized, up to the encoding of the canvas: the image is drawn on a
new canvas of its size and every face is treated in turn.  `none` when a canvas call
throws. -/
def createBlurredImage (img : Bitmap) (faces : List FaceRegion) (rng : Rng) : Option Draw :=
  faces.foldlM blurFace { ctx := (Ctx.fresh img.width img.height).drawImage img, rng := rng }

/-- Every draw of the random stream lies in `[0, 1)`, as `Math.random` promises. -/
def Rng.InUnit (g : Rng) : Prop := ∀ n, 0 ≤ g.draws n ∧ g.draws n < 1

/-! ## The canvas variants: `createBlurredVersion` -/

/-- The result image element: its decoded image and the size at which it is shown. -/
structure ImageElement where
  natural : Bitmap
  offsetWidth : ℚ
  offsetHeight : ℚ

/-- One iteration of the texture loop of `applyBlurEffect` in app-tensorflow and
app-offline (the two texts agree): a small rectangle of random colour and place. -/
def Tensorflow.noiseRect (x y width height : ℚ) (s : Draw) : Draw :=
  let u1 := s.rng.next
  let u2 := u1.2.next
  let u3 := u2.2.next
  let ctx := s.ctx.setFillStyle
    (Paint.solid { r := 100 + u1.1 * 100, g := 100 + u2.1 * 100, b := 100 + u3.1 * 100,
                   a := 1 / 10 })
  let u4 := u3.2.next
  let u5 := u4.2.next
  let u6 := u5.2.next
  let u7 := u6.2.next
  { ctx := ctx.fillRect (x + u4.1 * width) (y + u5.1 * height) (u6.1 * 8 + 2) (u7.1 * 8 + 2),
    rng := u7.2 }

/-- The method `applyBlurEffect(ctx, x, y, width, height)` of app-tensorflow and
app-offline. -/
def Tensorflow.applyBlurEffect (s : Draw) (x y width height : ℚ) : Option Draw :=
  (createRadialGradient (x + width / 2) (y + height / 2) (width / 2)
    [(0, { r := 128, g := 128, b := 128, a := 9 / 10 }),
     (1, { r := 64, g := 64, b := 64, a := 7 / 10 })]).bind fun gradient =>
    forLoop (fun i => decide (i < 30)) (· + 1)
      (fun _ s => some (Tensorflow.noiseRect x y width height s)) 30 0
      { ctx := (s.ctx.setFillStyle gradient).fillRect x y width height, rng := s.rng }

/-- The body of `faces.forEach` in `createBlurredVersion` of app-tensorflow and
app-offline. -/
def Tensorflow.blurFace (s : Draw) (face : FaceRegion) : Option Draw :=
  (s.ctx.save.beginPath.arc face.x face.y face.radius).bind fun ctx =>
    (Tensorflow.applyBlurEffect { ctx := ctx.clip, rng := s.rng } (face.x - face.radius)
      (face.y - face.radius) (face.radius * 2) (face.radius * 2)).map fun s =>
      { ctx := s.ctx.restore, rng := s.rng }

/-- The method `createBlurredVersion(image, canvas, faces)` of app-tensorflow. -/
def Tensorflow.createBlurredVersion (image : Bitmap) (canvas : Ctx) (faces : List FaceRegion)
    (rng : Rng) : Option Draw :=
  let ctx := canvas.clearRect 0 0 canvas.bitmap.width canvas.bitmap.height
  let ctx := ctx.drawImageScaled image canvas.bitmap.width canvas.bitmap.height
  faces.foldlM Tensorflow.blurFace { ctx := ctx, rng := rng }

/-- The method `createBlurredVersion(image, canvas, faces)` of app-offline. -/
def Offline.createBlurredVersion (image : Bitmap) (canvas : Ctx) (faces : List FaceRegion)
    (rng : Rng) : Option Draw :=
  let ctx := canvas.clearRect 0 0 canvas.bitmap.width canvas.bitmap.height
  let ctx := ctx.drawImage image
  faces.foldlM Tensorflow.blurFace { ctx := ctx, rng := rng }

/-- One iteration of the noise loop of `applyBlurEffect` in app-improved and app.js. -/
def Improved.noiseRect (x y width height : ℚ) (s : Draw) : Draw :=
  let u1 := s.rng.next
  let u2 := u1.2.next
  let u3 := u2.2.next
  let ctx := s.ctx.setFillStyle
    (Paint.solid { r := u1.1 * 255, g := u2.1 * 255, b := u3.1 * 255, a := 1 / 10 })
  let u4 := u3.2.next
  let u5 := u4.2.next
  let u6 := u5.2.next
  let u7 := u6.2.next
  { ctx := ctx.fillRect (x + u4.1 * width) (y + u5.1 * height) (u6.1 * 10) (u7.1 * 10),
    rng := u7.2 }

/-- The method `applyBlurEffect` of app-improved and app.js (where it has one more,
unused, parameter). -/
def Improved.applyBlurEffect (s : Draw) (x y width height : ℚ) : Option Draw :=
  forLoop (fun i => decide (i < 20)) (· + 1)
    (fun _ s => some (Improved.noiseRect x y width height s)) 20 0
    { ctx := (s.ctx.setFillStyle (Paint.solid { r := 0, g := 0, b := 0, a := 7 / 10 })).fillRect
        x y width height,
      rng := s.rng }

/-- The body of `faces.forEach` in `createBlurredVersion` of app-improved. -/
def Improved.blurFace (s : Draw) (face : FaceRegion) : Option Draw :=
  (s.ctx.save.beginPath.arc face.x face.y face.radius).bind fun ctx =>
    (Improved.applyBlurEffect { ctx := ctx.clip, rng := s.rng } (face.x - face.radius)
      (face.y - face.radius) (face.radius * 2) (face.radius * 2)).map fun s =>
      { ctx := s.ctx.restore, rng := s.rng }

/-- The method `createBlurredVersion(image, canvas, faces)` of app-improved. -/
def Improved.createBlurredVersion (image : Bitmap) (canvas : Ctx) (faces : List FaceRegion)
    (rng : Rng) : Option Draw :=
  faces.foldlM Improved.blurFace { ctx := canvas.drawImage image, rng := rng }

/-- The body of `faces.forEach` in `createBlurredVersion` of app.js: the region is
scaled by the ratio of natural to shown size before it is drawn. -/
def App.blurFace (image : ImageElement) (s : Draw) (face : FaceRegion) : Option Draw :=
  let scaleX := (image.natural.width : ℚ) / image.offsetWidth
  let scaleY := (image.natural.height : ℚ) / image.offsetHeight
  let x := face.x * scaleX
  let y := face.y * scaleY
  let radius := face.radius * min scaleX scaleY
  (s.ctx.save.beginPath.arc x y radius).bind fun ctx =>
    (getImageData ctx.clip.bitmap (toLong (x - radius)) (toLong (y - radius))
      (toLong (radius * 2)) (toLong (radius * 2))).bind fun _ =>
      (Improved.applyBlurEffect { ctx := ctx.clip, rng := s.rng } (x - radius) (y - radius)
        (radius * 2) (radius * 2)).map fun s =>
        { ctx := s.ctx.restore, rng := s.rng }

/-- The method `createBlurredVersion(image, canvas, faces)` of app.js. -/
def App.createBlurredVersion (image : ImageElement) (canvas : Ctx) (faces : List FaceRegion)
    (rng : Rng) : Option Draw :=
  faces.foldlM (App.blurFace image) { ctx := canvas.drawImage image.natural, rng := rng }

/-- One iteration of the texture loop of `createBlurredVersion` in app-fixed. -/
def Fixed.noiseStep (face : FaceRegion) (s : Draw) : Option Draw :=
  let u1 := s.rng.next
  let u2 := u1.2.next
  let u3 := u2.2.next
  let ctx := s.ctx.setFillStyle
    (Paint.solid { r := u1.1 * 100 + 100, g := u2.1 * 100 + 100, b := u3.1 * 100 + 100,
                   a := 1 / 10 })
  let u4 := u3.2.next
  let u5 := u4.2.next
  let u6 := u5.2.next
  (ctx.beginPath.arc (face.x + (u4.1 - 1 / 2) * face.radius * (3 / 2))
    (face.y + (u5.1 - 1 / 2) * face.radius * (3 / 2)) (u6.1 * 10 + 5)).map fun ctx =>
    { ctx := ctx.fill, rng := u6.2 }

/-- The body of `faces.forEach` in `createBlurredVersion` of app-fixed. -/
def Fixed.blurFace (s : Draw) (face : FaceRegion) : Option Draw :=
  (createRadialGradient face.x face.y face.radius
    [(0, { r := 128, g := 128, b := 128, a := 9 / 10 }),
     (7 / 10, { r := 100, g := 100, b := 100, a := 8 / 10 }),
     (1, { r := 80, g := 80, b := 80, a := 6 / 10 })]).bind fun gradient =>
    (((s.ctx.save.setFillStyle gradient).beginPath).arc face.x face.y face.radius).bind fun ctx =>
      (forLoop (fun i => decide (i < 20)) (· + 1) (fun _ s => Fixed.noiseStep face s) 20 0
        { ctx := ctx.fill, rng := s.rng }).map fun s =>
        { ctx := s.ctx.restore, rng := s.rng }

/-- The method `createBlurredVersion(image, canvas, faces)` of app-fixed. -/
def Fixed.createBlurredVersion (image : Bitmap) (canvas : Ctx) (faces : List FaceRegion)
    (rng : Rng) : Option Draw :=
  let ctx := canvas.clearRect 0 0 canvas.bitmap.width canvas.bitmap.height
  let ctx := ctx.drawImageScaled image canvas.bitmap.width canvas.bitmap.height
  faces.foldlM Fixed.blurFace { ctx := ctx, rng := rng }

/-- The canvas of `setupFaceBlurring` just before `createBlurredVersion` is called: its
size is the natural size of the image and nothing clips it. -/
def Ctx.FitsImage (canvas : Ctx) (image : Bitmap) : Prop :=
  canvas.bitmap.width = image.width ∧ canvas.bitmap.height = image.height ∧
    canvas.state.clip = []

/-! ## Sample inputs -/

/-- A grey pixel without transparency. -/
def gray (v : Byte) : Pixel := { r := v, g := v, b := v, a := 255 }

/-- A photo of one colour. -/
def plainPhoto (w h : Nat) (v : Byte) : Bitmap := { width := w, height := h, px := fun _ _ => gray v }

/-- A random stream that always returns `u`. -/
def constRng (u : ℚ) : Rng := { draws := fun _ => u, pos := 0 }

/-- A photo that is black except for one grey pixel in its top left corner. -/
def cornerPhoto : Bitmap :=
  { width := 7, height := 7, px := fun x y => if x = 0 ∧ y = 0 then gray 196 else gray 0 }

/-- A region of radius 7/2 around `(7/2, 7/2)`: its circle touches the four sides of a
7 by 7 image and misses the pixel `(0, 0)`. -/
def cornerFace : FaceRegion := { x := 7 / 2, y := 7 / 2, radius := 7 / 2, confidence := none }

/-- A region of radius 1/2 around the centre of pixel `(1, 1)`. -/
def smallFace : FaceRegion := { x := 3 / 2, y := 3 / 2, radius := 1 / 2, confidence := none }

/-- A region of radius 1 around the centre of pixel `(1, 1)`; its circle lies inside a
3 by 3 image. -/
def centreFace : FaceRegion := { x := 3 / 2, y := 3 / 2, radius := 1, confidence := none }

/-- A region of radius 7/2 around `(9/2, 9/2)`: its circle lies inside an 8 by 8 image,
overlaps the circle of `centreFace` and misses the pixel `(1, 1)`. -/
def neighbourFace : FaceRegion := { x := 9 / 2, y := 9 / 2, radius := 7 / 2, confidence := none }

/-! ## Manual marking -/

/-- The region made by the `onclick` handler that `enableManualFaceDetection` installs,
in app-simple, app-live, app-optimized, app-tensorflow and app-fixed: the click at
`(clientX, clientY)` on the image whose bounding rectangle starts at `(left, top)`. -/
def manualFace (image : ImageElement) (left top clientX clientY : ℚ) : FaceRegion :=
  let x := clientX - left
  let y := clientY - top
  let scaleX := (image.natural.width : ℚ) / image.offsetWidth
  let scaleY := (image.natural.height : ℚ) / image.offsetHeight
  { x := x * scaleX, y := y * scaleY,
    radius := (min image.natural.width image.natural.height : Nat) * (8 / 100),
    confidence := some 1 }

/-- The region made by the `onclick` handler of app-offline: no confidence is recorded. -/
def Offline.manualFace (image : ImageElement) (left top clientX clientY : ℚ) : FaceRegion :=
  let x := clientX - left
  let y := clientY - top
  let scaleX := (image.natural.width : ℚ) / image.offsetWidth
  let scaleY := (image.natural.height : ℚ) / image.offsetHeight
  { x := x * scaleX, y := y * scaleY,
    radius := (min image.natural.width image.natural.height : Nat) * (8 / 100),
    confidence := none }

/-- The region made by the `onclick` handler of app-improved: the radius is the constant
60 and no confidence is recorded. -/
def Improved.manualFace (image : ImageElement) (left top clientX clientY : ℚ) : FaceRegion :=
  let x := clientX - left
  let y := clientY - top
  let scaleX := (image.natural.width : ℚ) / image.offsetWidth
  let scaleY := (image.natural.height : ℚ) / image.offsetHeight
  { x := x * scaleX, y := y * scaleY, radius := 60, confidence := none }

/-- The variants that offer manual marking (app.js has none). -/
inductive Variant where
  | simple
  | live
  | optimized
  | tensorflow
  | fixed
  | offline
  | improved
deriving DecidableEq, Repr

/-- The region a manual click makes in each variant. -/
def Variant.manualFace (v : Variant) (image : ImageElement) (left top clientX clientY : ℚ) :
    FaceRegion :=
  match v with
  | Variant.offline => Offline.manualFace image left top clientX clientY
  | Variant.improved => Improved.manualFace image left top clientX clientY
  | _ => PicAI.manualFace image left top clientX clientY

/-! ## Session state of app-simple

The methods `toggleBlur`, `showResults`, `analyzePhoto` and the click handler have the
same text in app-live and app-optimized, which add the live-detection fields. -/

/-- An object URL made by `URL.createObjectURL`, named by its rank of creation. -/
abbrev Url := Nat

/-- The `src` attribute of the result image. -/
inductive Src where
  | empty
  | url (u : Url)
  | null
deriving DecidableEq, Repr

/-- Value of `src` after the assignment of a field that holds an object URL or `null`. -/
def Src.ofField : Option Url → Src
  | some u => Src.url u
  | none => Src.null

/-- An analysis result `{ description, faces }`; `faces` names the array object, whose
content is kept in the session's `arrays`. -/
structure AnalysisResult where
  description : String
  faces : Nat

/-- A pending `createBlurredImage(photoBlob, faces)`: its image has not loaded yet. -/
structure BlurJob where
  photo : Bitmap
  faces : Nat

/-- The fields of the `PicAI` object of app-simple, the parts of the document it
writes, and the browser state it depends on. -/
structure AppState where
  streamReady : Bool
  currentPhoto : Option Bitmap
  analysisResult : Option AnalysisResult
  isBlurred : Bool
  originalImageData : Option Url
  blurredImageData : Option Url
  resultImageSrc : Src
  toggleBtnText : String
  toggleBtnHidden : Bool
  resultsShown : Bool
  blurredCanvasHidden : Bool
  description : String
  facesInfo : Option (List FaceRegion)
  manualBtn : Bool
  clickHandler : Bool
  loading : Bool
  messages : List (String × Nat)
  arrays : Nat → List FaceRegion
  nextArray : Nat
  nextUrl : Nat
  blobs : Url → Option Bitmap
  revoked : List Url
  blurJobs : List BlurJob

/-- The state after the constructor and `initializeApp`, with the camera stream open or
not. -/
def AppState.init (streamReady : Bool) : AppState :=
  { streamReady := streamReady, currentPhoto := none, analysisResult := none,
    isBlurred := false, originalImageData := none, blurredImageData := none,
    resultImageSrc := Src.empty, toggleBtnText := "Gesichter verwischen",
    toggleBtnHidden := true, resultsShown := false, blurredCanvasHidden := true,
    description := "", facesInfo := none, manualBtn := false, clickHandler := false,
    loading := false, messages := [], arrays := fun _ => [], nextArray := 0, nextUrl := 0,
    blobs := fun _ => none, revoked := [], blurJobs := [] }

/-- The method `showError(message, duration)`: the status message is shown. -/
def AppState.showError (s : AppState) (message : String) (duration : Nat) : AppState :=
  { s with messages := s.messages ++ [(message, duration)] }

/-- The status message of `toggleBlur` when no obfuscated image is available. -/
def stillBuilding : String := "Verwischtes Bild wird noch erstellt..."

/-- The call `URL.createObjectURL(blob)`: a new URL for the blob. -/
def AppState.createObjectURL (s : AppState) (blob : Bitmap) : Url × AppState :=
  (s.nextUrl,
    { s with nextUrl := s.nextUrl + 1,
             blobs := fun u => if u = s.nextUrl then some blob else s.blobs u })

/-- The method `toggleBlur()` of app-simple, app-live and app-optimized. -/
def AppState.toggleBlur (s : AppState) : AppState :=
  let s1 := { s with isBlurred := !s.isBlurred }
  let s2 :=
    if s1.isBlurred then
      match s1.blurredImageData with
      | some u => { s1 with resultImageSrc := Src.url u, toggleBtnText := "Original zeigen" }
      | none => { s1.showError stillBuilding 2000 with isBlurred := false }
    else
      { s1 with resultImageSrc := Src.ofField s1.originalImageData,
                toggleBtnText := "Gesichter verwischen" }
  { s2 with blurredCanvasHidden := true }

/-- The synchronous part of `createBlurredImage(photoBlob, faces)`: the image starts to
load; the rest runs in `blurredImageLoaded`. -/
def AppState.createBlurredImage (s : AppState) (photoBlob : Bitmap) (faces : Nat) : AppState :=
  { s with blurJobs := s.blurJobs ++ [{ photo := photoBlob, faces := faces }] }

/-- The `onload` handler of the oldest pending `createBlurredImage` and its `toBlob`
callback: the faces that the array holds now are drawn and the result is cached in
`blurredImageData`; nothing is cached when a canvas call throws. -/
def AppState.blurredImageLoaded (s : AppState) (rng : Rng) : AppState :=
  match s.blurJobs with
  | [] => s
  | job :: rest =>
    let s1 := { s with blurJobs := rest }
    match PicAI.createBlurredImage job.photo (s.arrays job.faces) rng with
    | none => s1
    | some d =>
      let u := s1.createObjectURL d.ctx.bitmap
      { u.2 with blurredImageData := some u.1 }

/-- The method `updateFaceInfo(faces)`. -/
def AppState.updateFaceInfo (s : AppState) (faces : List FaceRegion) : AppState :=
  { s with facesInfo := some faces }

/-- The method `showResults(photoBlob, result)` of app-simple. -/
def AppState.showResults (s : AppState) (photoBlob : Bitmap) (result : AnalysisResult) :
    AppState :=
  let s1 : AppState := { s with resultsShown := true }
  let u1 := s1.createObjectURL photoBlob
  let s2 : AppState := { u1.2 with resultImageSrc := Src.url u1.1 }
  let u2 := s2.createObjectURL photoBlob
  let s3 : AppState := { u2.2 with originalImageData := some u2.1 }
  let s4 : AppState := { s3 with description := result.description, manualBtn := true }
  if (s4.arrays result.faces).length > 0 then
    let s5 := s4.createBlurredImage photoBlob result.faces
    let s6 : AppState := { s5 with toggleBtnHidden := false }
    s6.updateFaceInfo (s6.arrays result.faces)
  else s4

/-- What the awaited detection gives `analyzePhoto`: a description with the detected
faces, or an error. -/
inductive Detection where
  | resolved (description : String) (faces : List FaceRegion)
  | rejected (message : String)

/-- A new array object with the given content. -/
def AppState.newArray (s : AppState) (faces : List FaceRegion) : Nat × AppState :=
  (s.nextArray,
    { s with nextArray := s.nextArray + 1,
             arrays := fun k => if k = s.nextArray then faces else s.arrays k })

/-- The method `analyzePhoto(photoBlob)` of app-simple, given the outcome of the
detection. -/
def AppState.analyzePhoto (s : AppState) (photoBlob : Bitmap) (outcome : Detection) :
    AppState :=
  let s1 := { s with loading := true }
  let s2 :=
    match outcome with
    | Detection.resolved description faces =>
      let a := s1.newArray faces
      let result : AnalysisResult := { description := description, faces := a.1 }
      let s2 := { a.2 with analysisResult := some result }
      s2.showResults photoBlob result
    | Detection.rejected message =>
      let s2 := s1.showError ("Analyse fehlgeschlagen: " ++ message) 5000
      let a := s2.newArray []
      a.2.showResults photoBlob
        { description :=
            "Automatische Gesichtserkennung fehlgeschlagen. Manuelle Markierung verfügbar.",
          faces := a.1 }
  { s2 with loading := false }

/-- The method `capturePhoto()` of app-simple together with its `toBlob` callback: the
video frame becomes the current photo and is analysed. -/
def AppState.capturePhoto (s : AppState) (frame : Bitmap) (outcome : Detection) : AppState :=
  if s.streamReady then
    ({ s with currentPhoto := some frame }).analyzePhoto frame outcome
  else s

/-- The call `URL.revokeObjectURL(u)`. -/
def AppState.revokeObjectURL (s : AppState) (u : Url) : AppState :=
  { s with revoked := u :: s.revoked }

/-- The method `retakePhoto()` of app-simple. -/
def AppState.retakePhoto (s : AppState) : AppState :=
  let s1 := { s with currentPhoto := none, analysisResult := none, isBlurred := false }
  let s2 :=
    match s1.originalImageData with
    | some u => { s1.revokeObjectURL u with originalImageData := none }
    | none => s1
  let s3 :=
    match s2.blurredImageData with
    | some u => { s2.revokeObjectURL u with blurredImageData := none }
    | none => s2
  { s3 with resultsShown := false, toggleBtnHidden := true, facesInfo := none,
            resultImageSrc := Src.empty, manualBtn := false, clickHandler := false }

/-- The method `enableManualFaceDetection()` of app-simple: the click handler is installed
on the result image and the user is told to click. -/
def AppState.enableManualFaceDetection (s : AppState) : AppState :=
  ({ s with clickHandler := true }).showError "Klicken Sie auf weitere Gesichter im Bild" 3000

/-- The `onclick` handler installed by `enableManualFaceDetection` in app-simple: the
new region is pushed on the array of the analysis result and the obfuscated image is
made again.  `none` when the handler throws because there is no analysis result or no
current photo. -/
def AppState.manualClick (s : AppState) (image : ImageElement) (left top clientX clientY : ℚ) :
    Option AppState :=
  match s.analysisResult with
  | none => none
  | some result =>
    let face := PicAI.manualFace image left top clientX clientY
    let faces := s.arrays result.faces ++ [face]
    let s1 := { s with arrays := fun k => if k = result.faces then faces else s.arrays k }
    match s1.currentPhoto with
    | none => none
    | some photo =>
      let s2 := s1.createBlurredImage photo result.faces
      let s3 := { s2 with toggleBtnHidden := false }
      let s4 := s3.updateFaceInfo faces
      some (s4.showError ("Gesicht " ++ toString faces.length ++ " markiert!") 2000)

/-- A 1000 by 1000 result image shown at 500 by 500. -/
def bigImage : ImageElement :=
  { natural := plainPhoto 1000 1000 0, offsetWidth := 500, offsetHeight := 500 }

/-- A session that shows the obfuscated image cached under URL 3. -/
def blurredSession : AppState :=
  { AppState.init true with
    isBlurred := true, blurredImageData := some 3, originalImageData := some 2,
    resultImageSrc := Src.url 3, nextUrl := 4 }

/-! ## The block loop with checked accesses -/

/-- Read `data[i]`, failing when `i` is not an index of the buffer. -/
def readChecked (data : List Byte) (i : Nat) : Option Nat :=
  if i < data.length then some (readAt data i) else none

/-- Store `data[i] = v`, failing when `i` is not an index of the buffer. -/
def writeChecked (data : List Byte) (i v : Nat) : Option (List Byte) :=
  if i < data.length then some (writeAt data i v) else none

/-- The summing loops of `applyHeavyPixelation`, failing on a read outside the buffer. -/
def sumBlockChecked (data : List Byte) (imgWidth imgHeight pixelSize px py : Nat) :
    Option Acc :=
  forLoop (fun dy => decide (dy < pixelSize) && decide (py + dy < imgHeight)) (· + 1)
    (fun dy acc =>
      forLoop (fun dx => decide (dx < pixelSize) && decide (px + dx < imgWidth)) (· + 1)
        (fun dx acc =>
          let pixelIndex := ((py + dy) * imgWidth + (px + dx)) * 4
          (readChecked data pixelIndex).bind fun r =>
            (readChecked data (pixelIndex + 1)).bind fun g =>
              (readChecked data (pixelIndex + 2)).bind fun b =>
                (readChecked data (pixelIndex + 3)).bind fun a =>
                  some { r := acc.r + r, g := acc.g + g, b := acc.b + b, a := acc.a + a,
                         count := acc.count + 1 })
        pixelSize 0 acc)
    pixelSize 0 { r := 0, g := 0, b := 0, a := 0, count := 0 }

/-- The writing loops of `applyHeavyPixelation`, failing on a store outside the buffer. -/
def fillBlockChecked (data : List Byte) (imgWidth imgHeight pixelSize px py r g b a : Nat) :
    Option (List Byte) :=
  forLoop (fun dy => decide (dy < pixelSize) && decide (py + dy < imgHeight)) (· + 1)
    (fun dy d =>
      forLoop (fun dx => decide (dx < pixelSize) && decide (px + dx < imgWidth)) (· + 1)
        (fun dx d =>
          let pixelIndex := ((py + dy) * imgWidth + (px + dx)) * 4
          (writeChecked d pixelIndex r).bind fun d =>
            (writeChecked d (pixelIndex + 1) g).bind fun d =>
              (writeChecked d (pixelIndex + 2) b).bind fun d =>
                writeChecked d (pixelIndex + 3) a)
        pixelSize 0 d)
    pixelSize 0 data

/-- The block loop of `applyHeavyPixelation` with every access checked: it fails on an
index outside `[0, data.length)` and on a division by a pixel count of 0. -/
def blockLoopChecked (data : List Byte) (imgWidth imgHeight pixelSize : Nat) :
    Option (List Byte) :=
  forLoop (fun py => decide (py < imgHeight)) (· + pixelSize)
    (fun py d =>
      forLoop (fun px => decide (px < imgWidth)) (· + pixelSize)
        (fun px d =>
          (sumBlockChecked d imgWidth imgHeight pixelSize px py).bind fun acc =>
            if 1 ≤ acc.count then
              fillBlockChecked d imgWidth imgHeight pixelSize px py
                (acc.r / acc.count) (acc.g / acc.count) (acc.b / acc.count)
                (acc.a / acc.count)
            else none)
        imgWidth 0 d)
    imgHeight 0 data

/-! ## Adapters: from the detector's answer to face regions -/

/-- A prediction of the face detection model: the corners of the box and, when present,
the first entry of `probability`. -/
structure Prediction where
  topLeft : ℚ × ℚ
  bottomRight : ℚ × ℚ
  probability : Option ℚ

/-- The mapping `predictions.map(prediction => ...)` of `detectFacesWithTensorFlow`
(the same text in app-tensorflow, app-fixed, app-simple, app-live and app-optimized). -/
def faceOfPrediction (prediction : Prediction) : FaceRegion :=
  let x1 := prediction.topLeft.1
  let y1 := prediction.topLeft.2
  let x2 := prediction.bottomRight.1
  let y2 := prediction.bottomRight.2
  let centerX := (x1 + x2) / 2
  let centerY := (y1 + y2) / 2
  let radius := max (x2 - x1) (y2 - y1) / 2 * (12 / 10)
  { x := centerX, y := centerY, radius := radius,
    confidence := some (match prediction.probability with
      | some q => q
      | none => 1) }

/-- The description that `detectFacesWithTensorFlow` gives with `n` faces found in an
image of the given size (app-simple; app-tensorflow appends one more sentence). -/
def analysedText (width height n : Nat) : String :=
  "Foto analysiert (" ++ toString width ++ "x" ++ toString height ++ " Pixel). " ++
    toString n ++ " Gesicht" ++ (if n ≠ 1 then "er" else "") ++ " automatisch erkannt."

/-- What `detectFacesWithTensorFlow(photoBlob)` resolves to, given whether the model is
loaded and what `estimateFaces` answers; an error of the model is caught and gives no
faces. -/
def detectFacesWithTensorFlow (modelLoaded : Bool) (width height : Nat)
    (estimate : Except String (List Prediction)) : Detection :=
  if modelLoaded then
    match estimate with
    | Except.ok predictions =>
      Detection.resolved (analysedText width height (predictions.map faceOfPrediction).length)
        (predictions.map faceOfPrediction)
    | Except.error _ =>
      Detection.resolved "Gesichtserkennung fehlgeschlagen. Manuelle Markierung verfügbar." []
  else Detection.resolved (analysedText width height 0) []

/-- The mapping of predictions to regions in `detectAndBlurLive` of app-live. -/
def Live.liveFace (prediction : Prediction) : FaceRegion :=
  let x1 := prediction.topLeft.1
  let y1 := prediction.topLeft.2
  let x2 := prediction.bottomRight.1
  let y2 := prediction.bottomRight.2
  let centerX := (x1 + x2) / 2
  let centerY := (y1 + y2) / 2
  let radius := max (x2 - x1) (y2 - y1) / 2 * (11 / 10)
  { x := centerX, y := centerY, radius := radius,
    confidence := some (match prediction.probability with
      | some q => q
      | none => 1) }

/-- The mapping of predictions to regions in `detectAndBlurLive` of app-optimized: the
detection runs at half resolution (`scale = 0.5`) and the regions are scaled to the live
canvas. -/
def Optimized.liveFace (canvasWidth canvasHeight videoWidth videoHeight : Nat)
    (prediction : Prediction) : FaceRegion :=
  let scale : ℚ := 1 / 2
  let x1 := prediction.topLeft.1
  let y1 := prediction.topLeft.2
  let x2 := prediction.bottomRight.1
  let y2 := prediction.bottomRight.2
  let centerX := ((x1 + x2) / 2) / scale * ((canvasWidth : ℚ) / videoWidth)
  let centerY := ((y1 + y2) / 2) / scale * ((canvasHeight : ℚ) / videoHeight)
  let radius := (max (x2 - x1) (y2 - y1) / 2 * (11 / 10)) / scale
    * ((canvasWidth : ℚ) / videoWidth)
  { x := centerX, y := centerY, radius := radius,
    confidence := some (match prediction.probability with
      | some q => q
      | none => 1) }

/-- The regions that `callDeepSeekAPI` of app.js makes from the matches of its pattern;
a match is given by the numbers that its three groups of digits denote.  The radius is
`parseInt(match[3]) || 50`. -/
def App.facesOfMatches (found : List (Nat × Nat × Nat)) : List FaceRegion :=
  found.map fun m =>
    { x := m.1, y := m.2.1, radius := if m.2.2 = 0 then 50 else m.2.2, confidence := none }

/-- The method `extractFacesFromDescription(description)` of app-improved; `includes k`
stands for `lowerDesc.includes(k)`. -/
def Improved.extractFacesFromDescription (includes : String → Bool) : List FaceRegion :=
  if includes "person" || includes "mensch" || includes "mann" || includes "frau" ||
      includes "kind" || includes "gesicht" then
    let faces : List FaceRegion := [{ x := 200, y := 150, radius := 60, confidence := none }]
    if includes "zwei" || includes "mehrere" || includes "gruppe" then
      faces ++ [{ x := 350, y := 180, radius := 55, confidence := none }]
    else faces
  else []

/-- The method `detectFacesSimple(img)` of app-offline. -/
def Offline.detectFacesSimple (width height : Nat) : List FaceRegion :=
  if width > 200 ∧ height > 200 then
    let faces : List FaceRegion :=
      [{ x := (width : ℚ) * (3 / 10), y := (height : ℚ) * (25 / 100),
         radius := ((min width height : Nat) : ℚ) * (8 / 100), confidence := none }]
    if width > 400 then
      faces ++ [{ x := (width : ℚ) * (7 / 10), y := (height : ℚ) * (3 / 10),
                  radius := ((min width height : Nat) : ℚ) * (7 / 100), confidence := none }]
    else faces
  else []

/-- What the request of `callDeepSeekAPI` comes back with: `fetch` fails, the response
has a status other than success, or it carries a content (possibly none). -/
inductive ApiReply where
  | networkError (message : String)
  | status (code : Nat) (errorText : String)
  | content (text : Option String)

/-- The method `callDeepSeekAPI(base64Image)` of app.js, given the reply and, in
`found`, the matches of the coordinate pattern in the content. -/
def App.callDeepSeekAPI (reply : ApiReply) (found : String → List (Nat × Nat × Nat)) :
    Detection :=
  match reply with
  | ApiReply.networkError message => Detection.rejected message
  | ApiReply.status code _ => Detection.rejected ("DeepSeek API Fehler: " ++ toString code)
  | ApiReply.content none => Detection.rejected "Keine Antwort von DeepSeek erhalten"
  | ApiReply.content (some text) =>
    if text = "" then Detection.rejected "Keine Antwort von DeepSeek erhalten"
    else Detection.resolved text (App.facesOfMatches (found text))

/-- The method `callDeepSeekAPI(base64Image)` of app-improved, given the reply;
`includes text k` stands for `text.toLowerCase().includes(k)`. -/
def Improved.callDeepSeekAPI (reply : ApiReply) (includes : String → String → Bool) :
    Detection :=
  match reply with
  | ApiReply.networkError message => Detection.rejected message
  | ApiReply.status code errorText =>
    if code = 422 then Detection.rejected "Ungültiges Bildformat oder API-Parameter"
    else if code = 401 then Detection.rejected "Ungültiger API Key"
    else if code = 429 then Detection.rejected "API Rate Limit erreicht"
    else Detection.rejected ("API Fehler " ++ toString code ++ ": " ++ errorText)
  | ApiReply.content none => Detection.rejected "Keine Antwort von DeepSeek erhalten"
  | ApiReply.content (some text) =>
    if text = "" then Detection.rejected "Keine Antwort von DeepSeek erhalten"
    else Detection.resolved text (Improved.extractFacesFromDescription (includes text))

/-! ## Live detection: the state of app-live and app-optimized -/

/-- The values of `currentEffect`. -/
inductive Effect where
  | blur
  | smiley
  | sunglasses
  | heart_eyes
  | wink
  | cool
deriving DecidableEq, Repr

/-- A call `liveCtx.fillText(text, x, y)` with the font size in force; the pixels of the
glyph depend on the font and are not computed. -/
structure TextDraw where
  text : String
  x : ℚ
  y : ℚ
  fontSize : ℚ

/-- The `PicAI` object of app-live and app-optimized: the session fields shared with
app-simple, the live-detection fields, the overlay canvas with the text drawn on it, the
size of the video, and the timers that are scheduled.  The fields `frameSkipCounter`
and `wasLiveActiveBeforePause` are used by app-optimized only. -/
structure LiveState where
  app : AppState
  faceDetectionModel : Bool
  isLiveDetectionActive : Bool
  detectionInterval : Option Nat
  lastDetectedFaces : List FaceRegion
  currentEffect : Effect
  liveCtx : Ctx
  liveTexts : List TextDraw
  frameSkipCounter : Nat
  wasLiveActiveBeforePause : Bool
  videoWidth : Nat
  videoHeight : Nat
  liveBtnActive : Bool
  timers : List Nat
  nextTimer : Nat
  pendingLiveClicks : Nat
  pendingRestarts : Nat

/-- The state after `initializeApp`, with the model loaded or not. -/
def LiveState.init (streamReady modelLoaded : Bool) (videoWidth videoHeight : Nat) : LiveState :=
  { app := AppState.init streamReady, faceDetectionModel := modelLoaded,
    isLiveDetectionActive := false, detectionInterval := none, lastDetectedFaces := [],
    currentEffect := Effect.blur, liveCtx := Ctx.fresh 300 150, liveTexts := [],
    frameSkipCounter := 0, wasLiveActiveBeforePause := false, videoWidth := videoWidth,
    videoHeight := videoHeight, liveBtnActive := false, timers := [], nextTimer := 1,
    pendingLiveClicks := 0, pendingRestarts := 0 }

/-- The method `showError(message, duration)` of the live variants. -/
def LiveState.showError (s : LiveState) (message : String) (duration : Nat) : LiveState :=
  { s with app := s.app.showError message duration }

/-- The call `liveCtx.clearRect(0, 0, liveCanvas.width, liveCanvas.height)`; the text
drawn on the overlay goes with its pixels when nothing clips the call. -/
def LiveState.clearOverlay (s : LiveState) : LiveState :=
  { s with
    liveCtx := s.liveCtx.clearRect 0 0 s.liveCtx.bitmap.width s.liveCtx.bitmap.height,
    liveTexts := if s.liveCtx.state.clip.isEmpty then [] else s.liveTexts }

/-- Every pixel of the overlay canvas is transparent and no text is drawn on it. -/
def LiveState.OverlayClear (s : LiveState) : Prop :=
  (∀ x y, x < s.liveCtx.bitmap.width → y < s.liveCtx.bitmap.height →
    s.liveCtx.bitmap.px x y = Pixel.clear) ∧ s.liveTexts = []

/-- The call `clearInterval(id)`. -/
def LiveState.clearInterval (s : LiveState) (id : Nat) : LiveState :=
  { s with timers := s.timers.erase id }

/-- The call `setInterval(...)`: a new timer is scheduled and its id returned. -/
def LiveState.setInterval (s : LiveState) : Nat × LiveState :=
  (s.nextTimer, { s with timers := s.nextTimer :: s.timers, nextTimer := s.nextTimer + 1 })

/-- The method `stopLiveDetection()` of app-live. -/
def Live.stopLiveDetection (s : LiveState) : LiveState :=
  let s1 : LiveState := { s with isLiveDetectionActive := false }
  let s2 : LiveState :=
    match s1.detectionInterval with
    | some id => { s1.clearInterval id with detectionInterval := none }
    | none => s1
  let s3 : LiveState := { s2.clearOverlay with lastDetectedFaces := [] }
  s3.showError "Live-Effekte deaktiviert" 2000

/-- The method `performMemoryCleanup()` of app-optimized, which also runs every 30
seconds: the URLs of the cached images are revoked (the fields keep them) and the overlay
is cleared. -/
def Optimized.performMemoryCleanup (s : LiveState) : LiveState :=
  let a1 : AppState :=
    match s.app.originalImageData with
    | some u => s.app.revokeObjectURL u
    | none => s.app
  let a2 : AppState :=
    match a1.blurredImageData with
    | some u => a1.revokeObjectURL u
    | none => a1
  ({ s with app := a2 } : LiveState).clearOverlay

/-- The method `stopLiveDetection()` of app-optimized. -/
def Optimized.stopLiveDetection (s : LiveState) : LiveState :=
  let s1 : LiveState := { s with isLiveDetectionActive := false }
  let s2 : LiveState :=
    match s1.detectionInterval with
    | some id => { s1.clearInterval id with detectionInterval := none }
    | none => s1
  let s3 : LiveState := { s2.clearOverlay with lastDetectedFaces := [] }
  (Optimized.performMemoryCleanup s3).showError "Live-Effekte deaktiviert" 2000

/-- The method `getEffectName()`. -/
def Effect.label : Effect → String
  | Effect.blur => "Verwischen"
  | Effect.smiley => "Smiley 😊"
  | Effect.sunglasses => "Sonnenbrille 😎"
  | Effect.heart_eyes => "Herzaugen 😍"
  | Effect.wink => "Zwinkern 😉"
  | Effect.cool => "Cool 🤩"

/-- The size that `updateLiveCanvasSize()` of app-optimized computes for a video of the
given size, before it is stored in the canvas. -/
def Optimized.canvasSize (videoWidth videoHeight : Nat) : ℚ × ℚ :=
  let maxWidth : ℚ := 640
  let maxHeight : ℚ := 480
  let size0 : ℚ × ℚ := (videoWidth, videoHeight)
  let size1 : ℚ × ℚ :=
    if size0.1 > maxWidth then (maxWidth, size0.2 * (maxWidth / size0.1)) else size0
  if size1.2 > maxHeight then (size1.1 * (maxHeight / size1.2), maxHeight) else size1

/-- The method `updateLiveCanvasSize()` of app-optimized: the assignment of the size
resets the canvas. -/
def Optimized.updateLiveCanvasSize (s : LiveState) : LiveState :=
  let size := Optimized.canvasSize s.videoWidth s.videoHeight
  { s with liveCtx := Ctx.fresh (toLong size.1).toNat (toLong size.2).toNat, liveTexts := [] }

/-- The method `startLiveDetection()` of app-optimized. -/
def Optimized.startLiveDetection (s : LiveState) : LiveState :=
  if !s.faceDetectionModel then s.showError "Gesichtserkennungsmodell nicht verfügbar" 5000
  else
    let s1 : LiveState := { s with isLiveDetectionActive := true }
    let s2 : LiveState := { Optimized.updateLiveCanvasSize s1 with frameSkipCounter := 0 }
    let t := s2.setInterval
    let s3 : LiveState := { t.2 with detectionInterval := some t.1 }
    s3.showError ("Live-Effekte aktiv: " ++ s3.currentEffect.label) 2000

/-- The method `toggleLiveDetection()` of app-optimized. -/
def Optimized.toggleLiveDetection (s : LiveState) : LiveState :=
  if s.isLiveDetectionActive then { Optimized.stopLiveDetection s with liveBtnActive := false }
  else { Optimized.startLiveDetection s with liveBtnActive := true }

/-- The colour stops of `applyBlurEffect(face)` in the live variants. -/
def liveBlurStops : List (ℚ × Color) :=
  [(0, { r := 60, g := 60, b := 60, a := 9 / 10 }),
   (1 / 2, { r := 80, g := 80, b := 80, a := 8 / 10 }),
   (1, { r := 100, g := 100, b := 100, a := 6 / 10 })]

/-- The colour stops of `applyEmojiEffect(face, emoji)`. -/
def emojiStops : List (ℚ × Color) :=
  [(0, { r := 255, g := 255, b := 255, a := 9 / 10 }),
   (7 / 10, { r := 255, g := 255, b := 255, a := 8 / 10 }),
   (1, { r := 255, g := 255, b := 255, a := 6 / 10 })]

/-- The method `applyBlurEffect(face)` of app-optimized; `none` when a canvas call
throws. -/
def Optimized.applyBlurEffect (s : LiveState) (face : FaceRegion) : Option LiveState :=
  (createRadialGradient face.x face.y face.radius liveBlurStops).bind fun gradient =>
    (((s.liveCtx.setFillStyle gradient).beginPath).arc face.x face.y face.radius).map fun c =>
      { s with liveCtx := c.fill }

/-- The method `applyEmojiEffect(face, emoji)`; `none` when a canvas call throws. -/
def Optimized.applyEmojiEffect (s : LiveState) (face : FaceRegion) (emoji : String) :
    Option LiveState :=
  (createRadialGradient face.x face.y face.radius emojiStops).bind fun gradient =>
    (((s.liveCtx.setFillStyle gradient).beginPath).arc face.x face.y face.radius).map fun c =>
      let fontSize := face.radius * (3 / 2)
      { s with liveCtx := c.fill,
               liveTexts := s.liveTexts ++
                 [{ text := emoji, x := face.x, y := face.y, fontSize := fontSize }] }

/-- The `switch` of `applyLiveBlur` for one face. -/
def Optimized.applyEffect (s : LiveState) (face : FaceRegion) : Option LiveState :=
  match s.currentEffect with
  | Effect.blur => Optimized.applyBlurEffect s face
  | Effect.smiley => Optimized.applyEmojiEffect s face "😊"
  | Effect.sunglasses => Optimized.applyEmojiEffect s face "😎"
  | Effect.heart_eyes => Optimized.applyEmojiEffect s face "😍"
  | Effect.wink => Optimized.applyEmojiEffect s face "😉"
  | Effect.cool => Optimized.applyEmojiEffect s face "🤩"

/-- The method `applyLiveBlur(faces)` of app-optimized: the faces are drawn in turn; the
flag is false when a call threw, and then the later faces are not drawn. -/
def Optimized.applyLiveBlur (s : LiveState) (faces : List FaceRegion) : LiveState × Bool :=
  faces.foldl
    (fun acc face =>
      if acc.2 then
        match Optimized.applyEffect acc.1 face with
        | some t => (t, true)
        | none => (acc.1, false)
      else acc)
    (s, true)

/-- The method `detectAndBlurLive()` of app-optimized up to the point where it awaits the
detector; the flag tells whether it called the detector. -/
def Optimized.tickBegin (s : LiveState) : LiveState × Bool :=
  if !s.isLiveDetectionActive || !s.faceDetectionModel then (s, false)
  else
    let s1 : LiveState := { s with frameSkipCounter := s.frameSkipCounter + 1 }
    if s1.frameSkipCounter % 2 ≠ 0 then
      if s1.lastDetectedFaces.length > 0 then
        ((Optimized.applyLiveBlur s1.clearOverlay s1.lastDetectedFaces).1, false)
      else (s1, false)
    else (s1, true)

/-- The method `detectAndBlurLive()` of app-optimized from the point where the detector
has answered. -/
def Optimized.tickResume (s : LiveState) (estimate : Except String (List Prediction)) :
    LiveState :=
  match estimate with
  | Except.error _ => s
  | Except.ok predictions =>
    let s1 := s.clearOverlay
    if predictions.length > 0 then
      let faces := predictions.map
        (Optimized.liveFace s1.liveCtx.bitmap.width s1.liveCtx.bitmap.height s1.videoWidth
          s1.videoHeight)
      let r := Optimized.applyLiveBlur s1 faces
      if r.2 then { r.1 with lastDetectedFaces := faces } else r.1
    else s1

/-- One tick of the detection timer of app-optimized whose detector call, if any, is
answered before anything else happens. -/
def Optimized.detectAndBlurLive (s : LiveState) (estimate : Except String (List Prediction)) :
    LiveState :=
  let b := Optimized.tickBegin s
  if b.2 then Optimized.tickResume b.1 estimate else b.1

/-- The method `retakePhoto()` of app-live. -/
def Live.retakePhoto (s : LiveState) : LiveState :=
  let s1 : LiveState := if s.isLiveDetectionActive then Live.stopLiveDetection s else s
  { s1 with app := s1.app.retakePhoto, liveBtnActive := false }

/-- The method `retakePhoto()` of app-optimized. -/
def Optimized.retakePhoto (s : LiveState) : LiveState :=
  let s1 : LiveState := if s.isLiveDetectionActive then Optimized.stopLiveDetection s else s
  let s2 : LiveState := { s1 with app := s1.app.retakePhoto, liveBtnActive := false }
  Optimized.performMemoryCleanup s2

/-- The method `showResults(photoBlob, result)` of app-optimized. -/
def Optimized.showResults (s : LiveState) (photoBlob : Bitmap) (result : AnalysisResult) :
    LiveState :=
  let s1 : LiveState :=
    if s.isLiveDetectionActive then { Optimized.stopLiveDetection s with liveBtnActive := false }
    else s
  { s1 with app := s1.app.showResults photoBlob result }

/-- The method `analyzePhoto(photoBlob)` of app-optimized, given the outcome of the
detection. -/
def Optimized.analyzePhoto (s : LiveState) (photoBlob : Bitmap) (outcome : Detection) :
    LiveState :=
  let s1 : LiveState := { s with app := { s.app with loading := true } }
  let s2 : LiveState :=
    match outcome with
    | Detection.resolved description faces =>
      let a := s1.app.newArray faces
      let result : AnalysisResult := { description := description, faces := a.1 }
      let s2 : LiveState := { s1 with app := { a.2 with analysisResult := some result } }
      Optimized.showResults s2 photoBlob result
    | Detection.rejected message =>
      let s2 := s1.showError ("Analyse fehlgeschlagen: " ++ message) 5000
      let a := s2.app.newArray []
      Optimized.showResults { s2 with app := a.2 } photoBlob
        { description :=
            "Automatische Gesichtserkennung fehlgeschlagen. Manuelle Markierung verfügbar.",
          faces := a.1 }
  { s2 with app := { s2.app with loading := false } }

/-- The method `capturePhoto()` of app-optimized together with its `toBlob` callback. -/
def Optimized.capturePhoto (s : LiveState) (frame : Bitmap) (outcome : Detection) : LiveState :=
  if s.app.streamReady then
    let wasLiveActive := s.isLiveDetectionActive
    let s1 : LiveState := if wasLiveActive then Optimized.stopLiveDetection s else s
    let s2 : LiveState := { s1 with app := { s1.app with currentPhoto := some frame } }
    let s3 := Optimized.analyzePhoto s2 frame outcome
    if wasLiveActive then { s3 with pendingLiveClicks := s3.pendingLiveClicks + 1 } else s3
  else s

/-- The method `showResults(photoBlob, result)` of app-live. -/
def Live.showResults (s : LiveState) (photoBlob : Bitmap) (result : AnalysisResult) :
    LiveState :=
  let s1 : LiveState :=
    if s.isLiveDetectionActive then { Live.stopLiveDetection s with liveBtnActive := false }
    else s
  { s1 with app := s1.app.showResults photoBlob result }

/-- The method `analyzePhoto(photoBlob)` of app-live, given the outcome of the
detection. -/
def Live.analyzePhoto (s : LiveState) (photoBlob : Bitmap) (outcome : Detection) : LiveState :=
  let s1 : LiveState := { s with app := { s.app with loading := true } }
  let s2 : LiveState :=
    match outcome with
    | Detection.resolved description faces =>
      let a := s1.app.newArray faces
      let result : AnalysisResult := { description := description, faces := a.1 }
      let s2 : LiveState := { s1 with app := { a.2 with analysisResult := some result } }
      Live.showResults s2 photoBlob result
    | Detection.rejected message =>
      let s2 := s1.showError ("Analyse fehlgeschlagen: " ++ message) 5000
      let a := s2.app.newArray []
      Live.showResults { s2 with app := a.2 } photoBlob
        { description :=
            "Automatische Gesichtserkennung fehlgeschlagen. Manuelle Markierung verfügbar.",
          faces := a.1 }
  { s2 with app := { s2.app with loading := false } }

/-- The `onclick` handler that `enableManualFaceDetection` installs in app-live and
app-optimized (the text of app-simple). -/
def LiveState.manualClick (s : LiveState) (image : ImageElement)
    (left top clientX clientY : ℚ) : Option LiveState :=
  (s.app.manualClick image left top clientX clientY).map fun a => { s with app := a }

/-! ## Session state of the canvas variants

The variants app.js, app-improved, app-offline, app-tensorflow and app-fixed draw the
obfuscated image on the canvas `blurredCanvas` of the page. -/

/-- The variants that draw on `blurredCanvas`. -/
inductive CanvasVariant where
  | app
  | improved
  | offline
  | tensorflow
  | fixed
deriving DecidableEq, Repr

/-- The `PicAI` object of a canvas variant with the parts of the page it writes.  A call
of `createBlurredVersion` that `setupFaceBlurring` has scheduled is kept in `renderJobs`
as the array it was given. -/
structure CanvasState where
  streamReady : Bool
  currentPhoto : Option Bitmap
  analysisResult : Option AnalysisResult
  isBlurred : Bool
  resultsShown : Bool
  resultImageSrc : Src
  resultImageHidden : Bool
  blurredCanvas : Ctx
  blurredCanvasHidden : Bool
  toggleBtnText : String
  toggleBtnHidden : Bool
  description : String
  faceCount : Nat
  facesList : List FaceRegion
  facesInfoHidden : Bool
  manualBtns : Nat
  clickHandler : Bool
  loading : Bool
  messages : List (String × Nat)
  arrays : Nat → List FaceRegion
  nextArray : Nat
  nextUrl : Nat
  blobs : Url → Option Bitmap
  revoked : List Url
  renderJobs : List Nat

/-- The state after the constructor and `initializeApp`. -/
def CanvasState.init (streamReady : Bool) : CanvasState :=
  { streamReady := streamReady, currentPhoto := none, analysisResult := none,
    isBlurred := false, resultsShown := false, resultImageSrc := Src.empty,
    resultImageHidden := false, blurredCanvas := Ctx.fresh 300 150,
    blurredCanvasHidden := true, toggleBtnText := "Gesichter verwischen",
    toggleBtnHidden := true, description := "", faceCount := 0, facesList := [],
    facesInfoHidden := true, manualBtns := 0, clickHandler := false, loading := false,
    messages := [], arrays := fun _ => [], nextArray := 0, nextUrl := 0,
    blobs := fun _ => none, revoked := [], renderJobs := [] }

/-- The method `showError(message, duration)`. -/
def CanvasState.showError (s : CanvasState) (message : String) (duration : Nat) : CanvasState :=
  { s with messages := s.messages ++ [(message, duration)] }

/-- The call `URL.createObjectURL(blob)`. -/
def CanvasState.createObjectURL (s : CanvasState) (blob : Bitmap) : Url × CanvasState :=
  (s.nextUrl,
    { s with nextUrl := s.nextUrl + 1,
             blobs := fun u => if u = s.nextUrl then some blob else s.blobs u })

/-- The call `URL.revokeObjectURL(u)`. -/
def CanvasState.revokeObjectURL (s : CanvasState) (u : Url) : CanvasState :=
  { s with revoked := u :: s.revoked }

/-- A new array object with the given content. -/
def CanvasState.newArray (s : CanvasState) (faces : List FaceRegion) : Nat × CanvasState :=
  (s.nextArray,
    { s with nextArray := s.nextArray + 1,
             arrays := fun k => if k = s.nextArray then faces else s.arrays k })

/-- The method `setupFaceBlurring(faces)`: a call of `createBlurredVersion` with this
array is scheduled for when the result image is ready. -/
def CanvasState.setupFaceBlurring (s : CanvasState) (faces : Nat) : CanvasState :=
  { s with renderJobs := s.renderJobs ++ [faces] }

/-- The method `addManualFaceDetection()`: app-improved appends a button, the later
variants replace the one they find; app.js has no such method. -/
def CanvasState.addManualFaceDetection (v : CanvasVariant) (s : CanvasState) : CanvasState :=
  match v with
  | CanvasVariant.app => s
  | CanvasVariant.improved => { s with manualBtns := s.manualBtns + 1 }
  | _ => { s with manualBtns := 1 }

/-- Whether `showResults` calls `addManualFaceDetection` before it looks at the faces
(app-offline, app-tensorflow, app-fixed). -/
def CanvasVariant.alwaysOffersManual : CanvasVariant → Bool
  | CanvasVariant.offline => true
  | CanvasVariant.tensorflow => true
  | CanvasVariant.fixed => true
  | _ => false

/-- The method `showResults(photoBlob, result)` of the canvas variants; app-improved
calls `addManualFaceDetection` only when there are no faces. -/
def CanvasState.showResults (v : CanvasVariant) (s : CanvasState) (photoBlob : Bitmap)
    (result : AnalysisResult) : CanvasState :=
  let s1 : CanvasState := { s with resultsShown := true }
  let u := s1.createObjectURL photoBlob
  let s2 : CanvasState :=
    { u.2 with resultImageSrc := Src.url u.1, description := result.description }
  let s3 : CanvasState := if v.alwaysOffersManual then s2.addManualFaceDetection v else s2
  if (s3.arrays result.faces).length > 0 then
    let s4 : CanvasState := s3.setupFaceBlurring result.faces
    { s4 with toggleBtnHidden := false, faceCount := (s4.arrays result.faces).length,
              facesList := s4.arrays result.faces, facesInfoHidden := false }
  else if v = CanvasVariant.improved then s3.addManualFaceDetection v
  else s3

/-- The description that the `catch` of `analyzePhoto` shows with the photo. -/
def CanvasVariant.fallbackText : CanvasVariant → String
  | CanvasVariant.improved =>
    "Automatische Analyse fehlgeschlagen. Sie können manuell Gesichter markieren."
  | _ => "Automatische Gesichtserkennung fehlgeschlagen. Manuelle Markierung verfügbar."

/-- Whether the `catch` of `analyzePhoto` calls `showResults` (not in app.js and
app-offline). -/
def CanvasVariant.catchShowsResults : CanvasVariant → Bool
  | CanvasVariant.app => false
  | CanvasVariant.offline => false
  | _ => true

/-- The method `analyzePhoto(photoBlob)` of the canvas variants, given the outcome of the
awaited detection.  The `catch` of app.js and app-offline shows the message only; the one
of app-improved, app-tensorflow and app-fixed also shows the photo with an empty list,
and does not assign `analysisResult`. -/
def CanvasState.analyzePhoto (v : CanvasVariant) (s : CanvasState) (photoBlob : Bitmap)
    (outcome : Detection) : CanvasState :=
  let s1 : CanvasState := { s with loading := true }
  let s2 : CanvasState :=
    match outcome with
    | Detection.resolved description faces =>
      let a := s1.newArray faces
      let result : AnalysisResult := { description := description, faces := a.1 }
      let s2 : CanvasState := { a.2 with analysisResult := some result }
      s2.showResults v photoBlob result
    | Detection.rejected message =>
      let s2 := s1.showError ("Analyse fehlgeschlagen: " ++ message) 5000
      if v.catchShowsResults then
        let a := s2.newArray []
        a.2.showResults v photoBlob { description := v.fallbackText, faces := a.1 }
      else s2
  { s2 with loading := false }

/-- The method `capturePhoto()` of the canvas variants with its `toBlob` callback. -/
def CanvasState.capturePhoto (v : CanvasVariant) (s : CanvasState) (frame : Bitmap)
    (outcome : Detection) : CanvasState :=
  if s.streamReady then
    CanvasState.analyzePhoto v { s with currentPhoto := some frame } frame outcome
  else s

/-- The method `enableManualFaceDetection()`, run by a click on a manual button: the
click handler is installed on the result image.  In app.js there is no such method. -/
def CanvasState.enableManualFaceDetection (v : CanvasVariant) (s : CanvasState) : CanvasState :=
  match v with
  | CanvasVariant.app => s
  | CanvasVariant.improved =>
    ({ s with clickHandler := true }).showError
      "Klicken Sie auf Gesichter im Bild um sie zu markieren" 3000
  | CanvasVariant.offline =>
    ({ s with clickHandler := true }).showError
      "Klicken Sie auf Gesichter im Bild um sie zu markieren" 3000
  | _ =>
    ({ s with clickHandler := true }).showError "Klicken Sie auf weitere Gesichter im Bild" 3000

/-- The region that the click handler of a canvas variant makes. -/
def CanvasVariant.manualFace (v : CanvasVariant) (image : ImageElement)
    (left top clientX clientY : ℚ) : FaceRegion :=
  match v with
  | CanvasVariant.improved => Improved.manualFace image left top clientX clientY
  | CanvasVariant.offline => Offline.manualFace image left top clientX clientY
  | _ => PicAI.manualFace image left top clientX clientY

/-- The `onclick` handler installed by `enableManualFaceDetection`: `none` when it throws
because `analysisResult` is `null`. -/
def CanvasState.manualClick (v : CanvasVariant) (s : CanvasState) (image : ImageElement)
    (left top clientX clientY : ℚ) : Option CanvasState :=
  match s.analysisResult with
  | none => none
  | some result =>
    let face := v.manualFace image left top clientX clientY
    let faces := s.arrays result.faces ++ [face]
    let s1 : CanvasState :=
      { s with arrays := fun k => if k = result.faces then faces else s.arrays k }
    let s2 : CanvasState := { s1.setupFaceBlurring result.faces with toggleBtnHidden := false }
    match v with
    | CanvasVariant.improved =>
      some { s2 with faceCount := faces.length, facesInfoHidden := false }
    | CanvasVariant.offline =>
      let s3 : CanvasState :=
        { s2 with faceCount := faces.length, facesList := faces, facesInfoHidden := false }
      some (s3.showError ("Gesicht " ++ toString faces.length ++
        " markiert! Klicken Sie weitere Gesichter an oder verwischen Sie die markierten.") 3000)
    | _ =>
      let s3 : CanvasState :=
        { s2 with faceCount := faces.length, facesList := faces, facesInfoHidden := false }
      some (s3.showError ("Gesicht " ++ toString faces.length ++ " markiert!") 2000)

/-- A click on the result image: the handler runs if one is installed. -/
def CanvasState.clickImage (v : CanvasVariant) (s : CanvasState) (image : ImageElement)
    (left top clientX clientY : ℚ) : Option CanvasState :=
  if s.clickHandler then s.manualClick v image left top clientX clientY else some s

/-- The method `createBlurredVersion(image, canvas, faces)` of each canvas variant. -/
def CanvasVariant.createBlurredVersion (v : CanvasVariant) (image : ImageElement) (canvas : Ctx)
    (faces : List FaceRegion) (rng : Rng) : Option Draw :=
  match v with
  | CanvasVariant.app => App.createBlurredVersion image canvas faces rng
  | CanvasVariant.improved => Improved.createBlurredVersion image.natural canvas faces rng
  | CanvasVariant.offline => Offline.createBlurredVersion image.natural canvas faces rng
  | CanvasVariant.tensorflow => Tensorflow.createBlurredVersion image.natural canvas faces rng
  | CanvasVariant.fixed => Fixed.createBlurredVersion image.natural canvas faces rng

/-- The oldest scheduled call of `setupFaceBlurring` runs on the loaded result image,
which is shown at the given size: the canvas takes the natural size of the image and
`createBlurredVersion` draws the regions that the array holds now.  The drawing of a call
that throws is not kept. -/
def CanvasState.renderReady (v : CanvasVariant) (s : CanvasState) (offsetWidth offsetHeight : ℚ)
    (rng : Rng) : CanvasState :=
  match s.renderJobs with
  | [] => s
  | job :: rest =>
    let s1 : CanvasState := { s with renderJobs := rest }
    match s1.resultImageSrc with
    | Src.url u =>
      match s1.blobs u with
      | some photo =>
        let image : ImageElement :=
          { natural := photo, offsetWidth := offsetWidth, offsetHeight := offsetHeight }
        let canvas := Ctx.fresh photo.width photo.height
        match v.createBlurredVersion image canvas (s1.arrays job) rng with
        | some d => { s1 with blurredCanvas := d.ctx }
        | none => { s1 with blurredCanvas := canvas }
      | none => s1
    | _ => s1

/-- The method `retakePhoto()` of the canvas variants. -/
def CanvasState.retakePhoto (v : CanvasVariant) (s : CanvasState) : CanvasState :=
  let s1 : CanvasState :=
    { s with currentPhoto := none, analysisResult := none, isBlurred := false,
             resultsShown := false, toggleBtnHidden := true, facesInfoHidden := true }
  match v with
  | CanvasVariant.app =>
    { s1 with resultImageSrc := Src.empty,
              blurredCanvas := s1.blurredCanvas.clearRect 0 0 1000 1000 }
  | CanvasVariant.improved =>
    { s1 with resultImageSrc := Src.empty,
              blurredCanvas := s1.blurredCanvas.clearRect 0 0 1000 1000,
              manualBtns := 0 }
  | _ =>
    let s2 : CanvasState :=
      match s1.resultImageSrc with
      | Src.url u => { s1.revokeObjectURL u with resultImageSrc := Src.empty }
      | _ => s1
    { s2 with
      blurredCanvas := s2.blurredCanvas.clearRect 0 0 s2.blurredCanvas.bitmap.width
        s2.blurredCanvas.bitmap.height,
      manualBtns := 0, clickHandler := false }

/-! ## Sample sessions -/

/-- A prediction whose box has no extent. -/
def pointPrediction : Prediction :=
  { topLeft := (10, 10), bottomRight := (10, 10), probability := none }

/-- A prediction with the box from `(10, 10)` to `(30, 40)`. -/
def boxPrediction : Prediction :=
  { topLeft := (10, 10), bottomRight := (30, 40), probability := some (9 / 10) }

/-- The test `text.toLowerCase().includes(k)` for a text that contains the word
"person" and none of the other words asked for. -/
def mentionsPerson (_text k : String) : Bool := k == "person"

/-- A session of app-simple after a photo was analysed with one face found. -/
def analysedSession : AppState :=
  (AppState.init true).capturePhoto (plainPhoto 4 4 100)
    (Detection.resolved "Foto analysiert" [centreFace])

/-- A session of app-optimized with live detection running on a 640 by 480 video. -/
def liveSession : LiveState :=
  Optimized.startLiveDetection (LiveState.init true true 640 480)

/-- A session of app-optimized after a photo was analysed with one face found and the
obfuscated image was made. -/
def cachedSession : LiveState :=
  let s := Optimized.capturePhoto (LiveState.init true true 640 480) (plainPhoto 4 4 100)
    (Detection.resolved "Foto analysiert" [centreFace])
  { s with app := s.app.blurredImageLoaded (constRng 0) }

/-- The 4 by 4 result image shown at 2 by 2. -/
def shownPhoto : ImageElement :=
  { natural := plainPhoto 4 4 100, offsetWidth := 2, offsetHeight := 2 }

/-- A live session of app-optimized whose 2 by 2 overlay has a painted pixel and a
drawn emoji, with one region remembered and the detection timer running. -/
def paintedSession : LiveState :=
  { LiveState.init true true 2 2 with
    isLiveDetectionActive := true, detectionInterval := some 1, timers := [1], nextTimer := 2,
    lastDetectedFaces := [centreFace],
    liveCtx := (Ctx.fresh 2 2).fillRect 0 0 1 1,
    liveTexts := [{ text := "😊", x := 1, y := 1, fontSize := 3 / 2 }] }

/-- Four ticks of the detection timer of app-optimized after live detection was started:
the first and third are skipped, the second finds the face `boxPrediction`, the fourth
finds no face. -/
def staleTicks4 : LiveState :=
  let t1 := Optimized.detectAndBlurLive liveSession (Except.ok [])
  let t2 := Optimized.detectAndBlurLive t1 (Except.ok [boxPrediction])
  let t3 := Optimized.detectAndBlurLive t2 (Except.ok [])
  Optimized.detectAndBlurLive t3 (Except.ok [])

/-- The fifth tick after `staleTicks4`, a skipped one. -/
def staleTicks5 : LiveState := Optimized.detectAndBlurLive staleTicks4 (Except.ok [])

/-- A session of app.js in which the request of the analysis came back with status 500. -/
def appFailedSession : CanvasState :=
  CanvasState.capturePhoto CanvasVariant.app (CanvasState.init true) (plainPhoto 4 4 100)
    (App.callDeepSeekAPI (ApiReply.status 500 "") fun _ => [])

/-- A session of app-offline whose analysis was rejected. -/
def offlineFailedSession : CanvasState :=
  CanvasState.capturePhoto CanvasVariant.offline (CanvasState.init true) (plainPhoto 4 4 100)
    (Detection.rejected "x")

/-- A new session of app-improved in which the request of the analysis came back with
status 401. -/
def improvedFailedSession : CanvasState :=
  CanvasState.capturePhoto CanvasVariant.improved (CanvasState.init true) (plainPhoto 4 4 100)
    (Improved.callDeepSeekAPI (ApiReply.status 401 "") mentionsPerson)

/-- A session of app-improved with a photo of 100 by 100 pixels whose description
mentions a person. -/
def outsideSession : CanvasState :=
  CanvasState.capturePhoto CanvasVariant.improved (CanvasState.init true)
    (plainPhoto 100 100 100)
    (Improved.callDeepSeekAPI (ApiReply.content (some "Eine Person")) mentionsPerson)
/-- The message that the `catch` of `analyzePhoto` shows for an error with the given
message. -/
def failureMessage (message : String) : String × Nat :=
  ("Analyse fehlgeschlagen: " ++ message, 5000)

/-- The canvas session `t` differs from `c` by a failed analysis that is only reported: the
message is shown, the loading indicator is off, and the results view, the result image,
the description and the manual buttons are as before. -/
def CanvasState.OnlyReports (c t : CanvasState) (message : String) : Prop :=
  t.messages = c.messages ++ [failureMessage message] ∧ t.loading = false ∧
    t.resultsShown = c.resultsShown ∧ t.resultImageSrc = c.resultImageSrc ∧
    t.description = c.description ∧ t.manualBtns = c.manualBtns

/-- The canvas session `t` differs from `c` by a failed analysis after which the photo is
shown with an empty list: the message is shown, the loading indicator is off, the
results view is shown with the photo under a new URL and the given description, a manual
button is offered, no rendering is scheduled, and the toggle button is as before. -/
def CanvasState.ShowsEmpty (c t : CanvasState) (photo : Bitmap) (message description : String) :
    Prop :=
  t.messages = c.messages ++ [failureMessage message] ∧ t.loading = false ∧
    t.resultsShown = true ∧ t.resultImageSrc = Src.url c.nextUrl ∧
    t.blobs c.nextUrl = some photo ∧ t.description = description ∧
    t.renderJobs = c.renderJobs ∧ t.toggleBtnHidden = c.toggleBtnHidden ∧ 1 ≤ t.manualBtns

/-- The same for a session of app-simple, app-live or app-optimized, where `shown` are
the messages shown since `s`. -/
def AppState.ShowsEmpty (s t : AppState) (photo : Bitmap) (shown : List (String × Nat)) : Prop :=
  t.messages = s.messages ++ shown ∧ t.loading = false ∧ t.resultsShown = true ∧
    t.resultImageSrc = Src.url s.nextUrl ∧ t.blobs s.nextUrl = some photo ∧
    t.blurJobs = s.blurJobs ∧ t.toggleBtnHidden = s.toggleBtnHidden ∧ t.manualBtn = true

/-- The description that `detectFacesWithTensorFlow` resolves with when the model call
throws. -/
def modelFailedText : String := "Gesichtserkennung fehlgeschlagen. Manuelle Markierung verfügbar."

/-! ## Live detection in app-live -/

/-- The loop `for (let x = x0; cond(x); x = step(x)) body` whose counter is a number that
need not be an integer, run with a bound on the number of iterations. -/
def forLoopQ {σ : Type} (cond : ℚ → Bool) (step : ℚ → ℚ) (body : ℚ → σ → Option σ) :
    Nat → ℚ → σ → Option σ
  | 0, x, s => if cond x then none else some s
  | fuel + 1, x, s =>
    if cond x then (body x s).bind (fun s' => forLoopQ cond step body fuel (step x) s')
    else some s

/-- The least natural number that is not below `q`. -/
def ceilNat (q : ℚ) : Nat := (-Rat.floor (-q)).toNat

/-- The body of the inner loop of `applyLivePixelation(face)`: a grey square of side 12 is
drawn at `(x, y)` when that point lies in the circle. -/
def Live.pixelSquare (face : FaceRegion) (x y : ℚ) (s : Draw) : Draw :=
  let radius := face.radius
  let distance := jsSqrt ((x - face.x) ^ 2 + (y - face.y) ^ 2)
  if distance ≤ radius then
    let u := s.rng.next
    let gray : ℚ := (Rat.floor (u.1 * 100) : ℚ) + 80
    let ctx := s.ctx.setFillStyle (Paint.solid { r := gray, g := gray, b := gray, a := 7 / 10 })
    { ctx := ctx.fillRect x y 12 12, rng := u.2 }
  else s

/-- The method `applyLivePixelation(face)` of app-live: the two loops step by
`pixelSize = 12` from `face.y - radius` and `face.x - radius`. -/
def Live.applyLivePixelation (face : FaceRegion) (s : Draw) : Option Draw :=
  let radius := face.radius
  forLoopQ (fun y => decide (y < face.y + radius)) (· + 12)
    (fun y s =>
      forLoopQ (fun x => decide (x < face.x + radius)) (· + 12)
        (fun x s => some (Live.pixelSquare face x y s))
        (ceilNat (radius / 6)) (face.x - radius) s)
    (ceilNat (radius / 6)) (face.y - radius) s

/-- The method `applyBlurEffect(face)` of app-live: the gradient of app-optimized and
then the pixelation.  `none` when a canvas call throws. -/
def Live.applyBlurEffect (s : LiveState × Rng) (face : FaceRegion) : Option (LiveState × Rng) :=
  (Optimized.applyBlurEffect s.1 face).bind fun t =>
    (Live.applyLivePixelation face { ctx := t.liveCtx, rng := s.2 }).map fun d =>
      ({ t with liveCtx := d.ctx }, d.rng)

/-- The `switch` of `applyLiveBlur` in app-live for one face; `applyEmojiEffect` has the
text of app-optimized. -/
def Live.applyEffect (s : LiveState × Rng) (face : FaceRegion) : Option (LiveState × Rng) :=
  match s.1.currentEffect with
  | Effect.blur => Live.applyBlurEffect s face
  | Effect.smiley => (Optimized.applyEmojiEffect s.1 face "😊").map fun t => (t, s.2)
  | Effect.sunglasses => (Optimized.applyEmojiEffect s.1 face "😎").map fun t => (t, s.2)
  | Effect.heart_eyes => (Optimized.applyEmojiEffect s.1 face "😍").map fun t => (t, s.2)
  | Effect.wink => (Optimized.applyEmojiEffect s.1 face "😉").map fun t => (t, s.2)
  | Effect.cool => (Optimized.applyEmojiEffect s.1 face "🤩").map fun t => (t, s.2)

/-- The method `applyLiveBlur(faces)` of app-live; the flag is false when a call threw. -/
def Live.applyLiveBlur (s : LiveState × Rng) (faces : List FaceRegion) :
    (LiveState × Rng) × Bool :=
  faces.foldl
    (fun acc face =>
      if acc.2 then
        match Live.applyEffect acc.1 face with
        | some t => (t, true)
        | none => (acc.1, false)
      else acc)
    (s, true)

/-- The method `updateLiveCanvasSize()` of app-live: the canvas takes the size of the
video. -/
def Live.updateLiveCanvasSize (s : LiveState) : LiveState :=
  { s with liveCtx := Ctx.fresh s.videoWidth s.videoHeight, liveTexts := [] }

/-- The method `startLiveDetection()` of app-live. -/
def Live.startLiveDetection (s : LiveState) : LiveState :=
  if !s.faceDetectionModel then s.showError "Gesichtserkennungsmodell nicht verfügbar" 5000
  else
    let s1 : LiveState := { s with isLiveDetectionActive := true }
    let s2 : LiveState := Live.updateLiveCanvasSize s1
    let t := s2.setInterval
    let s3 : LiveState := { t.2 with detectionInterval := some t.1 }
    s3.showError ("Live-Effekte aktiv: " ++ s3.currentEffect.label) 2000

/-- The method `toggleLiveDetection()` of app-live. -/
def Live.toggleLiveDetection (s : LiveState) : LiveState :=
  if s.isLiveDetectionActive then { Live.stopLiveDetection s with liveBtnActive := false }
  else { Live.startLiveDetection s with liveBtnActive := true }

/-- The method `detectAndBlurLive()` of app-live up to the point where it awaits the
detector; the flag tells whether it called the detector. -/
def Live.tickBegin (s : LiveState) : LiveState × Bool :=
  if !s.isLiveDetectionActive || !s.faceDetectionModel then (s, false) else (s, true)

/-- The method `detectAndBlurLive()` of app-live from the point where the detector has
answered: nothing is tested again before the overlay is cleared and drawn. -/
def Live.tickResume (s : LiveState) (estimate : Except String (List Prediction)) (rng : Rng) :
    LiveState :=
  match estimate with
  | Except.error _ => s
  | Except.ok predictions =>
    let s1 := s.clearOverlay
    if predictions.length > 0 then
      let faces := predictions.map Live.liveFace
      let r := Live.applyLiveBlur (s1, rng) faces
      if r.2 then { r.1.1 with lastDetectedFaces := faces } else r.1.1
    else s1

/-- The method `capturePhoto()` of app-live together with its `toBlob` callback. -/
def Live.capturePhoto (s : LiveState) (frame : Bitmap) (outcome : Detection) : LiveState :=
  if s.app.streamReady then
    let wasLiveActive := s.isLiveDetectionActive
    let s1 : LiveState := if wasLiveActive then Live.stopLiveDetection s else s
    let s2 : LiveState := { s1 with app := { s1.app with currentPhoto := some frame } }
    let s3 := Live.analyzePhoto s2 frame outcome
    if wasLiveActive then { s3 with pendingLiveClicks := s3.pendingLiveClicks + 1 } else s3
  else s

/-! ## Pausing and resuming app-optimized -/

/-- The method `pauseApp()` of app-optimized, run when the page is hidden (the switching
of the stream tracks is left out). -/
def Optimized.pauseApp (s : LiveState) : LiveState :=
  if s.isLiveDetectionActive then
    { Optimized.stopLiveDetection s with wasLiveActiveBeforePause := true }
  else s

/-- The method `resumeApp()` of app-optimized, run when the page is shown again: the
restart of live detection is scheduled for a second later. -/
def Optimized.resumeApp (s : LiveState) : LiveState :=
  if s.wasLiveActiveBeforePause then { s with pendingRestarts := s.pendingRestarts + 1 } else s

/-- The callback that `resumeApp` scheduled runs:
`this.startLiveDetection(); this.wasLiveActiveBeforePause = false`. -/
def Optimized.restartFires (s : LiveState) : LiveState :=
  if s.pendingRestarts = 0 then s
  else
    let s1 : LiveState := { s with pendingRestarts := s.pendingRestarts - 1 }
    { Optimized.startLiveDetection s1 with wasLiveActiveBeforePause := false }

/-- The callback that `capturePhoto` scheduled runs: `liveBlurBtn.click()`. -/
def Optimized.liveClickFires (s : LiveState) : LiveState :=
  if s.pendingLiveClicks = 0 then s
  else Optimized.toggleLiveDetection { s with pendingLiveClicks := s.pendingLiveClicks - 1 }

/-- What happens between two states of the detection timer of app-optimized: the timer
calls `detectAndBlurLive`, or the detector answers a call that is waiting. -/
inductive TickEvent where
  | tick
  | answer (estimate : Except String (List Prediction))

/-- The event is a call of `detectAndBlurLive`. -/
def TickEvent.isTick : TickEvent → Bool
  | TickEvent.tick => true
  | TickEvent.answer _ => false

/-- The state of app-optimized after a timer event. -/
def Optimized.tickStep (s : LiveState) : TickEvent → LiveState
  | TickEvent.tick => (Optimized.tickBegin s).1
  | TickEvent.answer estimate => Optimized.tickResume s estimate

/-! ## Runs of a photo session -/

/-- The steps of a photo session in app-simple, app-live and app-optimized: a capture with
the outcome of its analysis (which ends in `showResults`), the completion of the oldest
`createBlurredImage`, a click on the manual button, a click on the result image, a click
on the toggle button, and a retake. -/
inductive SessionEvent where
  | capture (frame : Bitmap) (outcome : Detection)
  | imageLoaded (rng : Rng)
  | enableManual
  | click (image : ImageElement) (left top clientX clientY : ℚ)
  | toggleBlur
  | retake

/-- A click on the result image in app-simple: the handler runs if it is installed; when
it throws for want of a current photo the region is already pushed. -/
def AppState.clickImage (s : AppState) (image : ImageElement) (left top clientX clientY : ℚ) :
    AppState :=
  if s.clickHandler then
    match s.manualClick image left top clientX clientY with
    | some t => t
    | none =>
      match s.analysisResult with
      | some result =>
        { s with arrays := fun k =>
            if k = result.faces then
              s.arrays result.faces ++ [PicAI.manualFace image left top clientX clientY]
            else s.arrays k }
      | none => s
  else s

/-- One step of a session of app-simple. -/
def AppState.step (s : AppState) : SessionEvent → AppState
  | SessionEvent.capture frame outcome => s.capturePhoto frame outcome
  | SessionEvent.imageLoaded rng => s.blurredImageLoaded rng
  | SessionEvent.enableManual => s.enableManualFaceDetection
  | SessionEvent.click image left top clientX clientY =>
    s.clickImage image left top clientX clientY
  | SessionEvent.toggleBlur => s.toggleBlur
  | SessionEvent.retake => s.retakePhoto

/-- One step of a session of app-live. -/
def Live.step (s : LiveState) : SessionEvent → LiveState
  | SessionEvent.capture frame outcome => Live.capturePhoto s frame outcome
  | SessionEvent.imageLoaded rng => { s with app := s.app.blurredImageLoaded rng }
  | SessionEvent.enableManual => { s with app := s.app.enableManualFaceDetection }
  | SessionEvent.click image left top clientX clientY =>
    { s with app := s.app.clickImage image left top clientX clientY }
  | SessionEvent.toggleBlur => { s with app := s.app.toggleBlur }
  | SessionEvent.retake => Live.retakePhoto s

/-- One step of a session of app-optimized. -/
def Optimized.step (s : LiveState) : SessionEvent → LiveState
  | SessionEvent.capture frame outcome => Optimized.capturePhoto s frame outcome
  | SessionEvent.imageLoaded rng => { s with app := s.app.blurredImageLoaded rng }
  | SessionEvent.enableManual => { s with app := s.app.enableManualFaceDetection }
  | SessionEvent.click image left top clientX clientY =>
    { s with app := s.app.clickImage image left top clientX clientY }
  | SessionEvent.toggleBlur => { s with app := s.app.toggleBlur }
  | SessionEvent.retake => Optimized.retakePhoto s

/-- If the session shows the obfuscated image, there is one in the cache. -/
def AppState.BlurredIsCached (s : AppState) : Prop :=
  s.isBlurred = true → s.blurredImageData.isSome = true

/-! ## Sample sessions of the last claims -/

/-- A random stream whose first draw is `99/100` and whose other draws are `1/2`. -/
def edgeRng : Rng := { draws := fun n => if n = 0 then 99 / 100 else 1 / 2, pos := 0 }

/-- A region of radius 20 around `(50, 50)`. -/
def wideFace : FaceRegion := { x := 50, y := 50, radius := 20, confidence := none }

/-- A session of app-live in which `stopLiveDetection` runs between the call of the
detector by `detectAndBlurLive` and its answer with the face `boxPrediction`. -/
def staleAnswerSession : LiveState :=
  let s1 := Live.startLiveDetection (LiveState.init true true 640 480)
  let s2 := (Live.tickBegin s1).1
  let s3 := Live.stopLiveDetection s2
  Live.tickResume s3 (Except.ok [boxPrediction]) (constRng 0)

/-- A session of app-optimized: live detection is started, the page is hidden and shown
again, the live button is clicked within the second that follows, and the scheduled
restart runs. -/
def doubleStartSession : LiveState :=
  let s1 := Optimized.toggleLiveDetection (LiveState.init true true 640 480)
  let s2 := Optimized.pauseApp s1
  let s3 := Optimized.resumeApp s2
  let s4 := Optimized.toggleLiveDetection s3
  Optimized.restartFires s4

/-- A session of app-optimized: live detection is started, the page is hidden, shown,
hidden and shown again within a second, and the two scheduled restarts run. -/
def flickerSession : LiveState :=
  let s1 := Optimized.toggleLiveDetection (LiveState.init true true 640 480)
  let s2 := Optimized.resumeApp (Optimized.pauseApp s1)
  let s3 := Optimized.resumeApp (Optimized.pauseApp s2)
  Optimized.restartFires (Optimized.restartFires s3)

/-- A session of app-improved with a photo of 1920 by 1080 pixels whose description
mentions a person, after the obfuscated image was drawn on the canvas. -/
def largeImprovedSession : CanvasState :=
  (CanvasState.capturePhoto CanvasVariant.improved (CanvasState.init true)
    (plainPhoto 1920 1080 100)
    (Improved.callDeepSeekAPI (ApiReply.content (some "Eine Person")) mentionsPerson)).renderReady
    CanvasVariant.improved 1920 1080 (constRng 0)

/-- A session of app.js with a photo of 1920 by 1080 pixels in whose description the
pattern finds one face, after the obfuscated image was drawn on the canvas. -/
def largeAppSession : CanvasState :=
  (CanvasState.capturePhoto CanvasVariant.app (CanvasState.init true)
    (plainPhoto 1920 1080 100)
    (App.callDeepSeekAPI (ApiReply.content (some "Gesicht bei 960, 540, Radius 100"))
      fun _ => [(960, 540, 100)])).renderReady
    CanvasVariant.app 1920 1080 (constRng 0)

/-! ## Fills with anti-aliasing -/

/-- The whole square of pixel `(i, j)`, from `(i, j)` to `(i + 1, j + 1)`, lies in the
region: for a circle, its four corners do. -/
def Region.containsPixel : Region → Nat → Nat → Bool
  | Region.circle cx cy r, i, j =>
    decide (((i : ℚ) - cx) ^ 2 + ((j : ℚ) - cy) ^ 2 ≤ r ^ 2) &&
    decide (((i : ℚ) + 1 - cx) ^ 2 + ((j : ℚ) - cy) ^ 2 ≤ r ^ 2) &&
    decide (((i : ℚ) - cx) ^ 2 + ((j : ℚ) + 1 - cy) ^ 2 ≤ r ^ 2) &&
    decide (((i : ℚ) + 1 - cx) ^ 2 + ((j : ℚ) + 1 - cy) ^ 2 ≤ r ^ 2)
  | Region.rect x y w h, i, j =>
    decide (min x (x + w) ≤ (i : ℚ)) && decide ((i : ℚ) + 1 ≤ max x (x + w)) &&
    decide (min y (y + h) ≤ (j : ℚ)) && decide ((j : ℚ) + 1 ≤ max y (y + h))

/-- A rasteriser of paths: `coverage path i j` is the share of pixel `(i, j)` that a
fill of the path paints.  How the pixels on the rim of a path are anti-aliased is left
to the implementation of the canvas. -/
structure Raster where
  coverage : List Region → Nat → Nat → ℚ

/-- What holds of every rasteriser: a coverage lies between 0 and 1, and it is 1 for a
pixel whose square lies wholly in a subpath. -/
def Raster.Sound (R : Raster) : Prop :=
  ∀ path i j, 0 ≤ R.coverage path i j ∧ R.coverage path i j ≤ 1 ∧
    ((path.any fun reg => reg.containsPixel i j) = true → R.coverage path i j = 1)

/-- The rasteriser without anti-aliasing, that of `Ctx.fill`: a pixel is painted in full
when its centre lies in a subpath, and not at all otherwise. -/
def Raster.centre : Raster :=
  { coverage := fun path i j => if (path.any fun reg => reg.covers i j) = true then 1 else 0 }

/-- The share of pixel `(i, j)` that the clipping region lets through. -/
def Ctx.clipCoverage (R : Raster) (c : Ctx) (i j : Nat) : ℚ :=
  (c.state.clip.map fun path => R.coverage path i j).prod

/-- Paint the fill style on the pixels of the canvas, each with the given weight: the
alpha of the colour is multiplied by the weight before the compositing. -/
def Ctx.paintWith (c : Ctx) (weight : Nat → Nat → ℚ) : Ctx :=
  c.mapPx fun i j old =>
    if i < c.bitmap.width ∧ j < c.bitmap.height ∧ 0 < weight i j then
      match c.state.fillStyle.colorAt i j with
      | some col => over { r := col.r, g := col.g, b := col.b, a := col.a * weight i j } old
      | none => old
    else old

/-- The call `ctx.fill()` on a canvas with rasteriser `R`. -/
def Ctx.fillWith (R : Raster) (c : Ctx) : Ctx :=
  c.paintWith fun i j => R.coverage c.path i j * c.clipCoverage R i j

/-- The dark overlay of `createBlurredImage` for one face, on a canvas with rasteriser
`R`. -/
def washFaceWith (R : Raster) (face : FaceRegion) (ctx : Ctx) : Option Ctx :=
  let blurRadius := face.radius
  (createRadialGradient face.x face.y blurRadius washStops).bind fun gradient =>
    (((ctx.setFillStyle gradient).beginPath).arc face.x face.y blurRadius).map fun blurCtx =>
      blurCtx.fillWith R

/-- One iteration of the noise loop of `createBlurredImage`, on a canvas with rasteriser
`R`. -/
def noiseStepWith (R : Raster) (face : FaceRegion) (s : Draw) : Option Draw :=
  let blurRadius := face.radius
  let u1 := s.rng.next
  let noiseX := face.x + (u1.1 - 1 / 2) * blurRadius * 2
  let u2 := u1.2.next
  let noiseY := face.y + (u2.1 - 1 / 2) * blurRadius * 2
  let distance := jsSqrt ((noiseX - face.x) ^ 2 + (noiseY - face.y) ^ 2)
  if distance ≤ blurRadius then
    let u3 := u2.2.next
    let u4 := u3.2.next
    let u5 := u4.2.next
    let blurCtx := s.ctx.setFillStyle
      (Paint.solid { r := u3.1 * 100 + 50, g := u4.1 * 100 + 50, b := u5.1 * 100 + 50,
                     a := 3 / 10 })
    let u6 := u5.2.next
    (blurCtx.beginPath.arc noiseX noiseY (u6.1 * 8 + 3)).map fun blurCtx =>
      { ctx := blurCtx.fillWith R, rng := u6.2 }
  else some { ctx := s.ctx, rng := u2.2 }

/-- The noise loop of `createBlurredImage`, on a canvas with rasteriser `R`. -/
def noiseLoopWith (R : Raster) (face : FaceRegion) (s : Draw) : Option Draw :=
  forLoop (fun i => decide (i < 30)) (· + 1) (fun _ s => noiseStepWith R face s) 30 0 s

/-- The body of `faces.forEach(face => ...)` in `createBlurredImage`, on a canvas with
rasteriser `R`.  The pixelation reads and stores image data and fills nothing. -/
def blurFaceWith (R : Raster) (s : Draw) (face : FaceRegion) : Option Draw :=
  (pixelateLayers face s.ctx).bind fun blurCtx =>
    (washFaceWith R face blurCtx).bind fun blurCtx =>
      noiseLoopWith R face { ctx := blurCtx, rng := s.rng }

/-- The `onload` handler of `createBlurredImage(photoBlob, faces)` on a canvas with
rasteriser `R`; with `Raster.centre` it is `createBlurredImage`. -/
def createBlurredImageWith (R : Raster) (img : Bitmap) (faces : List FaceRegion) (rng : Rng) :
    Option Draw :=
  faces.foldlM (blurFaceWith R)
    { ctx := (Ctx.fresh img.width img.height).drawImage img, rng := rng }

/-- Every pixel of the bitmap whose square lies wholly in the circle of the face has no
colour channel above 178. -/
def Bitmap.DimWithin (bm : Bitmap) (face : FaceRegion) : Prop :=
  ∀ x y, x < bm.width → y < bm.height →
    (Region.circle face.x face.y face.radius).containsPixel x y = true → (bm.px x y).Dim

/-- Relation between a buffer `d0` and a buffer `d` obtained by storing the colour `v`
at the pixels of `S`. -/
def Filled (w h : Nat) (d0 d : List Byte) (S : Nat → Nat → Prop) (v : Nat → Nat) : Prop :=
  d.length = d0.length ∧ ∀ X Y c, X < w → Y < h → c < 4 →
    (S X Y → readAt d (chanIndex w X Y c) = min (v c) 255) ∧
    (¬ S X Y → readAt d (chanIndex w X Y c) = readAt d0 (chanIndex w X Y c))

/-- Relation between the original buffer `d0` and a buffer `d` in which the pixels of
`Done` hold the floor of their block's average and all others are untouched. -/
def Averaged (w h p : Nat) (d0 d : List Byte) (Done : Nat → Nat → Prop) : Prop :=
  d.length = d0.length ∧ ∀ X Y c, X < w → Y < h → c < 4 →
    (Done X Y →
      readAt d (chanIndex w X Y c) = blockSum d0 w h p X Y c / blockCount w h p X Y) ∧
    (¬ Done X Y → readAt d (chanIndex w X Y c) = readAt d0 (chanIndex w X Y c))

/-! ## The block loop computes block averages -/

/-- Total-correctness rule for `forLoop`: an invariant kept by the body and a measure
that the step decreases give a result that satisfies the invariant at an index where
the condition fails. -/
theorem forLoop_rule {σ : Type} (cond : Nat → Bool) (step : Nat → Nat)
    (body : Nat → σ → Option σ) (I : Nat → σ → Prop) (μ : Nat → Nat)
    (hbody : ∀ i s, I i s → cond i = true → ∃ s', body i s = some s' ∧ I (step i) s')
    (hμ : ∀ i, cond i = true → μ (step i) < μ i) :
    ∀ fuel i s, μ i ≤ fuel → I i s →
      ∃ s' j, forLoop cond step body fuel i s = some s' ∧ I j s' ∧ cond j = false := by
  intro fuel
  induction fuel with
  | zero =>
    intro i s hfuel hI
    by_cases hc : cond i = true
    · have := hμ i hc
      omega
    · refine ⟨s, i, ?_, hI, by simpa using hc⟩
      simp [forLoop, hc]
  | succ n ih =>
    intro i s hfuel hI
    by_cases hc : cond i = true
    · obtain ⟨s1, hs1, hI1⟩ := hbody i s hI hc
      have hlt := hμ i hc
      obtain ⟨s2, j, hrun, hI2, hcj⟩ := ih (step i) s1 (by omega) hI1
      refine ⟨s2, j, ?_, hI2, hcj⟩
      simp [forLoop, hc, hs1, hrun]
    · refine ⟨s, i, ?_, hI, by simpa using hc⟩
      simp [forLoop, hc]

theorem blockCond_iff (p len start d : Nat) :
    (decide (d < p) && decide (start + d < len)) = true ↔ d < blockSide len p start := by
  simp [blockSide]
  omega

/-- One row of the summing loops adds the row's bytes to every accumulator. -/
theorem sumRow_spec (data : List Byte) (w p px py dy : Nat) (acc0 : Acc) :
    ∃ acc, forLoop (fun dx => decide (dx < p) && decide (px + dx < w)) (· + 1)
        (fun dx acc =>
          let pixelIndex := ((py + dy) * w + (px + dx)) * 4
          some { r := acc.r + readAt data pixelIndex
                 g := acc.g + readAt data (pixelIndex + 1)
                 b := acc.b + readAt data (pixelIndex + 2)
                 a := acc.a + readAt data (pixelIndex + 3)
                 count := acc.count + 1 })
        p 0 acc0 = some acc ∧
      acc.count = acc0.count + blockSide w p px ∧
      ∀ c, c < 4 → acc.chan c = acc0.chan c +
        ∑ dx in Finset.range (blockSide w p px), readAt data (chanIndex w (px + dx) (py + dy) c) := by
  obtain ⟨acc, j, hrun, ⟨hj, hcnt, hch⟩, hcj⟩ := forLoop_rule
    (fun dx => decide (dx < p) && decide (px + dx < w)) (· + 1)
    (fun dx (acc : Acc) =>
          let pixelIndex := ((py + dy) * w + (px + dx)) * 4
          some { r := acc.r + readAt data pixelIndex
                 g := acc.g + readAt data (pixelIndex + 1)
                 b := acc.b + readAt data (pixelIndex + 2)
                 a := acc.a + readAt data (pixelIndex + 3)
                 count := acc.count + 1 })
    (fun dx acc => dx ≤ blockSide w p px ∧ acc.count = acc0.count + dx ∧
      ∀ c, c < 4 → acc.chan c = acc0.chan c +
        ∑ k in Finset.range dx, readAt data (chanIndex w (px + k) (py + dy) c))
    (fun dx => blockSide w p px - dx)
    (by
      intro i s ⟨hi, hcnt, hch⟩ hc
      rw [blockCond_iff] at hc
      refine ⟨_, rfl, by show i + 1 ≤ _; omega, by simp [hcnt]; omega, ?_⟩
      intro c hc4
      have h0 := hch c hc4
      rw [Finset.sum_range_succ]
      interval_cases c <;> simp [Acc.chan, chanIndex] at h0 ⊢ <;> omega)
    (by
      intro i hc
      rw [blockCond_iff] at hc
      show blockSide w p px - (i + 1) < blockSide w p px - i
      omega)
    p 0 acc0 (by simp [blockSide]) ⟨by omega, by simp, by simp⟩
  have hjeq : j = blockSide w p px := by
    have : ¬ j < blockSide w p px := by
      rw [← blockCond_iff]
      simp [hcj]
    omega
  subst hjeq
  exact ⟨acc, hrun, hcnt, hch⟩

/-- The summing loops return the channel sums and the pixel count of the block. -/
theorem sumBlock_spec (data : List Byte) (w h p px py : Nat) :
    ∃ acc, sumBlock data w h p px py = some acc ∧
      acc.count = blockSide h p py * blockSide w p px ∧
      ∀ c, c < 4 → acc.chan c =
        ∑ dy in Finset.range (blockSide h p py), ∑ dx in Finset.range (blockSide w p px),
          readAt data (chanIndex w (px + dx) (py + dy) c) := by
  obtain ⟨acc, j, hrun, ⟨hj, hcnt, hch⟩, hcj⟩ := forLoop_rule
    (fun dy => decide (dy < p) && decide (py + dy < h)) (· + 1)
    (fun dy (acc : Acc) =>
      forLoop (fun dx => decide (dx < p) && decide (px + dx < w)) (· + 1)
        (fun dx acc =>
          let pixelIndex := ((py + dy) * w + (px + dx)) * 4
          some { r := acc.r + readAt data pixelIndex
                 g := acc.g + readAt data (pixelIndex + 1)
                 b := acc.b + readAt data (pixelIndex + 2)
                 a := acc.a + readAt data (pixelIndex + 3)
                 count := acc.count + 1 })
        p 0 acc)
    (fun dy acc => dy ≤ blockSide h p py ∧ acc.count = dy * blockSide w p px ∧
      ∀ c, c < 4 → acc.chan c =
        ∑ k in Finset.range dy, ∑ dx in Finset.range (blockSide w p px),
          readAt data (chanIndex w (px + dx) (py + k) c))
    (fun dy => blockSide h p py - dy)
    (by
      intro i s ⟨hi, hcnt, hch⟩ hc
      rw [blockCond_iff] at hc
      obtain ⟨acc, hrun, hcnt1, hch1⟩ := sumRow_spec data w p px py i s
      refine ⟨acc, hrun, by show i + 1 ≤ _; omega, ?_, ?_⟩
      · rw [hcnt1, hcnt]
        ring
      · intro c hc4
        rw [hch1 c hc4, hch c hc4, Finset.sum_range_succ])
    (by
      intro i hc
      rw [blockCond_iff] at hc
      show blockSide h p py - (i + 1) < blockSide h p py - i
      omega)
    p 0 { r := 0, g := 0, b := 0, a := 0, count := 0 } (by simp [blockSide])
    ⟨by omega, by simp, by intro c hc; interval_cases c <;> simp [Acc.chan]⟩
  have hjeq : j = blockSide h p py := by
    have : ¬ j < blockSide h p py := by
      rw [← blockCond_iff]
      simp [hcj]
    omega
  subst hjeq
  exact ⟨acc, hrun, hcnt, hch⟩

theorem readAt_writeAt (d : List Byte) (i v k : Nat) :
    readAt (writeAt d i v) k = if i = k ∧ i < d.length then min v 255 else readAt d k := by
  unfold readAt writeAt
  rw [List.getD_eq_getElem?_getD, List.getD_eq_getElem?_getD, List.getElem?_set]
  by_cases hik : i = k
  · subst hik
    by_cases hlen : i < d.length
    · simp [hlen, toByte]
    · have hnone : d[i]? = none := List.getElem?_eq_none (Nat.le_of_not_lt hlen)
      simp [hlen, hnone]
  · simp [hik]

theorem length_writeAt (d : List Byte) (i v : Nat) : (writeAt d i v).length = d.length := by
  simp [writeAt]

theorem chanIndex_lt (w h X Y c : Nat) (hX : X < w) (hY : Y < h) (hc : c < 4) :
    chanIndex w X Y c < 4 * w * h := by
  have h1 : Y * w + X < h * w := by
    calc Y * w + X < Y * w + w := by omega
      _ = (Y + 1) * w := by ring
      _ ≤ h * w := Nat.mul_le_mul_right w hY
  have h2 : 4 * w * h = h * w * 4 := by ring
  unfold chanIndex
  omega

theorem chanIndex_inj (w X Y c X' Y' c' : Nat) (hX : X < w) (hX' : X' < w) (hc : c < 4)
    (hc' : c' < 4) (h : chanIndex w X Y c = chanIndex w X' Y' c') :
    X = X' ∧ Y = Y' ∧ c = c' := by
  unfold chanIndex at h
  have h1 : Y * w + X = Y' * w + X' := by omega
  have h2 : c = c' := by omega
  have hw : 0 < w := by omega
  have h3 : (Y * w + X) / w = Y := by
    rw [Nat.add_comm, Nat.add_mul_div_right _ _ hw, Nat.div_eq_of_lt hX]
    omega
  have h4 : (Y' * w + X') / w = Y' := by
    rw [Nat.add_comm, Nat.add_mul_div_right _ _ hw, Nat.div_eq_of_lt hX']
    omega
  have h5 : Y = Y' := by
    rw [← h3, ← h4, h1]
  subst h5
  exact ⟨by omega, rfl, h2⟩

theorem filled_congr {w h : Nat} {d0 d : List Byte} {S S' : Nat → Nat → Prop} {v : Nat → Nat}
    (hF : Filled w h d0 d S v) (hS : ∀ X Y, X < w → Y < h → (S X Y ↔ S' X Y)) :
    Filled w h d0 d S' v := by
  refine ⟨hF.1, ?_⟩
  intro X Y c hX hY hc
  rw [← hS X Y hX hY]
  exact hF.2 X Y c hX hY hc

/-- Storing the four channels of one pixel. -/
theorem filled_writePixel {w h : Nat} {d0 d : List Byte} {S : Nat → Nat → Prop}
    (r g b a : Nat) (hF : Filled w h d0 d S (Acc.mk r g b a 0).chan)
    (hlen : d0.length = 4 * w * h) (X0 Y0 : Nat) (hX0 : X0 < w) (hY0 : Y0 < h) :
    Filled w h d0
      (writeAt (writeAt (writeAt (writeAt d ((Y0 * w + X0) * 4) r) ((Y0 * w + X0) * 4 + 1) g)
        ((Y0 * w + X0) * 4 + 2) b) ((Y0 * w + X0) * 4 + 3) a)
      (fun X Y => S X Y ∨ (X = X0 ∧ Y = Y0)) (Acc.mk r g b a 0).chan := by
  obtain ⟨hl, hF⟩ := hF
  refine ⟨by simp [length_writeAt, hl], ?_⟩
  intro X Y c hX hY hc
  have hb : ∀ c', c' < 4 → (Y0 * w + X0) * 4 + c' < d.length := by
    intro c' hc'
    have := chanIndex_lt w h X0 Y0 c' hX0 hY0 hc'
    unfold chanIndex at this
    omega
  have hb0 := hb 0 (by omega)
  have hb1 := hb 1 (by omega)
  have hb2 := hb 2 (by omega)
  have hb3 := hb 3 (by omega)
  simp only [Nat.add_zero] at hb0
  by_cases hXY : X = X0 ∧ Y = Y0
  · obtain ⟨rfl, rfl⟩ := hXY
    refine ⟨fun _ => ?_, fun hn => absurd (Or.inr ⟨rfl, rfl⟩) hn⟩
    simp only [readAt_writeAt, length_writeAt, chanIndex]
    interval_cases c <;> simp [Acc.chan, hb0, hb1, hb2, hb3]
  · have hne : ∀ c', c' < 4 → (Y0 * w + X0) * 4 + c' ≠ chanIndex w X Y c := by
      intro c' hc' heq
      have := chanIndex_inj w X0 Y0 c' X Y c hX0 hX hc' hc (by unfold chanIndex; exact heq)
      exact hXY ⟨this.1.symm, this.2.1.symm⟩
    have hn0 := hne 0 (by omega)
    have hn1 := hne 1 (by omega)
    have hn2 := hne 2 (by omega)
    have hn3 := hne 3 (by omega)
    simp only [Nat.add_zero] at hn0
    have hrd : readAt (writeAt (writeAt (writeAt (writeAt d ((Y0 * w + X0) * 4) r)
        ((Y0 * w + X0) * 4 + 1) g) ((Y0 * w + X0) * 4 + 2) b) ((Y0 * w + X0) * 4 + 3) a)
        (chanIndex w X Y c) = readAt d (chanIndex w X Y c) := by
      simp only [readAt_writeAt, hn0, hn1, hn2, hn3, false_and, if_false]
    rw [hrd]
    constructor
    · intro hS
      rcases hS with hS | hS
      · exact (hF X Y c hX hY hc).1 hS
      · exact absurd hS hXY
    · intro hS
      exact (hF X Y c hX hY hc).2 (fun h' => hS (Or.inl h'))

theorem filled_refl (w h : Nat) (d0 : List Byte) (S : Nat → Nat → Prop) (v : Nat → Nat)
    (hS : ∀ X Y, ¬ S X Y) : Filled w h d0 d0 S v :=
  ⟨rfl, fun X Y _ _ _ _ => ⟨fun hs => absurd hs (hS X Y), fun _ => rfl⟩⟩

/-- One row of the writing loops stores the colour in the row's pixels of the block. -/
theorem fillRow_spec (w h p px py dy r g b a : Nat) (d0 d : List Byte) (S : Nat → Nat → Prop)
    (hF : Filled w h d0 d S (Acc.mk r g b a 0).chan) (hlen : d0.length = 4 * w * h)
    (hdy : py + dy < h) :
    ∃ d', forLoop (fun dx => decide (dx < p) && decide (px + dx < w)) (· + 1)
        (fun dx d =>
          let pixelIndex := ((py + dy) * w + (px + dx)) * 4
          some (writeAt (writeAt (writeAt (writeAt d pixelIndex r) (pixelIndex + 1) g)
            (pixelIndex + 2) b) (pixelIndex + 3) a))
        p 0 d = some d' ∧
      Filled w h d0 d'
        (fun X Y => S X Y ∨ (Y = py + dy ∧ px ≤ X ∧ X < px + blockSide w p px))
        (Acc.mk r g b a 0).chan := by
  obtain ⟨d', j, hrun, ⟨hj, hI⟩, hcj⟩ := forLoop_rule
    (fun dx => decide (dx < p) && decide (px + dx < w)) (· + 1)
    (fun dx (d : List Byte) =>
          let pixelIndex := ((py + dy) * w + (px + dx)) * 4
          some (writeAt (writeAt (writeAt (writeAt d pixelIndex r) (pixelIndex + 1) g)
            (pixelIndex + 2) b) (pixelIndex + 3) a))
    (fun dx d => dx ≤ blockSide w p px ∧
      Filled w h d0 d (fun X Y => S X Y ∨ (Y = py + dy ∧ px ≤ X ∧ X < px + dx))
        (Acc.mk r g b a 0).chan)
    (fun dx => blockSide w p px - dx)
    (by
      intro i s ⟨hi, hFi⟩ hc
      rw [blockCond_iff] at hc
      have hlt : px + i < w := by
        unfold blockSide at hc
        omega
      refine ⟨_, rfl, by show i + 1 ≤ _; omega, ?_⟩
      refine filled_congr (filled_writePixel r g b a hFi hlen (px + i) (py + dy) hlt hdy) ?_
      intro X Y _ _
      show _ ↔ (S X Y ∨ (Y = py + dy ∧ px ≤ X ∧ X < px + (i + 1)))
      constructor
      · rintro ((hS | ⟨h1, h2, h3⟩) | ⟨h1, h2⟩)
        · exact Or.inl hS
        · exact Or.inr ⟨h1, h2, by omega⟩
        · exact Or.inr ⟨h2, by omega, by omega⟩
      · rintro (hS | ⟨h1, h2, h3⟩)
        · exact Or.inl (Or.inl hS)
        · by_cases hX : X = px + i
          · exact Or.inr ⟨hX, h1⟩
          · exact Or.inl (Or.inr ⟨h1, h2, by omega⟩))
    (by
      intro i hc
      rw [blockCond_iff] at hc
      show blockSide w p px - (i + 1) < blockSide w p px - i
      omega)
    p 0 d (by simp [blockSide])
    ⟨by omega, filled_congr hF (by
      intro X Y _ _
      constructor
      · intro hS
        exact Or.inl hS
      · rintro (hS | ⟨_, h2, h3⟩)
        · exact hS
        · omega)⟩
  have hjeq : j = blockSide w p px := by
    have : ¬ j < blockSide w p px := by
      rw [← blockCond_iff]
      simp [hcj]
    omega
  subst hjeq
  exact ⟨d', hrun, hI⟩

/-- The writing loops store the colour in every pixel of the block and nowhere else. -/
theorem fillBlock_spec (w h p px py r g b a : Nat) (d0 : List Byte)
    (hlen : d0.length = 4 * w * h) :
    ∃ d', fillBlock d0 w h p px py r g b a = some d' ∧
      Filled w h d0 d'
        (fun X Y => py ≤ Y ∧ Y < py + blockSide h p py ∧ px ≤ X ∧ X < px + blockSide w p px)
        (Acc.mk r g b a 0).chan := by
  obtain ⟨d', j, hrun, ⟨hj, hI⟩, hcj⟩ := forLoop_rule
    (fun dy => decide (dy < p) && decide (py + dy < h)) (· + 1)
    (fun dy (d : List Byte) =>
      forLoop (fun dx => decide (dx < p) && decide (px + dx < w)) (· + 1)
        (fun dx d =>
          let pixelIndex := ((py + dy) * w + (px + dx)) * 4
          some (writeAt (writeAt (writeAt (writeAt d pixelIndex r) (pixelIndex + 1) g)
            (pixelIndex + 2) b) (pixelIndex + 3) a))
        p 0 d)
    (fun dy d => dy ≤ blockSide h p py ∧
      Filled w h d0 d (fun X Y => py ≤ Y ∧ Y < py + dy ∧ px ≤ X ∧ X < px + blockSide w p px)
        (Acc.mk r g b a 0).chan)
    (fun dy => blockSide h p py - dy)
    (by
      intro i s ⟨hi, hFi⟩ hc
      rw [blockCond_iff] at hc
      have hlt : py + i < h := by
        unfold blockSide at hc
        omega
      obtain ⟨d', hrun, hF'⟩ := fillRow_spec w h p px py i r g b a d0 s _ hFi hlen hlt
      refine ⟨d', hrun, by show i + 1 ≤ _; omega, filled_congr hF' ?_⟩
      intro X Y _ _
      show _ ↔ (py ≤ Y ∧ Y < py + (i + 1) ∧ px ≤ X ∧ X < px + blockSide w p px)
      constructor
      · rintro (⟨h1, h2, h3, h4⟩ | ⟨h1, h2, h3⟩)
        · exact ⟨h1, by omega, h3, h4⟩
        · exact ⟨by omega, by omega, h2, h3⟩
      · rintro ⟨h1, h2, h3, h4⟩
        by_cases hY : Y = py + i
        · exact Or.inr ⟨hY, h3, h4⟩
        · exact Or.inl ⟨h1, by omega, h3, h4⟩)
    (by
      intro i hc
      rw [blockCond_iff] at hc
      show blockSide h p py - (i + 1) < blockSide h p py - i
      omega)
    p 0 d0 (by simp [blockSide])
    ⟨by omega, filled_refl w h d0 _ _ (by intro X Y; omega)⟩
  have hjeq : j = blockSide h p py := by
    have : ¬ j < blockSide h p py := by
      rw [← blockCond_iff]
      simp [hcj]
    omega
  subst hjeq
  exact ⟨d', hrun, hI⟩

theorem div_eq_iff_block (p k X : Nat) (hp : 1 ≤ p) : X / p = k ↔ k * p ≤ X ∧ X < k * p + p := by
  constructor
  · intro hk
    subst hk
    have h1 := Nat.div_mul_le_self X p
    have h2 := Nat.lt_div_mul_add (a := X) (b := p) (by omega)
    exact ⟨h1, h2⟩
  · rintro ⟨h1, h2⟩
    have h3 : k ≤ X / p := (Nat.le_div_iff_mul_le (by omega)).2 h1
    have h4 : X / p < k + 1 := (Nat.div_lt_iff_lt_mul (by omega)).2 (by
      have : (k + 1) * p = k * p + p := by ring
      omega)
    omega

theorem inBlock_iff (len p k X : Nat) (hp : 1 ≤ p) (hX : X < len) :
    (k * p ≤ X ∧ X < k * p + blockSide len p (k * p)) ↔ X / p = k := by
  rw [div_eq_iff_block p k X hp]
  unfold blockSide
  omega

theorem readAt_le (d : List Byte) (i : Nat) : readAt d i ≤ 255 := by
  unfold readAt
  have := (d.getD i 0).isLt
  omega

theorem sum_sum_le (n m : Nat) (f : Nat → Nat → Nat) (hf : ∀ i j, f i j ≤ 255) :
    ∑ i in Finset.range n, ∑ j in Finset.range m, f i j ≤ n * m * 255 := by
  have h1 : ∀ i, ∑ j in Finset.range m, f i j ≤ m * 255 := by
    intro i
    have := Finset.sum_le_card_nsmul (Finset.range m) (f i) 255 (fun j _ => hf i j)
    simpa using this
  have h2 := Finset.sum_le_card_nsmul (Finset.range n)
    (fun i => ∑ j in Finset.range m, f i j) (m * 255) (fun i _ => h1 i)
  simp only [Finset.card_range, smul_eq_mul] at h2
  calc ∑ i in Finset.range n, ∑ j in Finset.range m, f i j ≤ n * (m * 255) := h2
    _ = n * m * 255 := by ring

/-- One iteration of the block loop: the block at `(kx * p, ky * p)` is averaged. -/
theorem blockStep_spec (w h p kx ky : Nat) (d0 d : List Byte) (Done : Nat → Nat → Prop)
    (hp : 1 ≤ p) (hlen : d0.length = 4 * w * h) (hA : Averaged w h p d0 d Done)
    (hfresh : ∀ X Y, X / p = kx → Y / p = ky → ¬ Done X Y) :
    ∃ d', ((sumBlock d w h p (kx * p) (ky * p)).bind fun acc =>
        fillBlock d w h p (kx * p) (ky * p)
          (acc.r / acc.count) (acc.g / acc.count) (acc.b / acc.count) (acc.a / acc.count))
        = some d' ∧
      Averaged w h p d0 d' (fun X Y => Done X Y ∨ (X / p = kx ∧ Y / p = ky)) := by
  obtain ⟨hl, hA⟩ := hA
  obtain ⟨acc, hsum, hcnt, hch⟩ := sumBlock_spec d w h p (kx * p) (ky * p)
  obtain ⟨d', hfill, hl', hF⟩ := fillBlock_spec w h p (kx * p) (ky * p)
    (acc.r / acc.count) (acc.g / acc.count) (acc.b / acc.count) (acc.a / acc.count) d
    (by rw [hl, hlen])
  refine ⟨d', by simp [hsum, hfill], by rw [hl', hl], ?_⟩
  -- the sums read original bytes
  have hch0 : ∀ c, c < 4 → acc.chan c =
      ∑ dy in Finset.range (blockSide h p (ky * p)),
        ∑ dx in Finset.range (blockSide w p (kx * p)),
          readAt d0 (chanIndex w (kx * p + dx) (ky * p + dy) c) := by
    intro c hc
    rw [hch c hc]
    refine Finset.sum_congr rfl (fun dy hdy => Finset.sum_congr rfl (fun dx hdx => ?_))
    rw [Finset.mem_range] at hdy hdx
    have hx : kx * p + dx < w := by
      unfold blockSide at hdx
      omega
    have hy : ky * p + dy < h := by
      unfold blockSide at hdy
      omega
    have hxk : (kx * p + dx) / p = kx :=
      (inBlock_iff w p kx _ hp hx).1 ⟨by omega, by omega⟩
    have hyk : (ky * p + dy) / p = ky :=
      (inBlock_iff h p ky _ hp hy).1 ⟨by omega, by omega⟩
    exact (hA _ _ c hx hy hc).2 (hfresh _ _ hxk hyk)
  have hle : ∀ c, c < 4 → acc.chan c / acc.count ≤ 255 := by
    intro c hc
    apply Nat.div_le_of_le_mul
    rw [hch0 c hc, hcnt]
    have := sum_sum_le (blockSide h p (ky * p)) (blockSide w p (kx * p))
      (fun dy dx => readAt d0 (chanIndex w (kx * p + dx) (ky * p + dy) c))
      (fun _ _ => readAt_le _ _)
    simpa using this
  have hv : ∀ c, c < 4 →
      (Acc.mk (acc.r / acc.count) (acc.g / acc.count) (acc.b / acc.count)
        (acc.a / acc.count) 0).chan c = acc.chan c / acc.count := by
    intro c hc
    interval_cases c <;> simp [Acc.chan]
  intro X Y c hX hY hc
  have hin : (ky * p ≤ Y ∧ Y < ky * p + blockSide h p (ky * p) ∧
      kx * p ≤ X ∧ X < kx * p + blockSide w p (kx * p)) ↔ (X / p = kx ∧ Y / p = ky) := by
    rw [← inBlock_iff w p kx X hp hX, ← inBlock_iff h p ky Y hp hY]
    tauto
  by_cases hb : X / p = kx ∧ Y / p = ky
  · refine ⟨fun _ => ?_, fun hn => absurd (Or.inr hb) hn⟩
    rw [(hF X Y c hX hY hc).1 (hin.2 hb), hv c hc, Nat.min_eq_left (hle c hc), hch0 c hc, hcnt]
    unfold blockSum blockCount
    rw [hb.1, hb.2]
  · have hrd := (hF X Y c hX hY hc).2 (fun hs => hb (hin.1 hs))
    rw [hrd]
    constructor
    · rintro (hD | hD)
      · exact (hA X Y c hX hY hc).1 hD
      · exact absurd hD hb
    · intro hn
      exact (hA X Y c hX hY hc).2 (fun hD => hn (Or.inl hD))

theorem averaged_congr {w h p : Nat} {d0 d : List Byte} {D D' : Nat → Nat → Prop}
    (hA : Averaged w h p d0 d D) (hD : ∀ X Y, X < w → Y < h → (D X Y ↔ D' X Y)) :
    Averaged w h p d0 d D' := by
  refine ⟨hA.1, ?_⟩
  intro X Y c hX hY hc
  rw [← hD X Y hX hY]
  exact hA.2 X Y c hX hY hc

/-- One row of blocks: the inner `px` loop of the block loop. -/
theorem blockRow_spec (w h p ky : Nat) (d0 d : List Byte) (hp : 1 ≤ p)
    (hlen : d0.length = 4 * w * h) (hA : Averaged w h p d0 d (fun _ Y => Y / p < ky)) :
    ∃ d', forLoop (fun px => decide (px < w)) (· + p)
        (fun px d =>
          (sumBlock d w h p px (ky * p)).bind fun acc =>
            fillBlock d w h p px (ky * p)
              (acc.r / acc.count) (acc.g / acc.count) (acc.b / acc.count) (acc.a / acc.count))
        w 0 d = some d' ∧
      Averaged w h p d0 d' (fun _ Y => Y / p < ky + 1) := by
  obtain ⟨d', j, hrun, ⟨kx, hkx, hI⟩, hcj⟩ := forLoop_rule
    (fun px => decide (px < w)) (· + p)
    (fun px (d : List Byte) =>
          (sumBlock d w h p px (ky * p)).bind fun acc =>
            fillBlock d w h p px (ky * p)
              (acc.r / acc.count) (acc.g / acc.count) (acc.b / acc.count) (acc.a / acc.count))
    (fun px d => ∃ kx, px = kx * p ∧
      Averaged w h p d0 d (fun X Y => Y / p < ky ∨ (Y / p = ky ∧ X / p < kx)))
    (fun px => w - px)
    (by
      rintro i s ⟨kx, rfl, hAi⟩ hc
      obtain ⟨d', hstep, hA'⟩ := blockStep_spec w h p kx ky d0 s _ hp hlen hAi (by
        intro X Y hX hY
        omega)
      refine ⟨d', hstep, kx + 1, by show kx * p + p = (kx + 1) * p; ring, averaged_congr hA' ?_⟩
      intro X Y _ _
      constructor
      · rintro ((h1 | ⟨h1, h2⟩) | ⟨h1, h2⟩)
        · exact Or.inl h1
        · exact Or.inr ⟨h1, by omega⟩
        · exact Or.inr ⟨h2, by omega⟩
      · rintro (h1 | ⟨h1, h2⟩)
        · exact Or.inl (Or.inl h1)
        · by_cases hX : X / p = kx
          · exact Or.inr ⟨hX, h1⟩
          · exact Or.inl (Or.inr ⟨h1, by omega⟩))
    (by
      intro i hc
      have hi : i < w := by simpa using hc
      show w - (i + p) < w - i
      omega)
    w 0 d (by show w - 0 ≤ w; omega)
    ⟨0, by simp, averaged_congr hA (by
      intro X Y _ _
      constructor
      · intro h1
        exact Or.inl h1
      · rintro (h1 | ⟨_, h2⟩)
        · exact h1
        · exact absurd h2 (Nat.not_lt_zero _))⟩
  refine ⟨d', hrun, averaged_congr hI ?_⟩
  intro X Y hX _
  have hj : w ≤ j := by simpa using hcj
  have hXk : X / p < kx := (Nat.div_lt_iff_lt_mul (by omega)).2 (by omega)
  constructor
  · rintro (h1 | ⟨h1, _⟩) <;> omega
  · intro h1
    by_cases hY : Y / p = ky
    · exact Or.inr ⟨hY, hXk⟩
    · exact Or.inl (by omega)

/-- The block loop terminates and leaves every pixel at the floor of its block's average. -/
theorem blockLoop_spec (w h p : Nat) (d0 : List Byte) (hp : 1 ≤ p)
    (hlen : d0.length = 4 * w * h) :
    ∃ d', blockLoop d0 w h p = some d' ∧ Averaged w h p d0 d' (fun _ _ => True) := by
  obtain ⟨d', j, hrun, ⟨ky, hky, hI⟩, hcj⟩ := forLoop_rule
    (fun py => decide (py < h)) (· + p)
    (fun py (d : List Byte) =>
      forLoop (fun px => decide (px < w)) (· + p)
        (fun px d =>
          (sumBlock d w h p px py).bind fun acc =>
            fillBlock d w h p px py
              (acc.r / acc.count) (acc.g / acc.count) (acc.b / acc.count) (acc.a / acc.count))
        w 0 d)
    (fun py d => ∃ ky, py = ky * p ∧ Averaged w h p d0 d (fun _ Y => Y / p < ky))
    (fun py => h - py)
    (by
      rintro i s ⟨ky, rfl, hAi⟩ hc
      obtain ⟨d', hrow, hA'⟩ := blockRow_spec w h p ky d0 s hp hlen hAi
      exact ⟨d', hrow, ky + 1, by show ky * p + p = (ky + 1) * p; ring, hA'⟩)
    (by
      intro i hc
      have hi : i < h := by simpa using hc
      show h - (i + p) < h - i
      omega)
    h 0 d0 (by show h - 0 ≤ h; omega)
    ⟨0, by simp, ⟨rfl, fun X Y c _ _ _ =>
      ⟨fun hD => absurd hD (Nat.not_lt_zero _), fun _ => rfl⟩⟩⟩
  refine ⟨d', hrun, averaged_congr hI ?_⟩
  intro X Y _ hY
  have hj : h ≤ j := by simpa using hcj
  have hYk : Y / p < ky := (Nat.div_lt_iff_lt_mul (by omega)).2 (by omega)
  simp [hYk]

/-- C2: for every RGBA buffer of a `w` by `h` image and every block size `p >= 1`, the
block loop of `applyHeavyPixelation` returns, and in its result every channel of
every pixel `(x, y)` is the floor of the sum of that channel over the original pixels
of the `p`-block containing `(x, y)` (cut at the right and bottom edges) divided by
the number of those pixels. -/
theorem blockLoop_block_average (data : List Byte) (w h p : Nat) (hp : 1 ≤ p)
    (hlen : data.length = 4 * w * h) :
    ∃ out, blockLoop data w h p = some out ∧ out.length = data.length ∧
      ∀ x y c, x < w → y < h → c < 4 →
        readAt out (chanIndex w x y c) = blockSum data w h p x y c / blockCount w h p x y := by
  obtain ⟨out, hrun, hl, hA⟩ := blockLoop_spec w h p data hp hlen
  exact ⟨out, hrun, hl, fun x y c hx hy hc => (hA x y c hx hy hc).1 trivial⟩

/-! ## No regions: the renderers return the image -/

theorem roundByte_byte (n : Byte) : roundByte (n.val : ℚ) = n := by
  unfold roundByte toByte
  have h : ⌊((n.val : ℚ)) + 1 / 2⌋ = (n.val : Int) := by
    rw [Int.floor_eq_iff]
    constructor
    · push_cast
      linarith
    · push_cast
      linarith
  rw [h]
  apply Fin.ext
  have := n.isLt
  simp
  omega

/-- Compositing a pixel of full alpha replaces the destination. -/
theorem over_fullAlpha (p d : Pixel) (hp : p.a = 255) : over p.toColor d = p := by
  have hv : (255 : Byte).val = 255 := rfl
  have ha : ((255 : Byte).val : ℚ) = 255 := by
    rw [hv]
    norm_num
  unfold over Pixel.toColor
  simp only [hp, ha]
  have h1 : (255 : ℚ) / 255 = 1 := by norm_num
  simp only [h1, sub_self, mul_zero, add_zero, mul_one, div_one, one_mul]
  rw [roundByte_byte, roundByte_byte, roundByte_byte]
  have h2 : roundByte 255 = (255 : Byte) := by
    have := roundByte_byte 255
    simpa using this
  rw [h2]
  cases p
  simp_all

theorem drawImage_fresh (img : Bitmap) (hα : img.FullAlpha) :
    ((Ctx.fresh img.width img.height).drawImage img).bitmap.SameAs img := by
  refine ⟨rfl, rfl, ?_⟩
  intro x y hx hy
  have hx1 : x < img.width := hx
  have hy1 : y < img.height := hy
  simp [Ctx.drawImage, Ctx.mapPx, Bitmap.withPx, Ctx.fresh, Bitmap.blank, Ctx.inClip, hx1, hy1,
    over_fullAlpha _ _ (hα x y)]

theorem drawImage_fits (img : Bitmap) (canvas : Ctx) (hα : img.FullAlpha)
    (hfit : canvas.FitsImage img) : (canvas.drawImage img).bitmap.SameAs img := by
  obtain ⟨hw, hh, hc⟩ := hfit
  refine ⟨hw, hh, ?_⟩
  intro x y hx hy
  have hx1 : x < canvas.bitmap.width := hx
  have hy1 : y < canvas.bitmap.height := hy
  have hx2 : x < img.width := hw ▸ hx1
  have hy2 : y < img.height := hh ▸ hy1
  simp [Ctx.drawImage, Ctx.mapPx, Bitmap.withPx, Ctx.inClip, hx1, hy1, hx2, hy2, hc,
    over_fullAlpha _ _ (hα x y)]

theorem clear_drawImage_fits (img : Bitmap) (canvas : Ctx) (hα : img.FullAlpha)
    (hfit : canvas.FitsImage img) :
    ((canvas.clearRect 0 0 canvas.bitmap.width canvas.bitmap.height).drawImage img).bitmap.SameAs
      img := by
  obtain ⟨hw, hh, hc⟩ := hfit
  refine ⟨hw, hh, ?_⟩
  intro x y hx hy
  have hx1 : x < canvas.bitmap.width := hx
  have hy1 : y < canvas.bitmap.height := hy
  have hx2 : x < img.width := hw ▸ hx1
  have hy2 : y < img.height := hh ▸ hy1
  simp [Ctx.drawImage, Ctx.clearRect, Ctx.mapPx, Bitmap.withPx, Ctx.inClip, hx1, hy1, hx2, hy2,
    hc, over_fullAlpha _ _ (hα x y)]

theorem clear_drawImageScaled_fits (img : Bitmap) (canvas : Ctx) (hα : img.FullAlpha)
    (hfit : canvas.FitsImage img) :
    ((canvas.clearRect 0 0 canvas.bitmap.width canvas.bitmap.height).drawImageScaled img
      canvas.bitmap.width canvas.bitmap.height).bitmap.SameAs img := by
  obtain ⟨hw, hh, hc⟩ := hfit
  refine ⟨hw, hh, ?_⟩
  intro x y hx hy
  have hx1 : x < canvas.bitmap.width := hx
  have hy1 : y < canvas.bitmap.height := hy
  have hx2 : x < img.width := hw ▸ hx1
  have hy2 : y < img.height := hh ▸ hy1
  have hdx : x * img.width / img.width = x := Nat.mul_div_cancel x (by omega)
  have hdy : y * img.height / img.height = y := Nat.mul_div_cancel y (by omega)
  simp [Ctx.drawImageScaled, Ctx.clearRect, Ctx.mapPx, Bitmap.withPx, Ctx.inClip, hx1, hy1,
    hx2, hy2, hc, hw, hh, hdx, hdy, over_fullAlpha _ _ (hα x y)]

/-- C1: with an empty region list every still-mode renderer returns a canvas whose pixel
buffer is the source image: `createBlurredImage` (app-simple, app-live, app-optimized)
and `createBlurredVersion` of app-tensorflow, app-offline, app-improved, app.js and
app-fixed, for a photo without transparency drawn on a canvas of its natural size. -/
theorem no_regions_returns_source (img : Bitmap) (canvas : Ctx) (ow oh : ℚ) (rng : Rng)
    (hα : img.FullAlpha) (hfit : canvas.FitsImage img) :
    (∃ d, createBlurredImage img [] rng = some d ∧ d.ctx.bitmap.SameAs img) ∧
    (∃ d, Tensorflow.createBlurredVersion img canvas [] rng = some d ∧
      d.ctx.bitmap.SameAs img) ∧
    (∃ d, Offline.createBlurredVersion img canvas [] rng = some d ∧ d.ctx.bitmap.SameAs img) ∧
    (∃ d, Improved.createBlurredVersion img canvas [] rng = some d ∧
      d.ctx.bitmap.SameAs img) ∧
    (∃ d, App.createBlurredVersion { natural := img, offsetWidth := ow, offsetHeight := oh }
      canvas [] rng = some d ∧ d.ctx.bitmap.SameAs img) ∧
    (∃ d, Fixed.createBlurredVersion img canvas [] rng = some d ∧ d.ctx.bitmap.SameAs img) :=
  ⟨⟨_, rfl, drawImage_fresh img hα⟩,
   ⟨_, rfl, clear_drawImageScaled_fits img canvas hα hfit⟩,
   ⟨_, rfl, clear_drawImage_fits img canvas hα hfit⟩,
   ⟨_, rfl, drawImage_fits img canvas hα hfit⟩,
   ⟨_, rfl, drawImage_fits img canvas hα hfit⟩,
   ⟨_, rfl, clear_drawImageScaled_fits img canvas hα hfit⟩⟩

/-- Witness of C1: a plain 2 by 1 photo on a new canvas of its size. -/
theorem no_regions_returns_source_witness :
    (plainPhoto 2 1 200).FullAlpha ∧ (Ctx.fresh 2 1).FitsImage (plainPhoto 2 1 200) ∧
    ∃ d, createBlurredImage (plainPhoto 2 1 200) [] (constRng 0) = some d ∧
      d.ctx.bitmap.SameAs (plainPhoto 2 1 200) :=
  ⟨fun _ _ => rfl, ⟨rfl, rfl, rfl⟩,
    (no_regions_returns_source (plainPhoto 2 1 200) (Ctx.fresh 2 1) 2 1 (constRng 0)
      (fun _ _ => rfl) ⟨rfl, rfl, rfl⟩).1⟩

/-- Witness of C2: a 2 by 1 buffer and block size 15. -/
theorem blockLoop_block_average_witness :
    ∃ out, blockLoop [10, 20, 30, 255, 30, 40, 50, 255] 2 1 15 = some out ∧
      out.length = ([10, 20, 30, 255, 30, 40, 50, 255] : List Byte).length ∧
      ∀ x y c, x < 2 → y < 1 → c < 4 →
        readAt out (chanIndex 2 x y c)
          = blockSum [10, 20, 30, 255, 30, 40, 50, 255] 2 1 15 x y c / blockCount 2 1 15 x y :=
  blockLoop_block_average [10, 20, 30, 255, 30, 40, 50, 255] 2 1 15 (by decide) (by decide)

/-! ## The treatment of one region -/

theorem mix_le (cr ca dr da B : ℚ) (hca : 0 < ca) (hca1 : ca ≤ 1) (hda : 0 ≤ da)
    (hc : cr ≤ B) (hd : dr ≤ B) :
    (cr * ca + dr * da * (1 - ca)) / (ca + da * (1 - ca)) ≤ B := by
  have hden : 0 < ca + da * (1 - ca) := by
    have : 0 ≤ da * (1 - ca) := mul_nonneg hda (by linarith)
    linarith
  rw [div_le_iff₀ hden]
  have h1 : 0 ≤ (B - cr) * ca := mul_nonneg (by linarith) hca.le
  have h2 : 0 ≤ (B - dr) * (da * (1 - ca)) := mul_nonneg (by linarith) (mul_nonneg hda (by linarith))
  nlinarith

theorem wash_le (cr ca dr da : ℚ) (hca : 1 / 2 ≤ ca) (hca1 : ca ≤ 1) (hda : 0 ≤ da)
    (hda1 : da ≤ 1) (hc : cr ≤ 100) (hd : dr ≤ 255) :
    (cr * ca + dr * da * (1 - ca)) / (ca + da * (1 - ca)) ≤ 355 / 2 := by
  have hden : 0 < ca + da * (1 - ca) := by
    have : 0 ≤ da * (1 - ca) := mul_nonneg hda (by linarith)
    linarith
  rw [div_le_iff₀ hden]
  have h1 : 0 ≤ (100 - cr) * ca := mul_nonneg (by linarith) (by linarith)
  have h2 : 0 ≤ (255 - dr) * (da * (1 - ca)) := mul_nonneg (by linarith) (mul_nonneg hda (by linarith))
  have h3 : 0 ≤ (1 - da) * (1 - ca) := mul_nonneg (by linarith) (by linarith)
  nlinarith

theorem roundByte_le (q : ℚ) (B : Nat) (h : q < (B : ℚ) + 1 / 2) : (roundByte q).val ≤ B := by
  unfold roundByte toByte
  have h1 : ⌊q + 1 / 2⌋ < (B : Int) + 1 := by
    rw [Int.floor_lt]
    push_cast
    linarith
  have h2 : (⌊q + 1 / 2⌋).toNat ≤ B := by
    rw [Int.toNat_le]
    omega
  simp only
  omega

theorem byte_alpha_bounds (b : Byte) : 0 ≤ ((b.val : ℚ) / 255) ∧ ((b.val : ℚ) / 255) ≤ 1 := by
  have h := b.isLt
  have h1 : (b.val : ℚ) ≤ 255 := by exact_mod_cast Nat.le_of_lt_succ h
  have h0 : (0 : ℚ) ≤ b.val := by positivity
  constructor
  · positivity
  · rw [div_le_one (by norm_num)]
    exact h1

theorem byte_le (b : Byte) : (b.val : ℚ) ≤ 255 := by
  have h := b.isLt
  exact_mod_cast Nat.le_of_lt_succ h

/-- The dark overlay leaves no channel above 178, whatever it is painted on. -/
theorem over_wash_dim (c : Color) (d : Pixel) (hca : 1 / 2 ≤ c.a) (hca1 : c.a ≤ 1)
    (hr : c.r ≤ 100) (hg : c.g ≤ 100) (hb : c.b ≤ 100) : (over c d).Dim := by
  obtain ⟨ha0, ha1⟩ := byte_alpha_bounds d.a
  refine ⟨?_, ?_, ?_⟩
  · apply roundByte_le
    have := wash_le c.r c.a d.r.val _ hca hca1 ha0 ha1 hr (byte_le _)
    push_cast
    linarith
  · apply roundByte_le
    have := wash_le c.g c.a d.g.val _ hca hca1 ha0 ha1 hg (byte_le _)
    push_cast
    linarith
  · apply roundByte_le
    have := wash_le c.b c.a d.b.val _ hca hca1 ha0 ha1 hb (byte_le _)
    push_cast
    linarith

/-- A colour with channels up to 178 painted on a pixel with channels up to 178 leaves
the channels at most 178. -/
theorem over_noise_dim (c : Color) (d : Pixel) (hca : 0 < c.a) (hca1 : c.a ≤ 1)
    (hr : c.r ≤ 178) (hg : c.g ≤ 178) (hb : c.b ≤ 178) (hd : d.Dim) : (over c d).Dim := by
  obtain ⟨ha0, ha1⟩ := byte_alpha_bounds d.a
  obtain ⟨hdr, hdg, hdb⟩ := hd
  have hdr1 : (d.r.val : ℚ) ≤ 178 := by exact_mod_cast hdr
  have hdg1 : (d.g.val : ℚ) ≤ 178 := by exact_mod_cast hdg
  have hdb1 : (d.b.val : ℚ) ≤ 178 := by exact_mod_cast hdb
  refine ⟨?_, ?_, ?_⟩
  · apply roundByte_le
    have := mix_le c.r c.a d.r.val _ 178 hca hca1 ha0 hr hdr1
    push_cast
    linarith
  · apply roundByte_le
    have := mix_le c.g c.a d.g.val _ 178 hca hca1 ha0 hg hdg1
    push_cast
    linarith
  · apply roundByte_le
    have := mix_le c.b c.a d.b.val _ 178 hca hca1 ha0 hb hdb1
    push_cast
    linarith

theorem washStops_bounds (t : ℚ) :
    1 / 2 ≤ (gradientAt washStops t).a ∧ (gradientAt washStops t).a ≤ 1 ∧
    (gradientAt washStops t).r ≤ 100 ∧ (gradientAt washStops t).g ≤ 100 ∧
    (gradientAt washStops t).b ≤ 100 := by
  unfold washStops
  simp only [gradientAt]
  split_ifs with h1 h2 h3
  · norm_num
  · simp only [Color.mix]
    norm_num
    push_neg at h1
    refine ⟨?_, ?_, ?_⟩ <;> linarith
  · simp only [Color.mix]
    norm_num
    push_neg at h2
    refine ⟨?_, ?_, ?_⟩ <;> linarith
  · norm_num

theorem getImageData_length (bm : Bitmap) (sx sy sw sh : Int) (im : ImageData)
    (h : getImageData bm sx sy sw sh = some im) : im.data.length = 4 * im.width * im.height := by
  unfold getImageData at h
  by_cases h0 : sw = 0 ∨ sh = 0
  · simp [h0] at h
  · rw [if_neg h0] at h
    simp only [Option.some.injEq] at h
    subst h
    simp

theorem getImageData_isSome (bm : Bitmap) (sx sy sw sh : Int) (hw : sw ≠ 0) (hh : sh ≠ 0) :
    ∃ im, getImageData bm sx sy sw sh = some im := by
  unfold getImageData
  simp [hw, hh]

/-- The method `applyHeavyPixelation` returns when the block size is positive and the
rectangle has nonzero sides; it changes neither the size of the canvas nor the drawing
state. -/
theorem applyHeavyPixelation_spec (ctx : Ctx) (x y width height : ℚ) (p : Nat) (hp : 1 ≤ p)
    (hw : toLong width ≠ 0) (hh : toLong height ≠ 0) :
    ∃ c, applyHeavyPixelation ctx x y width height p = some c ∧ c.state = ctx.state ∧
      c.stack = ctx.stack ∧ c.bitmap.width = ctx.bitmap.width ∧
      c.bitmap.height = ctx.bitmap.height := by
  obtain ⟨im, him⟩ := getImageData_isSome ctx.bitmap (toLong x) (toLong y) _ _ hw hh
  obtain ⟨out, hout, -⟩ := blockLoop_spec im.width im.height p im.data hp
    (getImageData_length _ _ _ _ _ _ him)
  exact ⟨{ ctx with bitmap := putImageData ctx.bitmap { im with data := out } (toLong x) (toLong y) },
    by simp [applyHeavyPixelation, him, hout], rfl, rfl, rfl, rfl⟩

theorem toLong_double_ne_zero (r : ℚ) (hr : 1 / 2 ≤ r) : toLong (r * 2) ≠ 0 := by
  unfold toLong
  have h0 : (0 : ℚ) ≤ r * 2 := by linarith
  rw [if_pos h0]
  have h2 : (1 : Int) ≤ ⌊r * 2⌋ := by
    rw [Int.le_floor]
    push_cast
    linarith
  have h1 : (1 : Int) ≤ Rat.floor (r * 2) := h2
  omega

/-- The three pixelation layers return and leave size and drawing state as they were. -/
theorem pixelateLayers_spec (face : FaceRegion) (ctx : Ctx) (hr : 1 / 2 ≤ face.radius) :
    ∃ c, pixelateLayers face ctx = some c ∧ c.state = ctx.state ∧ c.stack = ctx.stack ∧
      c.bitmap.width = ctx.bitmap.width ∧ c.bitmap.height = ctx.bitmap.height := by
  have hne := toLong_double_ne_zero face.radius hr
  have hr0 : ¬ face.radius < 0 := by
    push_neg
    linarith
  obtain ⟨c, j, hrun, hI, -⟩ := forLoop_rule (fun layer => decide (layer < 3)) (· + 1)
    (fun layer (blurCtx : Ctx) =>
      (blurCtx.save.beginPath.arc face.x face.y face.radius).bind fun blurCtx =>
        (applyHeavyPixelation blurCtx.clip (face.x - face.radius) (face.y - face.radius)
          (face.radius * 2) (face.radius * 2) (15 + layer * 5)).map fun blurCtx =>
          blurCtx.restore)
    (fun _ c => c.state = ctx.state ∧ c.stack = ctx.stack ∧
      c.bitmap.width = ctx.bitmap.width ∧ c.bitmap.height = ctx.bitmap.height)
    (fun layer => 3 - layer)
    (by
      intro i s ⟨h1, h2, h3, h4⟩ _
      have harc : s.save.beginPath.arc face.x face.y face.radius
          = some { s.save.beginPath with
              path := s.save.beginPath.path ++ [Region.circle face.x face.y face.radius] } := by
        simp [Ctx.arc, hr0]
      obtain ⟨c, hc, hs, hst, hw, hh⟩ := applyHeavyPixelation_spec
        (Ctx.clip { s.save.beginPath with
          path := s.save.beginPath.path ++ [Region.circle face.x face.y face.radius] })
        (face.x - face.radius) (face.y - face.radius) (face.radius * 2) (face.radius * 2)
        (15 + i * 5) (by omega) hne hne
      refine ⟨c.restore, by simp [harc, hc], ?_⟩
      have hstack : c.stack = s.state :: s.stack := by
        rw [hst]
        rfl
      simp only [Ctx.restore, hstack]
      exact ⟨h1, h2, by rw [hw]; exact h3, by rw [hh]; exact h4⟩)
    (by
      intro i hc
      have hi : i < 3 := by simpa using hc
      show 3 - (i + 1) < 3 - i
      omega)
    3 0 ctx (by show 3 - 0 ≤ 3; omega) ⟨rfl, rfl, rfl, rfl⟩
  exact ⟨c, hrun, hI⟩

/-! ## The overlay on a canvas with anti-aliasing -/

/-- The rasteriser without anti-aliasing is sound: the centre of a pixel lies in every
circle and rectangle that holds its square. -/
theorem centre_sound : Raster.centre.Sound := by
  intro path i j
  refine ⟨?_, ?_, ?_⟩
  · show (0 : ℚ) ≤ if (path.any fun reg => reg.covers i j) = true then 1 else 0
    split_ifs <;> norm_num
  · show (if (path.any fun reg => reg.covers i j) = true then (1 : ℚ) else 0) ≤ 1
    split_ifs <;> norm_num
  · intro h
    show (if (path.any fun reg => reg.covers i j) = true then (1 : ℚ) else 0) = 1
    rw [if_pos]
    rw [List.any_eq_true] at h ⊢
    obtain ⟨reg, hmem, hreg⟩ := h
    refine ⟨reg, hmem, ?_⟩
    cases reg with
    | circle cx cy r =>
      simp only [Region.containsPixel, Bool.and_eq_true, decide_eq_true_eq] at hreg
      obtain ⟨⟨⟨h1, -⟩, -⟩, h4⟩ := hreg
      simp only [Region.covers, decide_eq_true_eq]
      nlinarith
    | rect x y w h =>
      simp only [Region.containsPixel, Bool.and_eq_true, decide_eq_true_eq] at hreg
      obtain ⟨⟨⟨h1, h2⟩, h3⟩, h4⟩ := hreg
      simp only [Region.covers, Bool.and_eq_true, decide_eq_true_eq]
      refine ⟨⟨⟨?_, ?_⟩, ?_⟩, ?_⟩ <;> linarith

theorem prod_centre (l : List (List Region)) (i j : Nat) :
    (l.map fun path => Raster.centre.coverage path i j).prod =
      if (l.all fun path => path.any fun reg => reg.covers i j) = true then 1 else 0 := by
  induction l with
  | nil => simp
  | cons p rest ih =>
    rw [List.map_cons, List.prod_cons, ih]
    by_cases h1 : (p.any fun reg => reg.covers i j) = true
    · have hp : Raster.centre.coverage p i j = 1 := by
        show (if (p.any fun reg => reg.covers i j) = true then (1 : ℚ) else 0) = 1
        rw [if_pos h1]
      by_cases h2 : (rest.all fun path => path.any fun reg => reg.covers i j) = true
      · have hall : ((p :: rest).all fun path => path.any fun reg => reg.covers i j) = true := by
          rw [List.all_cons, h1, h2]
          rfl
        rw [if_pos h2, if_pos hall, hp]
        norm_num
      · have hall : ¬ ((p :: rest).all fun path => path.any fun reg => reg.covers i j) = true := by
          rw [List.all_cons, h1]
          simpa using h2
        rw [if_neg h2, if_neg hall]
        norm_num
    · have hp : Raster.centre.coverage p i j = 0 := by
        show (if (p.any fun reg => reg.covers i j) = true then (1 : ℚ) else 0) = 0
        rw [if_neg h1]
      have hall : ¬ ((p :: rest).all fun path => path.any fun reg => reg.covers i j) = true := by
        rw [List.all_cons]
        simp [h1]
      rw [if_neg hall, hp]
      norm_num

theorem clipCoverage_centre (c : Ctx) (i j : Nat) :
    c.clipCoverage Raster.centre i j = if c.inClip i j = true then 1 else 0 :=
  prod_centre c.state.clip i j

/-- With the rasteriser without anti-aliasing, `fillWith` is `fill`. -/
theorem fillWith_centre (c : Ctx) : c.fillWith Raster.centre = c.fill := by
  unfold Ctx.fillWith Ctx.fill Ctx.paintWith Ctx.paint
  congr 1
  funext i j old
  beta_reduce
  rw [clipCoverage_centre]
  show (if i < c.bitmap.width ∧ j < c.bitmap.height ∧
      0 < (if (c.path.any fun reg => reg.covers i j) = true then (1 : ℚ) else 0) *
        (if c.inClip i j = true then 1 else 0) then
      match c.state.fillStyle.colorAt i j with
      | some col =>
        over { r := col.r, g := col.g, b := col.b,
               a := col.a * ((if (c.path.any fun reg => reg.covers i j) = true then (1 : ℚ) else 0) *
                 (if c.inClip i j = true then 1 else 0)) } old
      | none => old
    else old) = _
  by_cases h1 : (c.path.any fun reg => reg.covers i j) = true
  · by_cases h2 : c.inClip i j = true
    · simp only [h1, h2, if_true, mul_one, and_true]
      norm_num
    · simp [h1, h2]
  · simp [h1]

theorem washFaceWith_centre (face : FaceRegion) (ctx : Ctx) :
    washFaceWith Raster.centre face ctx = washFace face ctx := by
  simp [washFaceWith, washFace, fillWith_centre]

theorem noiseStepWith_centre (face : FaceRegion) (s : Draw) :
    noiseStepWith Raster.centre face s = noiseStep face s := by
  simp [noiseStepWith, noiseStep, fillWith_centre]

theorem blurFaceWith_centre (s : Draw) (face : FaceRegion) :
    blurFaceWith Raster.centre s face = blurFace s face := by
  simp [blurFaceWith, blurFace, washFaceWith_centre, noiseLoopWith, noiseLoop,
    noiseStepWith_centre]

/-- With the rasteriser without anti-aliasing, `createBlurredImageWith` is
`createBlurredImage`. -/
theorem createBlurredImageWith_centre (img : Bitmap) (faces : List FaceRegion) (rng : Rng) :
    createBlurredImageWith Raster.centre img faces rng = createBlurredImage img faces rng := by
  unfold createBlurredImageWith createBlurredImage
  congr 1
  funext s face
  exact blurFaceWith_centre s face

theorem clipCoverage_bounds (R : Raster) (hR : R.Sound) (c : Ctx) (i j : Nat) :
    0 ≤ c.clipCoverage R i j ∧ c.clipCoverage R i j ≤ 1 := by
  unfold Ctx.clipCoverage
  induction c.state.clip with
  | nil => simp
  | cons p rest ih =>
    rw [List.map_cons, List.prod_cons]
    obtain ⟨h0, h1, -⟩ := hR p i j
    obtain ⟨g0, g1⟩ := ih
    constructor
    · exact mul_nonneg h0 g0
    · nlinarith

/-- The dark overlay on a canvas with a sound rasteriser returns and leaves every pixel
whose square lies in the circle with channels at most 178. -/
theorem washFaceWith_spec (R : Raster) (hR : R.Sound) (face : FaceRegion) (ctx : Ctx)
    (hr : 0 < face.radius) (hclip : ctx.state.clip = []) :
    ∃ c, washFaceWith R face ctx = some c ∧ c.bitmap.width = ctx.bitmap.width ∧
      c.bitmap.height = ctx.bitmap.height ∧ c.state.clip = [] ∧ c.bitmap.DimWithin face := by
  have hr0 : ¬ face.radius < 0 := by
    push_neg
    linarith
  cases hrun : washFaceWith R face ctx with
  | none => simp [washFaceWith, createRadialGradient, Ctx.arc, hr0] at hrun
  | some c =>
  simp only [washFaceWith, createRadialGradient, Ctx.arc, hr0, if_false, Option.some_bind,
    Option.map_some', Option.some.injEq] at hrun
  subst hrun
  refine ⟨_, rfl, rfl, rfl, ?_, ?_⟩
  · simpa [Ctx.fillWith, Ctx.paintWith, Ctx.mapPx, Ctx.setFillStyle, Ctx.beginPath] using hclip
  · intro x y hx hy hcov
    have hx1 : x < ctx.bitmap.width := hx
    have hy1 : y < ctx.bitmap.height := hy
    have hcov1 : R.coverage [Region.circle face.x face.y face.radius] x y = 1 :=
      (hR _ x y).2.2 (by simp [hcov])
    obtain ⟨h1, h2, h3, h4, h5⟩ := washStops_bounds
      (min 1 (jsSqrt (((x : ℚ) + 1 / 2 - face.x) ^ 2 + ((y : ℚ) + 1 / 2 - face.y) ^ 2)
        / face.radius))
    have := over_wash_dim
      { r := (gradientAt washStops (min 1 (jsSqrt (((x : ℚ) + 1 / 2 - face.x) ^ 2 +
          ((y : ℚ) + 1 / 2 - face.y) ^ 2) / face.radius))).r,
        g := (gradientAt washStops (min 1 (jsSqrt (((x : ℚ) + 1 / 2 - face.x) ^ 2 +
          ((y : ℚ) + 1 / 2 - face.y) ^ 2) / face.radius))).g,
        b := (gradientAt washStops (min 1 (jsSqrt (((x : ℚ) + 1 / 2 - face.x) ^ 2 +
          ((y : ℚ) + 1 / 2 - face.y) ^ 2) / face.radius))).b,
        a := (gradientAt washStops (min 1 (jsSqrt (((x : ℚ) + 1 / 2 - face.x) ^ 2 +
          ((y : ℚ) + 1 / 2 - face.y) ^ 2) / face.radius))).a }
      (ctx.bitmap.px x y) h1 h2 h3 h4 h5
    simpa [Ctx.fillWith, Ctx.paintWith, Ctx.mapPx, Bitmap.withPx, Ctx.setFillStyle,
      Ctx.beginPath, Ctx.clipCoverage, hclip, hx1, hy1, hcov1, Paint.colorAt, hr.ne'] using this

/-- Painting a solid colour with channels up to 178, with weights up to 1, keeps the
pixels that lie wholly in the circle dim. -/
theorem paintWith_solid_dimWithin (face : FaceRegion) (ctx : Ctx) (c : Color)
    (weight : Nat → Nat → ℚ) (hfs : ctx.state.fillStyle = Paint.solid c)
    (hw : ∀ i j, weight i j ≤ 1) (hca : 0 < c.a) (hca1 : c.a ≤ 1) (hr : c.r ≤ 178)
    (hg : c.g ≤ 178) (hb : c.b ≤ 178) (hdim : ctx.bitmap.DimWithin face) :
    (ctx.paintWith weight).bitmap.DimWithin face := by
  intro x y hx hy hcov
  have hold := hdim x y hx hy hcov
  show (if x < ctx.bitmap.width ∧ y < ctx.bitmap.height ∧ 0 < weight x y then
      match ctx.state.fillStyle.colorAt x y with
      | some col =>
        over { r := col.r, g := col.g, b := col.b, a := col.a * weight x y } (ctx.bitmap.px x y)
      | none => ctx.bitmap.px x y
    else ctx.bitmap.px x y).Dim
  split_ifs with h
  · rw [hfs]
    have hw1 := hw x y
    have hw0 := h.2.2
    exact over_noise_dim { r := c.r, g := c.g, b := c.b, a := c.a * weight x y } _
      (mul_pos hca hw0) (by show c.a * weight x y ≤ 1; nlinarith) hr hg hb hold
  · exact hold

/-- One iteration of the noise loop on a canvas with a sound rasteriser returns, draws
from the same stream and keeps the pixels that lie wholly in the circle dim. -/
theorem noiseStepWith_spec (R : Raster) (hR : R.Sound) (face : FaceRegion) (s : Draw)
    (hrng : s.rng.InUnit) :
    ∃ t, noiseStepWith R face s = some t ∧ t.rng.draws = s.rng.draws ∧
      t.ctx.bitmap.width = s.ctx.bitmap.width ∧ t.ctx.bitmap.height = s.ctx.bitmap.height ∧
      (s.ctx.bitmap.DimWithin face → t.ctx.bitmap.DimWithin face) := by
  unfold noiseStepWith
  simp only [Rng.next]
  split_ifs with hd
  · have h3 := hrng (s.rng.pos + 1 + 1)
    have h4 := hrng (s.rng.pos + 1 + 1 + 1)
    have h5 := hrng (s.rng.pos + 1 + 1 + 1 + 1)
    have h6 := hrng (s.rng.pos + 1 + 1 + 1 + 1 + 1)
    have hr6 : ¬ s.rng.draws (s.rng.pos + 1 + 1 + 1 + 1 + 1) * 8 + 3 < 0 := by
      push_neg
      linarith [h6.1]
    simp only [Ctx.arc, hr6, if_false, Option.map_some']
    refine ⟨_, rfl, rfl, rfl, rfl, ?_⟩
    intro hdim
    refine paintWith_solid_dimWithin face _ _ _ rfl ?_ (by norm_num) (by norm_num)
      (by show _ * 100 + 50 ≤ (178 : ℚ); linarith [h3.2])
      (by show _ * 100 + 50 ≤ (178 : ℚ); linarith [h4.2])
      (by show _ * 100 + 50 ≤ (178 : ℚ); linarith [h5.2]) hdim
    intro i j
    obtain ⟨a0, a1, -⟩ := hR
      ((s.ctx.setFillStyle (Paint.solid
        { r := s.rng.draws (s.rng.pos + 1 + 1) * 100 + 50,
          g := s.rng.draws (s.rng.pos + 1 + 1 + 1) * 100 + 50,
          b := s.rng.draws (s.rng.pos + 1 + 1 + 1 + 1) * 100 + 50,
          a := 3 / 10 })).beginPath.path ++
        [Region.circle (face.x + (s.rng.draws s.rng.pos - 1 / 2) * face.radius * 2)
          (face.y + (s.rng.draws (s.rng.pos + 1) - 1 / 2) * face.radius * 2)
          (s.rng.draws (s.rng.pos + 1 + 1 + 1 + 1 + 1) * 8 + 3)]) i j
    obtain ⟨b0, b1⟩ := clipCoverage_bounds R hR
      { (s.ctx.setFillStyle (Paint.solid
        { r := s.rng.draws (s.rng.pos + 1 + 1) * 100 + 50,
          g := s.rng.draws (s.rng.pos + 1 + 1 + 1) * 100 + 50,
          b := s.rng.draws (s.rng.pos + 1 + 1 + 1 + 1) * 100 + 50,
          a := 3 / 10 })).beginPath with
        path := (s.ctx.setFillStyle (Paint.solid
          { r := s.rng.draws (s.rng.pos + 1 + 1) * 100 + 50,
            g := s.rng.draws (s.rng.pos + 1 + 1 + 1) * 100 + 50,
            b := s.rng.draws (s.rng.pos + 1 + 1 + 1 + 1) * 100 + 50,
            a := 3 / 10 })).beginPath.path ++
          [Region.circle (face.x + (s.rng.draws s.rng.pos - 1 / 2) * face.radius * 2)
            (face.y + (s.rng.draws (s.rng.pos + 1) - 1 / 2) * face.radius * 2)
            (s.rng.draws (s.rng.pos + 1 + 1 + 1 + 1 + 1) * 8 + 3)] } i j
    show _ * _ ≤ (1 : ℚ)
    nlinarith
  · exact ⟨_, rfl, rfl, rfl, rfl, fun h => h⟩

/-- The noise loop on a canvas with a sound rasteriser returns and keeps the pixels that
lie wholly in the circle dim. -/
theorem noiseLoopWith_spec (R : Raster) (hR : R.Sound) (face : FaceRegion) (s : Draw)
    (hrng : s.rng.InUnit) (hdim : s.ctx.bitmap.DimWithin face) :
    ∃ t, noiseLoopWith R face s = some t ∧ t.ctx.bitmap.width = s.ctx.bitmap.width ∧
      t.ctx.bitmap.height = s.ctx.bitmap.height ∧ t.ctx.bitmap.DimWithin face := by
  obtain ⟨t, j, hrun, ⟨h1, h2, h3, h4⟩, -⟩ := forLoop_rule (fun i => decide (i < 30)) (· + 1)
    (fun _ s => noiseStepWith R face s)
    (fun _ t => t.rng.draws = s.rng.draws ∧ t.ctx.bitmap.width = s.ctx.bitmap.width ∧
      t.ctx.bitmap.height = s.ctx.bitmap.height ∧ t.ctx.bitmap.DimWithin face)
    (fun i => 30 - i)
    (by
      intro i t ⟨h1, h2, h3, h4⟩ _
      obtain ⟨u, hu, g1, g2, g3, g4⟩ := noiseStepWith_spec R hR face t (by
        intro n
        rw [h1]
        exact hrng n)
      exact ⟨u, hu, by rw [g1, h1], by rw [g2, h2], by rw [g3, h3], g4 h4⟩)
    (by
      intro i hc
      have hi : i < 30 := by simpa using hc
      show 30 - (i + 1) < 30 - i
      omega)
    30 0 s (by show 30 - 0 ≤ 30; omega) ⟨rfl, rfl, rfl, hdim⟩
  exact ⟨t, hrun, h2, h3, h4⟩

theorem toLong_double_zero (r : ℚ) (h0 : 0 ≤ r) (hr : r < 1 / 2) : toLong (r * 2) = 0 := by
  unfold toLong
  have h1 : (0 : ℚ) ≤ r * 2 := by linarith
  rw [if_pos h1]
  have h2 : ⌊r * 2⌋ = 0 := by
    rw [Int.floor_eq_iff]
    constructor
    · push_cast
      linarith
    · push_cast
      linarith
  exact h2

/-- For a radius below 1/2 the first pixelation layer throws: `arc` for a negative
radius, `getImageData` for a rectangle of width 0 otherwise. -/
theorem pixelateLayers_small (face : FaceRegion) (ctx : Ctx) (hr : face.radius < 1 / 2) :
    pixelateLayers face ctx = none := by
  unfold pixelateLayers
  show forLoop _ _ _ (2 + 1) 0 ctx = none
  rw [forLoop]
  by_cases hneg : face.radius < 0
  · simp [Ctx.arc, hneg]
  · have h0 := toLong_double_zero face.radius (by push_neg at hneg; exact hneg) hr
    simp [Ctx.arc, hneg, applyHeavyPixelation, getImageData, h0]

/-- C3, evaluated on two inputs: the treatment is not confined to the circle.
(1) On `cornerPhoto` with `cornerFace` and no noise drawn, the pixel `(0, 0)`, which lies
wholly outside the circle, changes from grey 196 to grey 4: `putImageData` stores the
whole averaged square although `clip()` was called.  (2) On a plain photo of grey 200
with `smallFace`, a noise blob centred in the circle changes the pixel `(4, 1)`, which
lies wholly outside the circle, to grey 101. -/
theorem createBlurredImage_escapes_circle :
    ((createBlurredImage cornerPhoto [cornerFace] (constRng 0)).map
        (fun d => d.ctx.bitmap.px 0 0) = some (gray 4) ∧
      cornerPhoto.px 0 0 = gray 196 ∧
      cornerFace.radius ^ 2 < (1 - cornerFace.x) ^ 2 + (1 - cornerFace.y) ^ 2) ∧
    ((createBlurredImage (plainPhoto 5 3 200) [smallFace] (constRng (1 / 2))).map
        (fun d => d.ctx.bitmap.px 4 1) = some (gray 101) ∧
      (plainPhoto 5 3 200).px 4 1 = gray 200 ∧
      smallFace.radius ^ 2 < (4 - smallFace.x) ^ 2 + (3 / 2 - smallFace.y) ^ 2) := by
  refine ⟨⟨?_, ?_, ?_⟩, ⟨?_, ?_, ?_⟩⟩
  · decide!
  · decide!
  · decide!
  · decide!
  · decide!
  · decide!

/-- C4, counterexample: on a plain photo of grey 60 with `centreFace` (radius 1, circle
inside the 3 by 3 image) and no noise drawn, the pixel `(1, 1)`, which lies wholly inside
the circle, has the same value after the obfuscation as in the source. -/
theorem wash_leaves_pixel_unchanged :
    (createBlurredImage (plainPhoto 3 3 60) [centreFace] (constRng 0)).map
        (fun d => d.ctx.bitmap.px 1 1) = some ((plainPhoto 3 3 60).px 1 1) ∧
      0 < centreFace.radius ∧
      0 ≤ centreFace.x - centreFace.radius ∧ centreFace.x + centreFace.radius ≤ 3 ∧
      0 ≤ centreFace.y - centreFace.radius ∧ centreFace.y + centreFace.radius ≤ 3 ∧
      (2 - centreFace.x) ^ 2 + (2 - centreFace.y) ^ 2 ≤ centreFace.radius ^ 2 ∧
      (1 - centreFace.x) ^ 2 + (1 - centreFace.y) ^ 2 ≤ centreFace.radius ^ 2 := by
  refine ⟨?_, ?_, ?_, ?_, ?_, ?_, ?_, ?_⟩ <;> decide!

/-- C4, amended: on a canvas with any sound rasteriser, for every source image, every
region and every outcome of the random draws, `createBlurredImage` throws when the
radius is below 1/2, and for a radius of at least 1/2 it returns an image of the same
size in which every pixel whose square lies wholly in the circle has no colour channel
above 178; hence every such pixel that has a colour channel above 178 in the source is
modified. -/
theorem createBlurredImageWith_dims_interior (R : Raster) (hR : R.Sound) (img : Bitmap)
    (face : FaceRegion) (rng : Rng) (hrng : rng.InUnit) :
    (face.radius < 1 / 2 → createBlurredImageWith R img [face] rng = none) ∧
    (1 / 2 ≤ face.radius →
      ∃ d, createBlurredImageWith R img [face] rng = some d ∧
        d.ctx.bitmap.width = img.width ∧ d.ctx.bitmap.height = img.height ∧
        ∀ x y, x < img.width → y < img.height →
          (Region.circle face.x face.y face.radius).containsPixel x y = true →
          (d.ctx.bitmap.px x y).Dim ∧
            (¬ (img.px x y).Dim → d.ctx.bitmap.px x y ≠ img.px x y)) := by
  constructor
  · intro hr
    simp [createBlurredImageWith, List.foldlM, blurFaceWith, pixelateLayers_small face _ hr]
  · intro hr
    obtain ⟨c1, h1, hs1, -, hw1, hh1⟩ :=
      pixelateLayers_spec face ((Ctx.fresh img.width img.height).drawImage img) hr
    obtain ⟨c2, h2, hw2, hh2, -, hdim2⟩ :=
      washFaceWith_spec R hR face c1 (by linarith) (by rw [hs1]; rfl)
    obtain ⟨t, h3, hw3, hh3, hdim3⟩ :=
      noiseLoopWith_spec R hR face { ctx := c2, rng := rng } hrng hdim2
    have hw : t.ctx.bitmap.width = img.width := by
      rw [hw3, hw2, hw1]
      rfl
    have hh : t.ctx.bitmap.height = img.height := by
      rw [hh3, hh2, hh1]
      rfl
    refine ⟨t, by simp [createBlurredImageWith, List.foldlM, blurFaceWith, h1, h2, h3], hw, hh, ?_⟩
    intro x y hx hy hin
    have hd := hdim3 x y (hw ▸ hx) (hh ▸ hy) hin
    exact ⟨hd, fun hn heq => hn (heq ▸ hd)⟩

/-- Witness of C4 as amended: a plain photo of grey 200 and a region of radius 1 on the
canvas without anti-aliasing; the pixel `(1, 1)` lies wholly in the circle. -/
theorem createBlurredImageWith_dims_interior_witness :
    Raster.centre.Sound ∧ (constRng 0).InUnit ∧ (1 : ℚ) / 2 ≤ centreFace.radius ∧
    (Region.circle centreFace.x centreFace.y centreFace.radius).containsPixel 1 1 = true ∧
    ∃ d, createBlurredImageWith Raster.centre (plainPhoto 3 3 200) [centreFace] (constRng 0)
        = some d ∧
      d.ctx.bitmap.width = (plainPhoto 3 3 200).width ∧
      d.ctx.bitmap.height = (plainPhoto 3 3 200).height ∧
      ∀ x y, x < (plainPhoto 3 3 200).width → y < (plainPhoto 3 3 200).height →
        (Region.circle centreFace.x centreFace.y centreFace.radius).containsPixel x y = true →
        (d.ctx.bitmap.px x y).Dim ∧
          (¬ ((plainPhoto 3 3 200).px x y).Dim →
            d.ctx.bitmap.px x y ≠ (plainPhoto 3 3 200).px x y) :=
  ⟨centre_sound, fun _ => ⟨le_refl _, by norm_num [constRng]⟩, by decide!, by decide!,
    (createBlurredImageWith_dims_interior Raster.centre centre_sound (plainPhoto 3 3 200)
      centreFace (constRng 0) (fun _ => ⟨le_refl _, by norm_num [constRng]⟩)).2 (by decide!)⟩

/-- C5, evaluated: the treatment of a second region undoes the overlay of the first.
On a white photo of 8 by 8 pixels with `centreFace` and `neighbourFace`, two overlapping
circles inside the image, and no noise drawn, the pixel `(1, 1)` lies wholly in the
first circle and wholly outside the second.  After the treatment of the first region
alone it is grey 99; after the treatment of both it is grey 248, the average of the
square from `(1, 1)` to `(8, 8)` that the pixelation of the second region stores although
`clip()` was called. -/
theorem second_region_undoes_first :
    (createBlurredImage (plainPhoto 8 8 255) [centreFace] (constRng 0)).map
        (fun d => d.ctx.bitmap.px 1 1) = some (gray 99) ∧
    (createBlurredImage (plainPhoto 8 8 255) [centreFace, neighbourFace] (constRng 0)).map
        (fun d => d.ctx.bitmap.px 1 1) = some (gray 248) ∧
    (Region.circle centreFace.x centreFace.y centreFace.radius).containsPixel 1 1 = true ∧
    neighbourFace.radius ^ 2 < (2 - neighbourFace.x) ^ 2 + (2 - neighbourFace.y) ^ 2 ∧
    (neighbourFace.x - centreFace.x) ^ 2 + (neighbourFace.y - centreFace.y) ^ 2
      < (centreFace.radius + neighbourFace.radius) ^ 2 ∧
    0 ≤ centreFace.x - centreFace.radius ∧ 0 ≤ centreFace.y - centreFace.radius ∧
    0 ≤ neighbourFace.x - neighbourFace.radius ∧ 0 ≤ neighbourFace.y - neighbourFace.radius ∧
    neighbourFace.x + neighbourFace.radius ≤ 8 ∧ neighbourFace.y + neighbourFace.radius ≤ 8 := by
  refine ⟨?_, ?_, ?_, ?_, ?_, ?_, ?_, ?_, ?_, ?_, ?_⟩ <;> decide!

/-! ## Manual marking -/

/-- C6: in every variant with manual marking, a click at display offset
`(clientX - left, clientY - top)` on a result image of natural size `(W, H)` shown at a
size `(w, h)` with `w > 0` and `h > 0` makes a region whose centre is
`(px * W / w, py * H / h)`. -/
theorem manualFace_center (v : Variant) (image : ImageElement) (left top clientX clientY : ℚ)
    (_hw : 0 < image.offsetWidth) (_hh : 0 < image.offsetHeight) :
    (v.manualFace image left top clientX clientY).x
        = (clientX - left) * image.natural.width / image.offsetWidth ∧
      (v.manualFace image left top clientX clientY).y
        = (clientY - top) * image.natural.height / image.offsetHeight := by
  cases v <;>
    simp only [Variant.manualFace, manualFace, Offline.manualFace, Improved.manualFace,
      mul_div_assoc, and_self]

/-- Witness of C6: a click at offset `(100, 50)` on a 1000 by 1000 image shown at 500 by
500. -/
theorem manualFace_center_witness :
    (0 : ℚ) < bigImage.offsetWidth ∧ (0 : ℚ) < bigImage.offsetHeight ∧
      (Variant.simple.manualFace bigImage 10 20 110 70).x
        = (110 - 10) * bigImage.natural.width / bigImage.offsetWidth ∧
      (Variant.simple.manualFace bigImage 10 20 110 70).y
        = (70 - 20) * bigImage.natural.height / bigImage.offsetHeight :=
  ⟨by decide!, by decide!,
    manualFace_center Variant.simple bigImage 10 20 110 70 (by decide!) (by decide!)⟩

/-- C7, counterexample: in app-improved a manual mark on a 1000 by 1000 image has
radius 60, which is below 7% of the shorter side, and carries no confidence. -/
theorem improved_manualFace_radius :
    (Variant.improved.manualFace bigImage 0 0 10 10).radius = 60 ∧
      ¬ ((7 : ℚ) / 100 * (min bigImage.natural.width bigImage.natural.height : Nat)
          ≤ (Variant.improved.manualFace bigImage 0 0 10 10).radius) ∧
      (Variant.improved.manualFace bigImage 0 0 10 10).confidence ≠ some 1 := by
  refine ⟨?_, ?_, ?_⟩ <;> decide!

/-- C7, amended: a manually marked region has radius 8% of the shorter natural side and
confidence 1 in app-simple, app-live, app-optimized, app-tensorflow and app-fixed; the
same radius and no confidence in app-offline; radius 60 and no confidence in
app-improved. -/
theorem manualFace_radius_confidence (v : Variant) (image : ImageElement)
    (left top clientX clientY : ℚ) :
    (v = Variant.improved →
      (v.manualFace image left top clientX clientY).radius = 60 ∧
      (v.manualFace image left top clientX clientY).confidence = none) ∧
    (v = Variant.offline →
      (v.manualFace image left top clientX clientY).radius
        = (min image.natural.width image.natural.height : Nat) * (8 / 100) ∧
      (v.manualFace image left top clientX clientY).confidence = none) ∧
    (v ≠ Variant.improved → v ≠ Variant.offline →
      (v.manualFace image left top clientX clientY).radius
        = (min image.natural.width image.natural.height : Nat) * (8 / 100) ∧
      (v.manualFace image left top clientX clientY).confidence = some 1) := by
  cases v <;>
    simp [Variant.manualFace, manualFace, Offline.manualFace, Improved.manualFace]

/-! ## The presentation toggle -/

theorem toggleBlur_to_blurred (s : AppState) (u : Url) (hi : s.isBlurred = false)
    (hb : s.blurredImageData = some u) :
    s.toggleBlur = { s with isBlurred := true, resultImageSrc := Src.url u,
                            toggleBtnText := "Original zeigen", blurredCanvasHidden := true } := by
  simp [AppState.toggleBlur, hi, hb]

/-- C8: in a session that shows the cached obfuscated image, two `toggleBlur` calls end
with `isBlurred = true` and the result image showing the same cached URL; and a
`toggleBlur` call never changes `blurredImageData`, `originalImageData` or what the
URLs hold, and never starts `createBlurredImage`. -/
theorem toggleBlur_twice (s : AppState) (u : Url) (hb : s.blurredImageData = some u)
    (hi : s.isBlurred = true) :
    s.toggleBlur.toggleBlur.isBlurred = true ∧
      s.toggleBlur.toggleBlur.resultImageSrc = Src.url u ∧
      s.toggleBlur.toggleBlur.blurredImageData = some u ∧
      ∀ t : AppState, t.toggleBlur.blurredImageData = t.blurredImageData ∧
        t.toggleBlur.originalImageData = t.originalImageData ∧
        t.toggleBlur.blobs = t.blobs ∧ t.toggleBlur.blurJobs = t.blurJobs := by
  have hgen : ∀ t : AppState, t.toggleBlur.blurredImageData = t.blurredImageData ∧
      t.toggleBlur.originalImageData = t.originalImageData ∧
      t.toggleBlur.blobs = t.blobs ∧ t.toggleBlur.blurJobs = t.blurJobs := by
    intro t
    unfold AppState.toggleBlur
    cases hb : t.isBlurred <;> cases hd : t.blurredImageData <;>
      simp [hb, hd, AppState.showError]
  have h1 : s.toggleBlur.isBlurred = false := by
    simp [AppState.toggleBlur, hi]
  have h2 : s.toggleBlur.blurredImageData = some u := by
    rw [(hgen s).1, hb]
  have e2 := toggleBlur_to_blurred s.toggleBlur u h1 h2
  refine ⟨?_, ?_, ?_, hgen⟩
  · rw [e2]
  · rw [e2]
  · rw [(hgen _).1, h2]

/-- Witness of C8: a session that shows the image cached under URL 3. -/
theorem toggleBlur_twice_witness :
    blurredSession.blurredImageData = some 3 ∧ blurredSession.isBlurred = true ∧
      blurredSession.toggleBlur.toggleBlur.isBlurred = true ∧
      blurredSession.toggleBlur.toggleBlur.resultImageSrc = Src.url 3 :=
  ⟨rfl, rfl, (toggleBlur_twice blurredSession 3 rfl rfl).1,
    (toggleBlur_twice blurredSession 3 rfl rfl).2.1⟩

/-- C9: when no obfuscated image is cached and the original is shown, `toggleBlur` does
not switch: `isBlurred` stays false, the source of the result image is unchanged, and
the status message that the obfuscated image is still being made is shown. -/
theorem toggleBlur_refuses (s : AppState) (hb : s.blurredImageData = none)
    (hi : s.isBlurred = false) :
    s.toggleBlur.isBlurred = false ∧ s.toggleBlur.resultImageSrc = s.resultImageSrc ∧
      s.toggleBlur.messages = s.messages ++ [(stillBuilding, 2000)] := by
  simp [AppState.toggleBlur, hb, hi, AppState.showError]

/-- Witness of C9: the initial session, which has no obfuscated image. -/
theorem toggleBlur_refuses_witness :
    (AppState.init true).blurredImageData = none ∧ (AppState.init true).isBlurred = false ∧
      (AppState.init true).toggleBlur.isBlurred = false ∧
      (AppState.init true).toggleBlur.resultImageSrc = (AppState.init true).resultImageSrc ∧
      (AppState.init true).toggleBlur.messages
        = (AppState.init true).messages ++ [(stillBuilding, 2000)] :=
  ⟨rfl, rfl, toggleBlur_refuses (AppState.init true) rfl rfl⟩

/-! ## Capture and the blur flag -/

theorem showResults_isBlurred (s : AppState) (photoBlob : Bitmap) (result : AnalysisResult) :
    (s.showResults photoBlob result).isBlurred = s.isBlurred := by
  unfold AppState.showResults
  simp only [AppState.createObjectURL, AppState.createBlurredImage, AppState.updateFaceInfo]
  split_ifs <;> rfl

/-- C10, counterexample: a photo is taken and obfuscated, the view is toggled to the
obfuscated image, and the results of another capture are shown: `isBlurred` is still
true, while the result image shows the new original. -/
theorem capture_keeps_isBlurred :
    (((((AppState.init true).capturePhoto (plainPhoto 3 3 200)
        (Detection.resolved "" [centreFace])).blurredImageLoaded (constRng 0)).toggleBlur).capturePhoto
        (plainPhoto 3 3 60) (Detection.resolved "" [])).isBlurred = true ∧
    (((((AppState.init true).capturePhoto (plainPhoto 3 3 200)
        (Detection.resolved "" [centreFace])).blurredImageLoaded (constRng 0)).toggleBlur).capturePhoto
        (plainPhoto 3 3 60) (Detection.resolved "" [])).resultImageSrc = Src.url 3 ∧
    (((((AppState.init true).capturePhoto (plainPhoto 3 3 200)
        (Detection.resolved "" [centreFace])).blurredImageLoaded (constRng 0)).toggleBlur).capturePhoto
        (plainPhoto 3 3 60) (Detection.resolved "" [])).originalImageData = some 4 := by
  refine ⟨?_, ?_, ?_⟩ <;> decide!

/-- C10, amended: `capturePhoto` with its analysis and `showResults` leaves `isBlurred`
as it was, for every outcome of the detection; so it is false once the results of a
capture that follows `retakePhoto` are shown. -/
theorem capturePhoto_isBlurred (s : AppState) (frame : Bitmap) (outcome : Detection) :
    (s.capturePhoto frame outcome).isBlurred = s.isBlurred ∧
      (s.retakePhoto.capturePhoto frame outcome).isBlurred = false := by
  have h : ∀ t : AppState, (t.capturePhoto frame outcome).isBlurred = t.isBlurred := by
    intro t
    unfold AppState.capturePhoto AppState.analyzePhoto
    split_ifs
    · cases outcome <;>
        simp [showResults_isBlurred, AppState.newArray, AppState.showError]
    · rfl
  refine ⟨h s, ?_⟩
  rw [h]
  unfold AppState.retakePhoto
  cases s.originalImageData <;> cases s.blurredImageData <;> rfl

/-! ## Safety of the block loop -/

/-- Two loops whose bodies agree on the states of an invariant give the same result. -/
theorem forLoop_congr {σ : Type} (cond : Nat → Bool) (step : Nat → Nat)
    (b1 b2 : Nat → σ → Option σ) (I : Nat → σ → Prop)
    (h : ∀ i s, I i s → cond i = true → b1 i s = b2 i s)
    (hI : ∀ i s t, I i s → cond i = true → b2 i s = some t → I (step i) t) :
    ∀ fuel i s, I i s → forLoop cond step b1 fuel i s = forLoop cond step b2 fuel i s := by
  intro fuel
  induction fuel with
  | zero =>
    intro i s _
    simp [forLoop]
  | succ n ih =>
    intro i s hs
    by_cases hc : cond i = true
    · simp only [forLoop, hc, if_true, h i s hs hc]
      cases hb : b2 i s with
      | none => rfl
      | some t => exact ih (step i) t (hI i s t hs hc hb)
    · simp [forLoop, hc]

theorem readChecked_eq (data : List Byte) (i : Nat) (hi : i < data.length) :
    readChecked data i = some (readAt data i) := by
  simp [readChecked, hi]

theorem writeChecked_eq (data : List Byte) (i v : Nat) (hi : i < data.length) :
    writeChecked data i v = some (writeAt data i v) := by
  simp [writeChecked, hi]

theorem pixelIndex_lt (w h X Y c : Nat) (hX : X < w) (hY : Y < h) (hc : c < 4) :
    (Y * w + X) * 4 + c < 4 * w * h := by
  have := chanIndex_lt w h X Y c hX hY hc
  unfold chanIndex at this
  exact this

/-- Every read of the summing loops is inside the buffer. -/
theorem sumBlockChecked_eq (data : List Byte) (w h p px py : Nat)
    (hlen : data.length = 4 * w * h) :
    sumBlockChecked data w h p px py = sumBlock data w h p px py := by
  unfold sumBlockChecked sumBlock
  apply forLoop_congr _ _ _ _ (fun _ _ => True) _ (fun _ _ _ _ _ _ => trivial) _ _ _ trivial
  intro dy acc _ hdy
  rw [blockCond_iff] at hdy
  have hy : py + dy < h := by
    unfold blockSide at hdy
    omega
  apply forLoop_congr _ _ _ _ (fun _ _ => True) _ (fun _ _ _ _ _ _ => trivial) _ _ _ trivial
  intro dx acc _ hdx
  rw [blockCond_iff] at hdx
  have hx : px + dx < w := by
    unfold blockSide at hdx
    omega
  have h0 := pixelIndex_lt w h (px + dx) (py + dy) 0 hx hy (by omega)
  have h1 := pixelIndex_lt w h (px + dx) (py + dy) 1 hx hy (by omega)
  have h2 := pixelIndex_lt w h (px + dx) (py + dy) 2 hx hy (by omega)
  have h3 := pixelIndex_lt w h (px + dx) (py + dy) 3 hx hy (by omega)
  rw [← hlen] at h0 h1 h2 h3
  simp only [Nat.add_zero] at h0
  simp [readChecked_eq _ _ h0, readChecked_eq _ _ h1, readChecked_eq _ _ h2,
    readChecked_eq _ _ h3]

/-- Every store of the writing loops is inside the buffer. -/
theorem fillBlockChecked_eq (data : List Byte) (w h p px py r g b a : Nat)
    (hlen : data.length = 4 * w * h) :
    fillBlockChecked data w h p px py r g b a = fillBlock data w h p px py r g b a := by
  unfold fillBlockChecked fillBlock
  apply forLoop_congr _ _ _ _ (fun _ (d : List Byte) => d.length = 4 * w * h) _ _ _ _ _ hlen
  · intro dy d hd hdy
    rw [blockCond_iff] at hdy
    have hy : py + dy < h := by
      unfold blockSide at hdy
      omega
    apply forLoop_congr _ _ _ _ (fun _ (d : List Byte) => d.length = 4 * w * h) _ _ _ _ _ hd
    · intro dx d hd hdx
      rw [blockCond_iff] at hdx
      have hx : px + dx < w := by
        unfold blockSide at hdx
        omega
      have h0 := pixelIndex_lt w h (px + dx) (py + dy) 0 hx hy (by omega)
      have h1 := pixelIndex_lt w h (px + dx) (py + dy) 1 hx hy (by omega)
      have h2 := pixelIndex_lt w h (px + dx) (py + dy) 2 hx hy (by omega)
      have h3 := pixelIndex_lt w h (px + dx) (py + dy) 3 hx hy (by omega)
      rw [← hd] at h0 h1 h2 h3
      simp only [Nat.add_zero] at h0
      simp [writeChecked, length_writeAt, h0, h1, h2, h3]
    · intro dx d t hd _ ht
      simp only [Option.some.injEq] at ht
      subst ht
      simpa [length_writeAt] using hd
  · intro dy d t hd hdy ht
    rw [blockCond_iff] at hdy
    have hy : py + dy < h := by
      unfold blockSide at hdy
      omega
    obtain ⟨t', ht', hF⟩ := fillRow_spec w h p px py dy r g b a d d (fun _ _ => False)
      (filled_refl w h d _ _ (fun _ _ hf => hf)) hd hy
    rw [ht'] at ht
    simp only [Option.some.injEq] at ht
    subst ht
    rw [hF.1, hd]

/-- The checked block loop agrees with the block loop: no access leaves the buffer and
no block has a pixel count of 0. -/
theorem blockLoopChecked_eq (data : List Byte) (w h p : Nat) (hp : 1 ≤ p)
    (hlen : data.length = 4 * w * h) :
    blockLoopChecked data w h p = blockLoop data w h p := by
  have hstep : ∀ px py (d : List Byte), d.length = 4 * w * h → px < w → py < h →
      ((sumBlockChecked d w h p px py).bind fun acc =>
        if 1 ≤ acc.count then
          fillBlockChecked d w h p px py
            (acc.r / acc.count) (acc.g / acc.count) (acc.b / acc.count) (acc.a / acc.count)
        else none)
      = ((sumBlock d w h p px py).bind fun acc =>
          fillBlock d w h p px py
            (acc.r / acc.count) (acc.g / acc.count) (acc.b / acc.count) (acc.a / acc.count)) := by
    intro px py d hd hx hy
    rw [sumBlockChecked_eq d w h p px py hd]
    obtain ⟨acc, hacc, hcnt, -⟩ := sumBlock_spec d w h p px py
    have h1 : 1 ≤ blockSide h p py := by
      unfold blockSide
      omega
    have h2 : 1 ≤ blockSide w p px := by
      unfold blockSide
      omega
    have hc : 1 ≤ acc.count := by
      rw [hcnt]
      exact Nat.mul_le_mul h1 h2
    simp [hacc, hc, fillBlockChecked_eq d w h p px py _ _ _ _ hd]
  have hkeep : ∀ px py (d t : List Byte), d.length = 4 * w * h →
      ((sumBlock d w h p px py).bind fun acc =>
          fillBlock d w h p px py
            (acc.r / acc.count) (acc.g / acc.count) (acc.b / acc.count) (acc.a / acc.count))
        = some t → t.length = 4 * w * h := by
    intro px py d t hd ht
    obtain ⟨acc, hacc, -, -⟩ := sumBlock_spec d w h p px py
    obtain ⟨t', ht', hF⟩ := fillBlock_spec w h p px py
      (acc.r / acc.count) (acc.g / acc.count) (acc.b / acc.count) (acc.a / acc.count) d hd
    simp only [hacc, Option.some_bind, ht', Option.some.injEq] at ht
    subst ht
    rw [hF.1, hd]
  unfold blockLoopChecked blockLoop
  apply forLoop_congr _ _ _ _ (fun _ (d : List Byte) => d.length = 4 * w * h) _ _ _ _ _ hlen
  · intro py d hd hpy
    have hy : py < h := by simpa using hpy
    apply forLoop_congr _ _ _ _ (fun _ (d : List Byte) => d.length = 4 * w * h) _ _ _ _ _ hd
    · intro px d hd hpx
      have hx : px < w := by simpa using hpx
      exact hstep px py d hd hx hy
    · intro px d t hd _ ht
      exact hkeep px py d t hd ht
  · intro py d t hd _ ht
    obtain ⟨t', j, hrun, hI, -⟩ := forLoop_rule (fun px => decide (px < w)) (· + p)
      (fun px (d : List Byte) =>
        (sumBlock d w h p px py).bind fun acc =>
          fillBlock d w h p px py
            (acc.r / acc.count) (acc.g / acc.count) (acc.b / acc.count) (acc.a / acc.count))
      (fun _ d => d.length = 4 * w * h) (fun px => w - px)
      (by
        intro i s hs _
        obtain ⟨acc, hacc, -, -⟩ := sumBlock_spec s w h p i py
        obtain ⟨t', ht', hF⟩ := fillBlock_spec w h p i py
          (acc.r / acc.count) (acc.g / acc.count) (acc.b / acc.count) (acc.a / acc.count) s hs
        exact ⟨t', by simp [hacc, ht'], by show t'.length = 4 * w * h; rw [hF.1, hs]⟩)
      (by
        intro i hc
        have hi : i < w := by simpa using hc
        show w - (i + p) < w - i
        omega)
      w 0 d (by show w - 0 ≤ w; omega) hd
    rw [hrun] at ht
    simp only [Option.some.injEq] at ht
    subst ht
    exact hI

/-- C19: for every buffer of a `w` by `h` image data (whatever part of it lies past the
canvas) and every block size `p >= 1`, the block loop of `applyHeavyPixelation`
terminates even when every access is checked: no index it reads or writes is outside
`[0, 4 * w * h)` and no block has a pixel count below 1; the checked run gives the result
of the loop. -/
theorem blockLoop_safe (data : List Byte) (w h p : Nat) (hp : 1 ≤ p)
    (hlen : data.length = 4 * w * h) :
    ∃ out, blockLoopChecked data w h p = some out ∧ blockLoop data w h p = some out ∧
      out.length = 4 * w * h := by
  obtain ⟨out, hrun, hA⟩ := blockLoop_spec w h p data hp hlen
  exact ⟨out, by rw [blockLoopChecked_eq data w h p hp hlen, hrun], hrun, by rw [hA.1, hlen]⟩

/-- Witness of C19: a 2 by 1 buffer and block size 15. -/
theorem blockLoop_safe_witness :
    ∃ out, blockLoopChecked [10, 20, 30, 255, 30, 40, 50, 255] 2 1 15 = some out ∧
      blockLoop [10, 20, 30, 255, 30, 40, 50, 255] 2 1 15 = some out ∧
      out.length = 4 * 2 * 1 :=
  blockLoop_safe [10, 20, 30, 255, 30, 40, 50, 255] 2 1 15 (by decide) (by decide)

/-! ## The session after a manual click, a retake and the end of live detection -/

theorem retakePhoto_fields (s : AppState) :
    s.retakePhoto.currentPhoto = none ∧ s.retakePhoto.analysisResult = none ∧
      s.retakePhoto.isBlurred = false ∧ s.retakePhoto.originalImageData = none ∧
      s.retakePhoto.blurredImageData = none := by
  unfold AppState.retakePhoto
  cases h1 : s.originalImageData <;> cases h2 : s.blurredImageData <;>
    simp [h1, h2, AppState.revokeObjectURL]

theorem performMemoryCleanup_fields (s : LiveState) :
    (Optimized.performMemoryCleanup s).app.currentPhoto = s.app.currentPhoto ∧
      (Optimized.performMemoryCleanup s).app.analysisResult = s.app.analysisResult ∧
      (Optimized.performMemoryCleanup s).app.isBlurred = s.app.isBlurred ∧
      (Optimized.performMemoryCleanup s).app.originalImageData = s.app.originalImageData ∧
      (Optimized.performMemoryCleanup s).app.blurredImageData = s.app.blurredImageData := by
  unfold Optimized.performMemoryCleanup
  cases h1 : s.app.originalImageData <;> cases h2 : s.app.blurredImageData <;>
    simp [h1, h2, AppState.revokeObjectURL, LiveState.clearOverlay]

/-- C11: after `retakePhoto` the session fields are those of a new session, whatever the
state before: `currentPhoto`, `analysisResult` (and so the region list it held) are
`null` and `isBlurred` is false, in app-simple, app-live, app-optimized and in the canvas
variants; in the three variants that cache images `originalImageData` and
`blurredImageData` are `null` as well. -/
theorem retakePhoto_resets (s : AppState) (l : LiveState) (c : CanvasState)
    (v : CanvasVariant) :
    (s.retakePhoto.currentPhoto = none ∧ s.retakePhoto.analysisResult = none ∧
      s.retakePhoto.isBlurred = false ∧ s.retakePhoto.originalImageData = none ∧
      s.retakePhoto.blurredImageData = none) ∧
    ((Live.retakePhoto l).app.currentPhoto = none ∧
      (Live.retakePhoto l).app.analysisResult = none ∧
      (Live.retakePhoto l).app.isBlurred = false ∧
      (Live.retakePhoto l).app.originalImageData = none ∧
      (Live.retakePhoto l).app.blurredImageData = none) ∧
    ((Optimized.retakePhoto l).app.currentPhoto = none ∧
      (Optimized.retakePhoto l).app.analysisResult = none ∧
      (Optimized.retakePhoto l).app.isBlurred = false ∧
      (Optimized.retakePhoto l).app.originalImageData = none ∧
      (Optimized.retakePhoto l).app.blurredImageData = none) ∧
    ((c.retakePhoto v).currentPhoto = none ∧ (c.retakePhoto v).analysisResult = none ∧
      (c.retakePhoto v).isBlurred = false) := by
  refine ⟨retakePhoto_fields s, ?_, ?_, ?_⟩
  · exact retakePhoto_fields _
  · obtain ⟨h1, h2, h3, h4, h5⟩ := performMemoryCleanup_fields
      { (if l.isLiveDetectionActive then Optimized.stopLiveDetection l else l) with
        app := (if l.isLiveDetectionActive then Optimized.stopLiveDetection l else l).app.retakePhoto,
        liveBtnActive := false }
    obtain ⟨g1, g2, g3, g4, g5⟩ := retakePhoto_fields
      (if l.isLiveDetectionActive then Optimized.stopLiveDetection l else l).app
    exact ⟨h1.trans g1, h2.trans g2, h3.trans g3, h4.trans g4, h5.trans g5⟩
  · cases v <;> simp only [CanvasState.retakePhoto] <;> (try split) <;>
      simp [CanvasState.revokeObjectURL]

/-- C20: in app-simple, app-live and app-optimized the click handler, run in a session
that has an analysis result and a current photo, returns normally; the array of the
analysis result is the old one with the new region appended, the other arrays and the
result are unchanged, and a `createBlurredImage` call is started for the current photo
and this array: when no older call is pending, its completion caches the image that
`createBlurredImage` makes from the photo with the old regions followed by the new
one. -/
theorem manualClick_appends (s : AppState) (image : ImageElement)
    (left top clientX clientY : ℚ) (r : AnalysisResult) (photo : Bitmap)
    (hr : s.analysisResult = some r) (hp : s.currentPhoto = some photo) :
    ∃ t, s.manualClick image left top clientX clientY = some t ∧
      t.arrays r.faces = s.arrays r.faces ++ [manualFace image left top clientX clientY] ∧
      (∀ k, k ≠ r.faces → t.arrays k = s.arrays k) ∧
      t.analysisResult = some r ∧ t.currentPhoto = some photo ∧
      t.blurJobs = s.blurJobs ++ [{ photo := photo, faces := r.faces }] ∧
      (∀ l : LiveState, l.app = s →
        (l.manualClick image left top clientX clientY).map LiveState.app = some t) ∧
      (s.blurJobs = [] → ∀ rng d,
        createBlurredImage photo
          (s.arrays r.faces ++ [manualFace image left top clientX clientY]) rng = some d →
        (t.blurredImageLoaded rng).blurredImageData = some t.nextUrl ∧
        (t.blurredImageLoaded rng).blobs t.nextUrl = some d.ctx.bitmap ∧
        (t.blurredImageLoaded rng).blurJobs = []) := by
  cases hrun : s.manualClick image left top clientX clientY with
  | none => simp [AppState.manualClick, hr, hp] at hrun
  | some t =>
  simp only [AppState.manualClick, hr, hp, Option.some.injEq] at hrun
  subst hrun
  refine ⟨_, rfl, ?_, ?_, ?_, ?_, ?_, ?_, ?_⟩
  · simp [AppState.showError, AppState.updateFaceInfo, AppState.createBlurredImage]
  · intro k hk
    simp [AppState.showError, AppState.updateFaceInfo, AppState.createBlurredImage, hk]
  · simp [AppState.showError, AppState.updateFaceInfo, AppState.createBlurredImage, hr]
  · simp [AppState.showError, AppState.updateFaceInfo, AppState.createBlurredImage, hp]
  · simp [AppState.showError, AppState.updateFaceInfo, AppState.createBlurredImage]
  · intro l hl
    subst hl
    simp [LiveState.manualClick, AppState.manualClick, hr, hp]
  · intro hj rng d hd
    simp [AppState.blurredImageLoaded, AppState.showError, AppState.updateFaceInfo,
      AppState.createBlurredImage, AppState.createObjectURL, hj, hd]
theorem manualClick_appends_witness :
    ∃ t, analysedSession.manualClick shownPhoto 0 0 1 1 = some t ∧
      t.arrays 0 = analysedSession.arrays 0 ++ [manualFace shownPhoto 0 0 1 1] :=
  (manualClick_appends analysedSession shownPhoto 0 0 1 1
    { description := "Foto analysiert", faces := 0 } (plainPhoto 4 4 100) rfl rfl).imp
    fun _ h => ⟨h.1, h.2.1⟩

theorem clearRect_full (c : Ctx) (hc : c.state.clip = []) (x y : Nat)
    (hx : x < c.bitmap.width) (hy : y < c.bitmap.height) :
    (c.clearRect 0 0 c.bitmap.width c.bitmap.height).bitmap.px x y = Pixel.clear := by
  have hx1 : (x : ℚ) + 1 ≤ c.bitmap.width := by exact_mod_cast hx
  have hy1 : (y : ℚ) + 1 ≤ c.bitmap.height := by exact_mod_cast hy
  have hx0 : (0 : ℚ) ≤ x := Nat.cast_nonneg x
  have hy0 : (0 : ℚ) ≤ y := Nat.cast_nonneg y
  have hw0 : (0 : ℚ) ≤ c.bitmap.width := Nat.cast_nonneg _
  have hh0 : (0 : ℚ) ≤ c.bitmap.height := Nat.cast_nonneg _
  have h1 : min (0 : ℚ) (0 + c.bitmap.width) ≤ (x : ℚ) + 1 / 2 := by
    rw [zero_add, min_eq_left hw0]; linarith
  have h2 : (x : ℚ) + 1 / 2 < max (0 : ℚ) (0 + c.bitmap.width) := by
    rw [zero_add, max_eq_right hw0]; linarith
  have h3 : min (0 : ℚ) (0 + c.bitmap.height) ≤ (y : ℚ) + 1 / 2 := by
    rw [zero_add, min_eq_left hh0]; linarith
  have h4 : (y : ℚ) + 1 / 2 < max (0 : ℚ) (0 + c.bitmap.height) := by
    rw [zero_add, max_eq_right hh0]; linarith
  have hcov : (Region.rect 0 0 c.bitmap.width c.bitmap.height).covers x y = true := by
    simp only [Region.covers, Bool.and_eq_true, decide_eq_true_eq]
    exact ⟨⟨⟨h1, h2⟩, h3⟩, h4⟩
  have hin : c.inClip x y = true := by simp [Ctx.inClip, hc]
  simp only [Ctx.clearRect, Ctx.mapPx, Bitmap.withPx]
  rw [if_pos ⟨hx, hy, hcov, hin⟩]

theorem clearOverlay_clear (s : LiveState) (hc : s.liveCtx.state.clip = []) :
    s.clearOverlay.OverlayClear ∧ s.clearOverlay.liveCtx.state.clip = [] ∧
      s.clearOverlay.liveCtx.bitmap.width = s.liveCtx.bitmap.width ∧
      s.clearOverlay.liveCtx.bitmap.height = s.liveCtx.bitmap.height := by
  refine ⟨⟨?_, ?_⟩, hc, rfl, rfl⟩
  · intro x y hx hy
    exact clearRect_full s.liveCtx hc x y hx hy
  · simp [LiveState.clearOverlay, hc]

theorem live_stop_fields (s : LiveState) :
    (Live.stopLiveDetection s).liveCtx =
        s.liveCtx.clearRect 0 0 s.liveCtx.bitmap.width s.liveCtx.bitmap.height ∧
      (Live.stopLiveDetection s).liveTexts =
        (if s.liveCtx.state.clip.isEmpty then [] else s.liveTexts) ∧
      (Live.stopLiveDetection s).lastDetectedFaces = [] ∧
      (Live.stopLiveDetection s).isLiveDetectionActive = false ∧
      (Live.stopLiveDetection s).detectionInterval = none := by
  unfold Live.stopLiveDetection
  cases h : s.detectionInterval <;>
    simp [h, LiveState.showError, LiveState.clearOverlay, LiveState.clearInterval]

theorem performMemoryCleanup_live (s : LiveState) :
    (Optimized.performMemoryCleanup s).liveCtx = s.clearOverlay.liveCtx ∧
      (Optimized.performMemoryCleanup s).liveTexts = s.clearOverlay.liveTexts ∧
      (Optimized.performMemoryCleanup s).lastDetectedFaces = s.lastDetectedFaces ∧
      (Optimized.performMemoryCleanup s).isLiveDetectionActive = s.isLiveDetectionActive ∧
      (Optimized.performMemoryCleanup s).detectionInterval = s.detectionInterval :=
  ⟨rfl, rfl, rfl, rfl, rfl⟩

theorem optimized_stop_fields (s : LiveState) :
    (Optimized.stopLiveDetection s).liveCtx = s.clearOverlay.clearOverlay.liveCtx ∧
      (Optimized.stopLiveDetection s).liveTexts = s.clearOverlay.clearOverlay.liveTexts ∧
      (Optimized.stopLiveDetection s).lastDetectedFaces = [] ∧
      (Optimized.stopLiveDetection s).isLiveDetectionActive = false ∧
      (Optimized.stopLiveDetection s).detectionInterval = none := by
  cases h : s.detectionInterval <;> simp only [Optimized.stopLiveDetection, h] <;>
    exact ⟨rfl, rfl, rfl, rfl, rfl⟩

/-- C14: in a state whose overlay context has no clipping region (the code never sets
one), after `stopLiveDetection` of app-live and of app-optimized every pixel of the live
overlay canvas is transparent and no text is left on it, the canvas keeps its size,
`lastDetectedFaces` is empty, `isLiveDetectionActive` is false and `detectionInterval`
is `null`. -/
theorem stopLiveDetection_clears (s : LiveState) (hclip : s.liveCtx.state.clip = []) :
    ((Live.stopLiveDetection s).OverlayClear ∧
      (Live.stopLiveDetection s).liveCtx.bitmap.width = s.liveCtx.bitmap.width ∧
      (Live.stopLiveDetection s).liveCtx.bitmap.height = s.liveCtx.bitmap.height ∧
      (Live.stopLiveDetection s).lastDetectedFaces = [] ∧
      (Live.stopLiveDetection s).isLiveDetectionActive = false ∧
      (Live.stopLiveDetection s).detectionInterval = none) ∧
    ((Optimized.stopLiveDetection s).OverlayClear ∧
      (Optimized.stopLiveDetection s).liveCtx.bitmap.width = s.liveCtx.bitmap.width ∧
      (Optimized.stopLiveDetection s).liveCtx.bitmap.height = s.liveCtx.bitmap.height ∧
      (Optimized.stopLiveDetection s).lastDetectedFaces = [] ∧
      (Optimized.stopLiveDetection s).isLiveDetectionActive = false ∧
      (Optimized.stopLiveDetection s).detectionInterval = none) := by
  obtain ⟨a1, a2, a3, a4, a5⟩ := live_stop_fields s
  obtain ⟨b1, b2, b3, b4, b5⟩ := optimized_stop_fields s
  obtain ⟨c1, c2, c3, c4⟩ := clearOverlay_clear s hclip
  obtain ⟨e1, _, e3, e4⟩ := clearOverlay_clear s.clearOverlay c2
  refine ⟨⟨⟨?_, ?_⟩, ?_, ?_, a3, a4, a5⟩, ⟨⟨?_, ?_⟩, ?_, ?_, b3, b4, b5⟩⟩
  · intro x y hx hy
    rw [a1] at hx hy ⊢
    exact clearRect_full s.liveCtx hclip x y hx hy
  · rw [a2]; simp [hclip]
  · rw [a1]; rfl
  · rw [a1]; rfl
  · intro x y hx hy
    rw [b1] at hx hy ⊢
    exact e1.1 x y hx hy
  · rw [b2]; exact e1.2
  · rw [b1, e3, c3]
  · rw [b1, e4, c4]

theorem stopLiveDetection_clears_witness :
    (Optimized.stopLiveDetection paintedSession).OverlayClear ∧
      (Optimized.stopLiveDetection paintedSession).lastDetectedFaces = [] :=
  ⟨(stopLiveDetection_clears paintedSession rfl).2.1,
    (stopLiveDetection_clears paintedSession rfl).2.2.2.2.1⟩

/-! ## Live detection and the cache of app-optimized -/

/-- C15: the claim fails in app-optimized.  In a session that shows the results of a
photo with one face, with the original cached under URL 1 and the obfuscated image under
URL 2 and nothing revoked, the periodic `performMemoryCleanup` revokes both URLs and
leaves them in `originalImageData` and `blurredImageData`; the next `toggleBlur` then
gives the result image the revoked URL 2.  In general `performMemoryCleanup` revokes the
URL that either field holds and keeps the field. -/
theorem cleanup_revokes_cached_urls :
    (cachedSession.app.resultsShown = true ∧
      cachedSession.app.originalImageData = some 1 ∧
      cachedSession.app.blurredImageData = some 2 ∧
      cachedSession.app.revoked = []) ∧
    ((Optimized.performMemoryCleanup cachedSession).app.resultsShown = true ∧
      (Optimized.performMemoryCleanup cachedSession).app.originalImageData = some 1 ∧
      (Optimized.performMemoryCleanup cachedSession).app.blurredImageData = some 2 ∧
      (Optimized.performMemoryCleanup cachedSession).app.revoked = [2, 1] ∧
      (Optimized.performMemoryCleanup cachedSession).app.toggleBlur.resultImageSrc =
        Src.url 2) ∧
    (∀ (s : LiveState) (u : Url), s.app.originalImageData = some u →
      (Optimized.performMemoryCleanup s).app.originalImageData = some u ∧
      u ∈ (Optimized.performMemoryCleanup s).app.revoked) ∧
    (∀ (s : LiveState) (u : Url), s.app.blurredImageData = some u →
      (Optimized.performMemoryCleanup s).app.blurredImageData = some u ∧
      u ∈ (Optimized.performMemoryCleanup s).app.revoked) := by
  refine ⟨by decide!, by decide!, ?_, ?_⟩
  · intro s u h
    unfold Optimized.performMemoryCleanup
    cases h2 : s.app.blurredImageData <;>
      simp [h, h2, AppState.revokeObjectURL, LiveState.clearOverlay]
  · intro s u h
    unfold Optimized.performMemoryCleanup
    cases h1 : s.app.originalImageData <;>
      simp [h, h1, AppState.revokeObjectURL, LiveState.clearOverlay]

/-- C18: the claim fails in app-optimized.  With the face of `boxPrediction` found on the
second tick and no face found on the fourth, the fourth tick clears the overlay and
leaves the region of the second tick in `lastDetectedFaces`, and the skipped fifth tick
draws that region again: the pixel at its centre `(40, 50)` is transparent after the
fourth tick and painted after the fifth.  In general a detection that finds no face
leaves `lastDetectedFaces` as it was. -/
theorem skipped_tick_draws_stale_faces :
    (staleTicks4.frameSkipCounter = 4 ∧
      staleTicks4.liveCtx.bitmap.px 40 50 = Pixel.clear ∧
      staleTicks4.lastDetectedFaces.map (fun f => (f.x, f.y, f.radius)) = [(40, 50, 33)]) ∧
    (staleTicks5.frameSkipCounter = 5 ∧
      staleTicks5.liveCtx.bitmap.px 40 50 ≠ Pixel.clear) ∧
    (∀ s : LiveState,
      (Optimized.tickResume s (Except.ok [])).lastDetectedFaces = s.lastDetectedFaces) := by
  refine ⟨by decide!, by decide!, ?_⟩
  intro s
  rfl

/-! ## A failed analysis -/

theorem canvas_rejected_shows (v : CanvasVariant) (hv1 : v ≠ CanvasVariant.app)
    (hv2 : v ≠ CanvasVariant.offline) (c : CanvasState) (photo : Bitmap) (message : String) :
    (c.analyzePhoto v photo (Detection.rejected message)).messages =
        c.messages ++ [("Analyse fehlgeschlagen: " ++ message, 5000)] ∧
      (c.analyzePhoto v photo (Detection.rejected message)).loading = false ∧
      (c.analyzePhoto v photo (Detection.rejected message)).resultsShown = true ∧
      (c.analyzePhoto v photo (Detection.rejected message)).resultImageSrc = Src.url c.nextUrl ∧
      (c.analyzePhoto v photo (Detection.rejected message)).blobs c.nextUrl = some photo ∧
      (c.analyzePhoto v photo (Detection.rejected message)).description = v.fallbackText ∧
      (c.analyzePhoto v photo (Detection.rejected message)).renderJobs = c.renderJobs ∧
      (c.analyzePhoto v photo (Detection.rejected message)).toggleBtnHidden = c.toggleBtnHidden ∧
      1 ≤ (c.analyzePhoto v photo (Detection.rejected message)).manualBtns ∧
      (c.analyzePhoto v photo (Detection.rejected message)).analysisResult = c.analysisResult := by
  cases v <;>
    simp_all [CanvasState.analyzePhoto, CanvasState.showResults, CanvasState.showError,
      CanvasState.newArray, CanvasState.createObjectURL, CanvasState.addManualFaceDetection,
      CanvasState.setupFaceBlurring, CanvasVariant.catchShowsResults,
      CanvasVariant.alwaysOffersManual]

theorem canvas_rejected_stays (v : CanvasVariant)
    (hv : v = CanvasVariant.app ∨ v = CanvasVariant.offline) (c : CanvasState) (photo : Bitmap)
    (message : String) :
    (c.analyzePhoto v photo (Detection.rejected message)).messages =
        c.messages ++ [("Analyse fehlgeschlagen: " ++ message, 5000)] ∧
      (c.analyzePhoto v photo (Detection.rejected message)).loading = false ∧
      (c.analyzePhoto v photo (Detection.rejected message)).resultsShown = c.resultsShown ∧
      (c.analyzePhoto v photo (Detection.rejected message)).resultImageSrc = c.resultImageSrc ∧
      (c.analyzePhoto v photo (Detection.rejected message)).description = c.description ∧
      (c.analyzePhoto v photo (Detection.rejected message)).manualBtns = c.manualBtns := by
  rcases hv with h | h <;> subst h <;>
    simp [CanvasState.analyzePhoto, CanvasState.showError, CanvasVariant.catchShowsResults]

theorem simple_rejected_shows (s : AppState) (photo : Bitmap) (message : String) :
    (s.analyzePhoto photo (Detection.rejected message)).messages =
        s.messages ++ [("Analyse fehlgeschlagen: " ++ message, 5000)] ∧
      (s.analyzePhoto photo (Detection.rejected message)).loading = false ∧
      (s.analyzePhoto photo (Detection.rejected message)).resultsShown = true ∧
      (s.analyzePhoto photo (Detection.rejected message)).resultImageSrc = Src.url s.nextUrl ∧
      (s.analyzePhoto photo (Detection.rejected message)).blobs s.nextUrl = some photo ∧
      (s.analyzePhoto photo (Detection.rejected message)).blurJobs = s.blurJobs ∧
      (s.analyzePhoto photo (Detection.rejected message)).toggleBtnHidden = s.toggleBtnHidden ∧
      (s.analyzePhoto photo (Detection.rejected message)).manualBtn = true ∧
      (s.analyzePhoto photo (Detection.rejected message)).analysisResult = s.analysisResult := by
  simp [AppState.analyzePhoto, AppState.showResults, AppState.showError, AppState.newArray,
    AppState.createObjectURL]

theorem live_rejected_shows (l : LiveState) (photo : Bitmap) (message : String) :
    (Live.analyzePhoto l photo (Detection.rejected message)).app.messages =
        l.app.messages ++ [("Analyse fehlgeschlagen: " ++ message, 5000)] ++
          (if l.isLiveDetectionActive then [("Live-Effekte deaktiviert", 2000)] else []) ∧
      (Live.analyzePhoto l photo (Detection.rejected message)).app.loading = false ∧
      (Live.analyzePhoto l photo (Detection.rejected message)).app.resultsShown = true ∧
      (Live.analyzePhoto l photo (Detection.rejected message)).app.resultImageSrc =
        Src.url l.app.nextUrl ∧
      (Live.analyzePhoto l photo (Detection.rejected message)).app.blobs l.app.nextUrl =
        some photo ∧
      (Live.analyzePhoto l photo (Detection.rejected message)).app.blurJobs = l.app.blurJobs ∧
      (Live.analyzePhoto l photo (Detection.rejected message)).app.toggleBtnHidden =
        l.app.toggleBtnHidden ∧
      (Live.analyzePhoto l photo (Detection.rejected message)).app.manualBtn = true ∧
      (Live.analyzePhoto l photo (Detection.rejected message)).app.analysisResult =
        l.app.analysisResult := by
  cases h : l.isLiveDetectionActive <;> cases h1 : l.detectionInterval <;>
    simp [Live.analyzePhoto, Live.showResults, Live.stopLiveDetection, LiveState.showError,
      LiveState.clearOverlay, LiveState.clearInterval, AppState.showResults,
      AppState.showError, AppState.newArray, AppState.createObjectURL, h, h1]

theorem optimized_rejected_shows (l : LiveState) (photo : Bitmap) (message : String) :
    (Optimized.analyzePhoto l photo (Detection.rejected message)).app.messages =
        l.app.messages ++ [("Analyse fehlgeschlagen: " ++ message, 5000)] ++
          (if l.isLiveDetectionActive then [("Live-Effekte deaktiviert", 2000)] else []) ∧
      (Optimized.analyzePhoto l photo (Detection.rejected message)).app.loading = false ∧
      (Optimized.analyzePhoto l photo (Detection.rejected message)).app.resultsShown = true ∧
      (Optimized.analyzePhoto l photo (Detection.rejected message)).app.resultImageSrc =
        Src.url l.app.nextUrl ∧
      (Optimized.analyzePhoto l photo (Detection.rejected message)).app.blobs l.app.nextUrl =
        some photo ∧
      (Optimized.analyzePhoto l photo (Detection.rejected message)).app.blurJobs =
        l.app.blurJobs ∧
      (Optimized.analyzePhoto l photo (Detection.rejected message)).app.toggleBtnHidden =
        l.app.toggleBtnHidden ∧
      (Optimized.analyzePhoto l photo (Detection.rejected message)).app.manualBtn = true ∧
      (Optimized.analyzePhoto l photo (Detection.rejected message)).app.analysisResult =
        l.app.analysisResult := by
  cases h : l.isLiveDetectionActive <;> cases h1 : l.detectionInterval <;>
    cases h2 : l.app.originalImageData <;> cases h3 : l.app.blurredImageData <;>
    simp [Optimized.analyzePhoto, Optimized.showResults, Optimized.stopLiveDetection,
      Optimized.performMemoryCleanup, LiveState.showError, AppState.revokeObjectURL,
      LiveState.clearOverlay, LiveState.clearInterval, AppState.showResults,
      AppState.showError, AppState.newArray, AppState.createObjectURL, h, h1, h2, h3]
theorem model_error_simple (s : AppState) (photo : Bitmap) (w h : Nat) (e : String) :
    (s.analyzePhoto photo (detectFacesWithTensorFlow true w h (Except.error e))).messages =
        s.messages ∧
      (s.analyzePhoto photo (detectFacesWithTensorFlow true w h (Except.error e))).resultsShown =
        true ∧
      (s.analyzePhoto photo (detectFacesWithTensorFlow true w h (Except.error e))).description =
        modelFailedText ∧
      (s.analyzePhoto photo (detectFacesWithTensorFlow true w h (Except.error e))).analysisResult =
        some { description := modelFailedText, faces := s.nextArray } ∧
      (s.analyzePhoto photo (detectFacesWithTensorFlow true w h (Except.error e))).arrays
        s.nextArray = [] ∧
      (s.analyzePhoto photo (detectFacesWithTensorFlow true w h (Except.error e))).blurJobs =
        s.blurJobs := by
  simp [detectFacesWithTensorFlow, modelFailedText, AppState.analyzePhoto, AppState.showResults,
    AppState.newArray, AppState.createObjectURL]

/-- C12: what `analyzePhoto` does when the awaited detection is rejected with `message`.
In no variant is the error propagated, and in each the status message "Analyse
fehlgeschlagen: " followed by the message is shown and the loading indicator is switched
off.  In app.js and app-offline nothing else happens: the results view, the result image
and the description stay as they were.  In app-improved, app-tensorflow, app-fixed,
app-simple, app-live and app-optimized the results view is shown with the photo and an
empty region list (no rendering is started, a manual button is offered); app-live and
app-optimized also show the message of `stopLiveDetection` when live detection was
running.  An error of the model call itself
is caught in `detectFacesWithTensorFlow`: the results view is then shown with an empty
list and the failure is told in the description, without a status message. -/
theorem analyzePhoto_catches_rejection (c : CanvasState) (s : AppState) (l : LiveState)
    (photo : Bitmap) (message : String) (w h : Nat) :
    c.OnlyReports (c.analyzePhoto CanvasVariant.app photo (Detection.rejected message)) message ∧
    c.OnlyReports (c.analyzePhoto CanvasVariant.offline photo (Detection.rejected message))
      message ∧
    c.ShowsEmpty (c.analyzePhoto CanvasVariant.improved photo (Detection.rejected message))
      photo message CanvasVariant.improved.fallbackText ∧
    c.ShowsEmpty (c.analyzePhoto CanvasVariant.tensorflow photo (Detection.rejected message))
      photo message CanvasVariant.tensorflow.fallbackText ∧
    c.ShowsEmpty (c.analyzePhoto CanvasVariant.fixed photo (Detection.rejected message))
      photo message CanvasVariant.fixed.fallbackText ∧
    s.ShowsEmpty (s.analyzePhoto photo (Detection.rejected message)) photo
      [failureMessage message] ∧
    l.app.ShowsEmpty (Live.analyzePhoto l photo (Detection.rejected message)).app photo
      (failureMessage message ::
        if l.isLiveDetectionActive then [("Live-Effekte deaktiviert", 2000)] else []) ∧
    l.app.ShowsEmpty (Optimized.analyzePhoto l photo (Detection.rejected message)).app photo
      (failureMessage message ::
        if l.isLiveDetectionActive then [("Live-Effekte deaktiviert", 2000)] else []) ∧
    ((s.analyzePhoto photo (detectFacesWithTensorFlow true w h (Except.error message))).messages =
        s.messages ∧
      (s.analyzePhoto photo
        (detectFacesWithTensorFlow true w h (Except.error message))).resultsShown = true ∧
      (s.analyzePhoto photo
        (detectFacesWithTensorFlow true w h (Except.error message))).description =
          modelFailedText ∧
      (s.analyzePhoto photo
        (detectFacesWithTensorFlow true w h (Except.error message))).arrays s.nextArray = [] ∧
      (s.analyzePhoto photo
        (detectFacesWithTensorFlow true w h (Except.error message))).blurJobs = s.blurJobs) := by
  refine ⟨?_, ?_, ?_, ?_, ?_, ?_, ?_, ?_, ?_⟩
  · exact canvas_rejected_stays _ (Or.inl rfl) c photo message
  · exact canvas_rejected_stays _ (Or.inr rfl) c photo message
  · obtain ⟨h1, h2, h3, h4, h5, h6, h7, h8, h9, -⟩ :=
      canvas_rejected_shows CanvasVariant.improved (by decide) (by decide) c photo message
    exact ⟨h1, h2, h3, h4, h5, h6, h7, h8, h9⟩
  · obtain ⟨h1, h2, h3, h4, h5, h6, h7, h8, h9, -⟩ :=
      canvas_rejected_shows CanvasVariant.tensorflow (by decide) (by decide) c photo message
    exact ⟨h1, h2, h3, h4, h5, h6, h7, h8, h9⟩
  · obtain ⟨h1, h2, h3, h4, h5, h6, h7, h8, h9, -⟩ :=
      canvas_rejected_shows CanvasVariant.fixed (by decide) (by decide) c photo message
    exact ⟨h1, h2, h3, h4, h5, h6, h7, h8, h9⟩
  · obtain ⟨h1, h2, h3, h4, h5, h6, h7, h8, -⟩ := simple_rejected_shows s photo message
    exact ⟨h1, h2, h3, h4, h5, h6, h7, h8⟩
  · obtain ⟨h1, h2, h3, h4, h5, h6, h7, h8, -⟩ := live_rejected_shows l photo message
    exact ⟨by simpa [failureMessage] using h1, h2, h3, h4, h5, h6, h7, h8⟩
  · obtain ⟨h1, h2, h3, h4, h5, h6, h7, h8, -⟩ := optimized_rejected_shows l photo message
    exact ⟨by simpa [failureMessage] using h1, h2, h3, h4, h5, h6, h7, h8⟩
  · obtain ⟨h1, h2, h3, _, h5, h6⟩ := model_error_simple s photo w h message
    exact ⟨h1, h2, h3, h5, h6⟩

/-- C12, counterexample: in app.js a request that comes back with status 500 leaves the
camera view: the message is shown, the results view is not, and the result image has no
source; the `catch` of app-offline does the same. -/
theorem app_failure_keeps_camera_view :
    appFailedSession.resultsShown = false ∧
      appFailedSession.messages =
        [("Analyse fehlgeschlagen: DeepSeek API Fehler: 500", 5000)] ∧
      appFailedSession.resultImageSrc = Src.empty ∧
      offlineFailedSession.resultsShown = false := by
  decide!

/-- C13: the claim fails in app-improved.  In a new session whose analysis request comes
back with status 401 the results view is shown with one manual button and
`analysisResult` stays `null`; after the button is clicked the handler is installed, and
the click on the image makes it throw before it adds a region.  The same holds for every
failed analysis in a new session or after a retake. -/
theorem improved_click_after_failure_throws :
    (improvedFailedSession.resultsShown = true ∧ improvedFailedSession.manualBtns = 1 ∧
      improvedFailedSession.messages = [("Analyse fehlgeschlagen: Ungültiger API Key", 5000)]) ∧
    improvedFailedSession.analysisResult = none ∧
    (CanvasState.enableManualFaceDetection CanvasVariant.improved
      improvedFailedSession).clickHandler = true ∧
    CanvasState.clickImage CanvasVariant.improved
      (CanvasState.enableManualFaceDetection CanvasVariant.improved improvedFailedSession)
      shownPhoto 0 0 1 1 = none ∧
    (∀ (b : Bool) (photo : Bitmap) (message : String) (image : ImageElement)
        (left top clientX clientY : ℚ),
      CanvasState.clickImage CanvasVariant.improved
        (CanvasState.enableManualFaceDetection CanvasVariant.improved
          (CanvasState.capturePhoto CanvasVariant.improved (CanvasState.init b) photo
            (Detection.rejected message)))
        image left top clientX clientY = none) ∧
    (∀ (c : CanvasState) (photo : Bitmap) (message : String) (image : ImageElement)
        (left top clientX clientY : ℚ),
      CanvasState.clickImage CanvasVariant.improved
        (CanvasState.enableManualFaceDetection CanvasVariant.improved
          (CanvasState.analyzePhoto CanvasVariant.improved
            (c.retakePhoto CanvasVariant.improved) photo (Detection.rejected message)))
        image left top clientX clientY = none) := by
  refine ⟨by decide!, rfl, rfl, rfl, ?_, ?_⟩
  · intro b photo message image left top clientX clientY
    cases b <;> rfl
  · intro c photo message image left top clientX clientY
    have h := (canvas_rejected_shows CanvasVariant.improved (by decide) (by decide)
      (c.retakePhoto CanvasVariant.improved) photo message).2.2.2.2.2.2.2.2.2
    have h0 : (c.retakePhoto CanvasVariant.improved).analysisResult = none := rfl
    rw [h0] at h
    simp [CanvasState.clickImage, CanvasState.enableManualFaceDetection, CanvasState.showError,
      CanvasState.manualClick, h]

/-! ## The regions that the adapters make -/

theorem boxRadius_pos (p : Prediction) (k : ℚ) (hk : 0 < k) :
    0 < max (p.bottomRight.1 - p.topLeft.1) (p.bottomRight.2 - p.topLeft.2) / 2 * k ↔
      p.topLeft.1 < p.bottomRight.1 ∨ p.topLeft.2 < p.bottomRight.2 := by
  constructor
  · intro h
    have h1 : 0 < max (p.bottomRight.1 - p.topLeft.1) (p.bottomRight.2 - p.topLeft.2) := by
      by_contra hneg
      push_neg at hneg
      have : max (p.bottomRight.1 - p.topLeft.1) (p.bottomRight.2 - p.topLeft.2) / 2 * k ≤ 0 :=
        mul_nonpos_of_nonpos_of_nonneg (by linarith) hk.le
      linarith
    rcases lt_max_iff.mp h1 with h2 | h2
    · left; linarith
    · right; linarith
  · intro h
    have h1 : 0 < max (p.bottomRight.1 - p.topLeft.1) (p.bottomRight.2 - p.topLeft.2) := by
      rcases h with h | h
      · exact lt_max_iff.mpr (Or.inl (by linarith))
      · exact lt_max_iff.mpr (Or.inr (by linarith))
    positivity

/-- C16, counterexample: a prediction whose box has no extent gives a region of radius 0
in `detectFacesWithTensorFlow` and in `detectAndBlurLive` of app-live and app-optimized;
so does a manual mark on an image without natural size. -/
theorem point_prediction_radius_zero :
    (faceOfPrediction pointPrediction).radius = 0 ∧
      (Live.liveFace pointPrediction).radius = 0 ∧
      (Optimized.liveFace 640 480 640 480 pointPrediction).radius = 0 ∧
      (manualFace { natural := plainPhoto 0 0 0, offsetWidth := 2, offsetHeight := 2 }
        0 0 1 1).radius = 0 := by
  decide!

/-- C16: the radius of the regions that each adapter makes.  A model prediction gives a
positive radius exactly when its box has a positive width or height (in app-optimized
also the live canvas and the video must have a positive width); the regions of the
pattern matches in app.js, of `extractFacesFromDescription` and of `detectFacesSimple`
always have a positive radius; a manual mark has radius 60 in app-improved and, in the
other variants, a positive radius exactly when the image has a positive natural width
and height. -/
theorem adapter_radius_positive (p : Prediction) (canvasWidth canvasHeight videoWidth
    videoHeight : Nat) (found : List (Nat × Nat × Nat)) (includes : String → Bool)
    (width height : Nat) (image : ImageElement) (left top clientX clientY : ℚ) :
    (0 < (faceOfPrediction p).radius ↔
      p.topLeft.1 < p.bottomRight.1 ∨ p.topLeft.2 < p.bottomRight.2) ∧
    (0 < (Live.liveFace p).radius ↔
      p.topLeft.1 < p.bottomRight.1 ∨ p.topLeft.2 < p.bottomRight.2) ∧
    (0 < (Optimized.liveFace canvasWidth canvasHeight videoWidth videoHeight p).radius ↔
      (p.topLeft.1 < p.bottomRight.1 ∨ p.topLeft.2 < p.bottomRight.2) ∧
        0 < canvasWidth ∧ 0 < videoWidth) ∧
    (∀ f ∈ App.facesOfMatches found, 0 < f.radius) ∧
    (∀ f ∈ Improved.extractFacesFromDescription includes, 0 < f.radius) ∧
    (∀ f ∈ Offline.detectFacesSimple width height, 0 < f.radius) ∧
    (Improved.manualFace image left top clientX clientY).radius = 60 ∧
    (0 < (manualFace image left top clientX clientY).radius ↔
      0 < image.natural.width ∧ 0 < image.natural.height) ∧
    (0 < (Offline.manualFace image left top clientX clientY).radius ↔
      0 < image.natural.width ∧ 0 < image.natural.height) := by
  have hmin : ∀ a b : Nat, (0 : ℚ) < ((min a b : Nat) : ℚ) * (8 / 100) ↔ 0 < a ∧ 0 < b := by
    intro a b
    constructor
    · intro h
      have h1 : (0 : ℚ) < ((min a b : Nat) : ℚ) := by
        by_contra hneg
        push_neg at hneg
        have : ((min a b : Nat) : ℚ) * (8 / 100) ≤ 0 :=
          mul_nonpos_of_nonpos_of_nonneg hneg (by norm_num)
        linarith
      have h2 : 0 < min a b := by exact_mod_cast h1
      exact lt_min_iff.mp h2
    · intro h
      have h2 : 0 < min a b := lt_min_iff.mpr h
      have h1 : (0 : ℚ) < ((min a b : Nat) : ℚ) := by exact_mod_cast h2
      positivity
  refine ⟨?_, ?_, ?_, ?_, ?_, ?_, rfl, ?_, ?_⟩
  · exact boxRadius_pos p (12 / 10) (by norm_num)
  · exact boxRadius_pos p (11 / 10) (by norm_num)
  · have hq : (0 : ℚ) ≤ (canvasWidth : ℚ) / videoWidth :=
      div_nonneg (Nat.cast_nonneg _) (Nat.cast_nonneg _)
    show 0 < (max (p.bottomRight.1 - p.topLeft.1) (p.bottomRight.2 - p.topLeft.2) / 2 *
      (11 / 10)) / (1 / 2) * ((canvasWidth : ℚ) / videoWidth) ↔ _
    constructor
    · intro h
      have hq1 : (0 : ℚ) < (canvasWidth : ℚ) / videoWidth := by
        rcases hq.lt_or_eq with h1 | h1
        · exact h1
        · rw [← h1] at h
          simp at h
      have hA : 0 < (max (p.bottomRight.1 - p.topLeft.1) (p.bottomRight.2 - p.topLeft.2) / 2 *
          (11 / 10)) / (1 / 2) := (pos_iff_pos_of_mul_pos h).mpr hq1
      have hA1 : 0 < max (p.bottomRight.1 - p.topLeft.1) (p.bottomRight.2 - p.topLeft.2) / 2 *
          (11 / 10) := by
        have h2 := mul_pos hA (by norm_num : (0 : ℚ) < 1 / 2)
        rwa [div_mul_cancel₀ _ (by norm_num : (1 / 2 : ℚ) ≠ 0)] at h2
      refine ⟨(boxRadius_pos p (11 / 10) (by norm_num)).mp hA1, ?_, ?_⟩
      · rcases Nat.eq_zero_or_pos canvasWidth with h0 | h0
        · rw [h0] at hq1
          simp at hq1
        · exact h0
      · rcases Nat.eq_zero_or_pos videoWidth with h0 | h0
        · rw [h0] at hq1
          simp at hq1
        · exact h0
    · rintro ⟨hb, hc, hv⟩
      have hc1 : (0 : ℚ) < canvasWidth := by exact_mod_cast hc
      have hv1 : (0 : ℚ) < videoWidth := by exact_mod_cast hv
      exact mul_pos (div_pos ((boxRadius_pos p (11 / 10) (by norm_num)).mpr hb) (by norm_num))
        (div_pos hc1 hv1)
  · intro f hf
    simp only [App.facesOfMatches, List.mem_map] at hf
    obtain ⟨m, _, rfl⟩ := hf
    by_cases h0 : m.2.2 = 0
    · simp [h0]
    · have : 0 < m.2.2 := Nat.pos_of_ne_zero h0
      simp [h0, this]
  · intro f hf
    unfold Improved.extractFacesFromDescription at hf
    split at hf
    · split at hf
      · simp at hf
        rcases hf with rfl | rfl <;> norm_num
      · simp at hf
        subst hf
        norm_num
    · simp at hf
  · intro f hf
    unfold Offline.detectFacesSimple at hf
    split at hf
    · rename_i hwh
      have hw0 : (0 : ℚ) < width := by
        have : 0 < width := by omega
        exact_mod_cast this
      have hh0 : (0 : ℚ) < height := by
        have : 0 < height := by omega
        exact_mod_cast this
      have hpos : (0 : ℚ) < min (width : ℚ) (height : ℚ) := lt_min hw0 hh0
      split at hf
      · simp at hf
        rcases hf with rfl | rfl
        · exact mul_pos hpos (by norm_num)
        · exact mul_pos hpos (by norm_num)
      · simp at hf
        subst hf
        exact mul_pos hpos (by norm_num)
    · simp at hf
  · exact hmin _ _
  · exact hmin _ _
/-- C17, counterexample: in app-improved a photo of 100 by 100 pixels whose description
mentions a person gets the region with centre `(200, 150)`, and `setupFaceBlurring`
schedules `createBlurredVersion` with just this region for the 100 by 100 image: the
rendering runs with the centre outside the image. -/
theorem improved_region_outside_image :
    outsideSession.renderJobs = [0] ∧
      (outsideSession.arrays 0).map (fun f => (f.x, f.y, f.radius)) = [(200, 150, 60)] ∧
      outsideSession.resultImageSrc = Src.url 0 ∧
      (outsideSession.blobs 0).map (fun b => (b.width, b.height)) = some (100, 100) ∧
      (outsideSession.renderReady CanvasVariant.improved 100 100 (constRng 0)).renderJobs = [] ∧
      (outsideSession.renderReady CanvasVariant.improved 100 100
        (constRng 0)).blurredCanvas.bitmap.width = 100 := by
  decide!

theorem scaled_click_bounds (a ow : ℚ) (n : Nat) (how : 0 < ow) (h0 : 0 ≤ a) (h1 : a ≤ ow) :
    0 ≤ a * ((n : ℚ) / ow) ∧ a * ((n : ℚ) / ow) ≤ n := by
  have hn : (0 : ℚ) ≤ n := Nat.cast_nonneg n
  have hq : (0 : ℚ) ≤ (n : ℚ) / ow := div_nonneg hn how.le
  refine ⟨mul_nonneg h0 hq, ?_⟩
  calc a * ((n : ℚ) / ow) ≤ ow * ((n : ℚ) / ow) := mul_le_mul_of_nonneg_right h1 hq
    _ = n := by field_simp

/-- C17: no adapter and no renderer clamps a region; whether the centre lies in the image
depends on the adapter.  The regions of `extractFacesFromDescription` have the fixed
centres `(200, 150)` and `(350, 180)`, which lie in an image of width at least 350 and
height at least 180; the regions of `detectFacesSimple` always have their centre in the
image; a manual mark has its centre in the image when the click lies in the shown image;
the region of a model prediction has its centre in the image when the corners of the box
do.  The scheduled rendering draws on the canvas what `createBlurredVersion` makes of
the regions of the array as they are. -/
theorem region_centre_in_image (includes : String → Bool) (W H : Nat) (image : ImageElement)
    (left top clientX clientY : ℚ) (p : Prediction) (v : CanvasVariant) (s : CanvasState)
    (job : Nat) (rest : List Nat) (u : Url) (photo : Bitmap) (offsetWidth offsetHeight : ℚ)
    (rng : Rng) :
    (∀ f ∈ Improved.extractFacesFromDescription includes,
      (f.x = 200 ∧ f.y = 150) ∨ (f.x = 350 ∧ f.y = 180)) ∧
    (∀ f ∈ Improved.extractFacesFromDescription includes, 350 ≤ W → 180 ≤ H →
      0 ≤ f.x ∧ f.x ≤ W ∧ 0 ≤ f.y ∧ f.y ≤ H) ∧
    (∀ f ∈ Offline.detectFacesSimple W H, 0 ≤ f.x ∧ f.x ≤ W ∧ 0 ≤ f.y ∧ f.y ≤ H) ∧
    ((Improved.manualFace image left top clientX clientY).x =
        (manualFace image left top clientX clientY).x ∧
      (Improved.manualFace image left top clientX clientY).y =
        (manualFace image left top clientX clientY).y ∧
      (Offline.manualFace image left top clientX clientY).x =
        (manualFace image left top clientX clientY).x ∧
      (Offline.manualFace image left top clientX clientY).y =
        (manualFace image left top clientX clientY).y) ∧
    (0 < image.offsetWidth → 0 ≤ clientX - left → clientX - left ≤ image.offsetWidth →
      0 ≤ (manualFace image left top clientX clientY).x ∧
      (manualFace image left top clientX clientY).x ≤ image.natural.width) ∧
    (0 < image.offsetHeight → 0 ≤ clientY - top → clientY - top ≤ image.offsetHeight →
      0 ≤ (manualFace image left top clientX clientY).y ∧
      (manualFace image left top clientX clientY).y ≤ image.natural.height) ∧
    (0 ≤ p.topLeft.1 → p.topLeft.1 ≤ W → 0 ≤ p.bottomRight.1 → p.bottomRight.1 ≤ W →
      0 ≤ (faceOfPrediction p).x ∧ (faceOfPrediction p).x ≤ W) ∧
    (0 ≤ p.topLeft.2 → p.topLeft.2 ≤ H → 0 ≤ p.bottomRight.2 → p.bottomRight.2 ≤ H →
      0 ≤ (faceOfPrediction p).y ∧ (faceOfPrediction p).y ≤ H) ∧
    (s.renderJobs = job :: rest → s.resultImageSrc = Src.url u → s.blobs u = some photo →
      ∀ d, v.createBlurredVersion
          { natural := photo, offsetWidth := offsetWidth, offsetHeight := offsetHeight }
          (Ctx.fresh photo.width photo.height) (s.arrays job) rng = some d →
        (s.renderReady v offsetWidth offsetHeight rng).blurredCanvas = d.ctx ∧
        (s.renderReady v offsetWidth offsetHeight rng).renderJobs = rest) := by
  have hex : ∀ f ∈ Improved.extractFacesFromDescription includes,
      (f.x = 200 ∧ f.y = 150) ∨ (f.x = 350 ∧ f.y = 180) := by
    intro f hf
    unfold Improved.extractFacesFromDescription at hf
    split at hf
    · split at hf
      · simp at hf
        rcases hf with rfl | rfl
        · exact Or.inl ⟨rfl, rfl⟩
        · exact Or.inr ⟨rfl, rfl⟩
      · simp at hf
        subst hf
        exact Or.inl ⟨rfl, rfl⟩
    · simp at hf
  refine ⟨hex, ?_, ?_, ⟨rfl, rfl, rfl, rfl⟩, ?_, ?_, ?_, ?_, ?_⟩
  · intro f hf hW hH
    have hW1 : (350 : ℚ) ≤ W := by exact_mod_cast hW
    have hH1 : (180 : ℚ) ≤ H := by exact_mod_cast hH
    rcases hex f hf with ⟨hx, hy⟩ | ⟨hx, hy⟩ <;> rw [hx, hy] <;>
      refine ⟨by norm_num, by linarith, by norm_num, by linarith⟩
  · intro f hf
    have hW0 : (0 : ℚ) ≤ W := Nat.cast_nonneg W
    have hH0 : (0 : ℚ) ≤ H := Nat.cast_nonneg H
    unfold Offline.detectFacesSimple at hf
    split at hf
    · split at hf
      · simp at hf
        rcases hf with rfl | rfl <;>
          refine ⟨by positivity, ?_, by positivity, ?_⟩ <;> show _ ≤ _ <;> linarith
      · simp at hf
        subst hf
        refine ⟨by positivity, ?_, by positivity, ?_⟩ <;> show _ ≤ _ <;> linarith
    · simp at hf
  · intro how h0 h1
    exact scaled_click_bounds _ _ _ how h0 h1
  · intro how h0 h1
    exact scaled_click_bounds _ _ _ how h0 h1
  · intro h1 h2 h3 h4
    constructor <;> show _ ≤ _
    · show 0 ≤ (p.topLeft.1 + p.bottomRight.1) / 2
      linarith
    · show (p.topLeft.1 + p.bottomRight.1) / 2 ≤ W
      linarith
  · intro h1 h2 h3 h4
    constructor
    · show 0 ≤ (p.topLeft.2 + p.bottomRight.2) / 2
      linarith
    · show (p.topLeft.2 + p.bottomRight.2) / 2 ≤ H
      linarith
  · intro hj hs hb d hd
    simp [CanvasState.renderReady, hj, hs, hb, hd]

theorem region_centre_in_image_witness :
    0 ≤ (manualFace shownPhoto 0 0 1 1).x ∧
      (manualFace shownPhoto 0 0 1 1).x ≤ shownPhoto.natural.width :=
  (region_centre_in_image (fun _ => false) 4 4 shownPhoto 0 0 1 1 boxPrediction
    CanvasVariant.improved (CanvasState.init true) 0 [] 0 (plainPhoto 4 4 100) 2 2
    (constRng 0)).2.2.2.2.1 (by decide!) (by decide!) (by decide!)

/-! ## The adapters of still photos and the size of the live canvas -/

/-- C25: for every answer of the detector, `detectFacesWithTensorFlow` resolves with one
region per prediction, in the order of the predictions; the region of a prediction with
corners `(x1, y1)` and `(x2, y2)` has centre `((x1 + x2) / 2, (y1 + y2) / 2)`, radius
`1.2 * max(x2 - x1, y2 - y1) / 2`, and as confidence the first probability of the
prediction when it has one and 1 otherwise. -/
theorem detectFaces_maps_predictions (width height : Nat) (predictions : List Prediction)
    (p : Prediction) :
    (∃ description, detectFacesWithTensorFlow true width height (Except.ok predictions) =
      Detection.resolved description (predictions.map faceOfPrediction)) ∧
    (predictions.map faceOfPrediction).length = predictions.length ∧
    (∀ i, (predictions.map faceOfPrediction).get? i = (predictions.get? i).map faceOfPrediction) ∧
    (faceOfPrediction p).x = (p.topLeft.1 + p.bottomRight.1) / 2 ∧
    (faceOfPrediction p).y = (p.topLeft.2 + p.bottomRight.2) / 2 ∧
    (faceOfPrediction p).radius =
      12 / 10 * max (p.bottomRight.1 - p.topLeft.1) (p.bottomRight.2 - p.topLeft.2) / 2 ∧
    (faceOfPrediction p).confidence = some (p.probability.getD 1) := by
  refine ⟨⟨_, rfl⟩, by simp, ?_, rfl, rfl, ?_, ?_⟩
  · intro i
    simp
  · show max (p.bottomRight.1 - p.topLeft.1) (p.bottomRight.2 - p.topLeft.2) / 2 * (12 / 10) = _
    ring
  · cases h : p.probability <;> simp [faceOfPrediction, h]

theorem canvasSize_spec (vw vh : Nat) :
    (Optimized.canvasSize vw vh).1 ≤ 640 ∧ (Optimized.canvasSize vw vh).2 ≤ 480 ∧
      0 ≤ (Optimized.canvasSize vw vh).1 ∧ 0 ≤ (Optimized.canvasSize vw vh).2 ∧
      (Optimized.canvasSize vw vh).1 * vh = (Optimized.canvasSize vw vh).2 * vw ∧
      (vw ≤ 640 → vh ≤ 480 → Optimized.canvasSize vw vh = ((vw : ℚ), (vh : ℚ))) := by
  have hw0 : (0 : ℚ) ≤ vw := Nat.cast_nonneg vw
  have hh0 : (0 : ℚ) ≤ vh := Nat.cast_nonneg vh
  unfold Optimized.canvasSize
  simp only
  by_cases h1 : (vw : ℚ) > 640
  · have hvw : (vw : ℚ) ≠ 0 := by linarith
    have hs : (0 : ℚ) ≤ (vh : ℚ) * (640 / vw) := by positivity
    simp only [h1, if_true]
    by_cases h2 : (vh : ℚ) * (640 / vw) > 480
    · have hne : (vh : ℚ) * (640 / vw) ≠ 0 := by linarith
      simp only [h2, if_true]
      have hq : (480 : ℚ) / ((vh : ℚ) * (640 / vw)) ≤ 1 := by
        rw [div_le_one (by linarith)]
        linarith
      have hq0 : (0 : ℚ) ≤ 480 / ((vh : ℚ) * (640 / vw)) := by positivity
      refine ⟨by nlinarith, le_refl _, by positivity, by norm_num, ?_, ?_⟩
      · have hvh : (vh : ℚ) ≠ 0 := by
          intro h0
          rw [h0] at h2
          norm_num at h2
        field_simp
        ring
      · intro h3
        have : (vw : ℚ) ≤ 640 := by exact_mod_cast h3
        linarith
    · simp only [h2, if_false]
      push_neg at h2
      refine ⟨le_refl _, h2, by norm_num, hs, ?_, ?_⟩
      · field_simp
        ring
      · intro h3
        have : (vw : ℚ) ≤ 640 := by exact_mod_cast h3
        linarith
  · simp only [h1, if_false]
    push_neg at h1
    by_cases h2 : (vh : ℚ) > 480
    · have hvh : (vh : ℚ) ≠ 0 := by linarith
      simp only [h2, if_true]
      have hq : (480 : ℚ) / vh ≤ 1 := by
        rw [div_le_one (by linarith)]
        linarith
      have hq0 : (0 : ℚ) ≤ 480 / vh := by positivity
      refine ⟨by nlinarith, le_refl _, by positivity, by norm_num, ?_, ?_⟩
      · field_simp
        ring
      · intro _ h4
        have : (vh : ℚ) ≤ 480 := by exact_mod_cast h4
        linarith
    · simp only [h2, if_false]
      push_neg at h2
      exact ⟨h1, h2, hw0, hh0, mul_comm _ _, fun _ _ => trivial⟩

theorem toLong_toNat_le (q : ℚ) (n : Nat) (h0 : 0 ≤ q) (hq : q ≤ n) : (toLong q).toNat ≤ n := by
  unfold toLong
  rw [if_pos h0]
  have h1 : ((Rat.floor q : Int) : ℚ) ≤ q := Int.floor_le q
  have h2 : ((Rat.floor q : Int) : ℚ) ≤ ((n : Int) : ℚ) := by
    push_cast
    linarith
  have h3 : Rat.floor q ≤ (n : Int) := by exact_mod_cast h2
  omega

theorem toLong_natCast (n : Nat) : (toLong (n : ℚ)).toNat = n := by
  unfold toLong
  rw [if_pos (Nat.cast_nonneg n)]
  have h : Rat.floor (n : ℚ) = (n : Int) := (Int.floor_natCast n : ⌊(n : ℚ)⌋ = (n : Int))
  rw [h]
  simp

/-- C26, counterexample: for a video of 1000 by 999 pixels `updateLiveCanvasSize` computes
the size `(160000 / 333, 480)` and sets a canvas of 480 by 480 pixels, which has not the
aspect ratio of the video: `480 * 999` is not `480 * 1000`. -/
theorem canvas_size_loses_ratio :
    Optimized.canvasSize 1000 999 = (160000 / 333, 480) ∧
      (Optimized.updateLiveCanvasSize (LiveState.init true true 1000 999)).liveCtx.bitmap.width =
        480 ∧
      (Optimized.updateLiveCanvasSize (LiveState.init true true 1000 999)).liveCtx.bitmap.height =
        480 ∧
      (Optimized.updateLiveCanvasSize (LiveState.init true true 1000 999)).liveCtx.bitmap.width *
          999 ≠
        (Optimized.updateLiveCanvasSize (LiveState.init true true 1000 999)).liveCtx.bitmap.height *
          1000 := by
  decide!

/-- C26: for every video size, the size `(a, b)` that `updateLiveCanvasSize` computes has
`0 <= a <= 640`, `0 <= b <= 480` and the aspect ratio of the video (`a * vh = b * vw`),
and is the size of the video when that is at most 640 by 480.  The canvas gets the
integer parts of `a` and `b`: its width is at most 640 and its height at most 480, and
it has the size of the video when that is at most 640 by 480. -/
theorem updateLiveCanvasSize_bounds (s : LiveState) :
    ((Optimized.canvasSize s.videoWidth s.videoHeight).1 ≤ 640 ∧
      (Optimized.canvasSize s.videoWidth s.videoHeight).2 ≤ 480 ∧
      0 ≤ (Optimized.canvasSize s.videoWidth s.videoHeight).1 ∧
      0 ≤ (Optimized.canvasSize s.videoWidth s.videoHeight).2 ∧
      (Optimized.canvasSize s.videoWidth s.videoHeight).1 * s.videoHeight =
        (Optimized.canvasSize s.videoWidth s.videoHeight).2 * s.videoWidth) ∧
    ((Optimized.updateLiveCanvasSize s).liveCtx.bitmap.width =
        (Rat.floor (Optimized.canvasSize s.videoWidth s.videoHeight).1).toNat ∧
      (Optimized.updateLiveCanvasSize s).liveCtx.bitmap.height =
        (Rat.floor (Optimized.canvasSize s.videoWidth s.videoHeight).2).toNat) ∧
    ((Optimized.updateLiveCanvasSize s).liveCtx.bitmap.width ≤ 640 ∧
      (Optimized.updateLiveCanvasSize s).liveCtx.bitmap.height ≤ 480) ∧
    (s.videoWidth ≤ 640 → s.videoHeight ≤ 480 →
      (Optimized.updateLiveCanvasSize s).liveCtx.bitmap.width = s.videoWidth ∧
      (Optimized.updateLiveCanvasSize s).liveCtx.bitmap.height = s.videoHeight) := by
  obtain ⟨h1, h2, h3, h4, h5, h6⟩ := canvasSize_spec s.videoWidth s.videoHeight
  refine ⟨⟨h1, h2, h3, h4, h5⟩, ⟨?_, ?_⟩, ⟨?_, ?_⟩, ?_⟩
  · show (toLong _).toNat = _
    unfold toLong
    rw [if_pos h3]
  · show (toLong _).toNat = _
    unfold toLong
    rw [if_pos h4]
  · exact toLong_toNat_le _ 640 h3 (by exact_mod_cast h1)
  · exact toLong_toNat_le _ 480 h4 (by exact_mod_cast h2)
  · intro hw hh
    have h := h6 hw hh
    constructor
    · show (toLong (Optimized.canvasSize s.videoWidth s.videoHeight).1).toNat = _
      rw [h]
      exact toLong_natCast _
    · show (toLong (Optimized.canvasSize s.videoWidth s.videoHeight).2).toNat = _
      rw [h]
      exact toLong_natCast _

/-- C30: for every image size, each region that `detectFacesSimple` returns has a
positive radius and a circle that lies in the image, and the list is empty exactly when
the width or the height is at most 200. -/
theorem detectFacesSimple_inside (width height : Nat) :
    (∀ f ∈ Offline.detectFacesSimple width height,
      0 < f.radius ∧ 0 ≤ f.x - f.radius ∧ f.x + f.radius ≤ width ∧
      0 ≤ f.y - f.radius ∧ f.y + f.radius ≤ height) ∧
    (Offline.detectFacesSimple width height = [] ↔ width ≤ 200 ∨ height ≤ 200) := by
  constructor
  · intro f hf
    unfold Offline.detectFacesSimple at hf
    split at hf
    · rename_i hwh
      have hw0 : (0 : ℚ) < width := by
        have : 0 < width := by omega
        exact_mod_cast this
      have hh0 : (0 : ℚ) < height := by
        have : 0 < height := by omega
        exact_mod_cast this
      have hpos : (0 : ℚ) < min (width : ℚ) (height : ℚ) := lt_min hw0 hh0
      have hm1 : min (width : ℚ) (height : ℚ) ≤ width := min_le_left _ _
      have hm2 : min (width : ℚ) (height : ℚ) ≤ height := min_le_right _ _
      split at hf
      · simp at hf
        rcases hf with rfl | rfl
        · refine ⟨mul_pos hpos (by norm_num), ?_, ?_, ?_, ?_⟩ <;> show _ ≤ _ <;> linarith
        · refine ⟨mul_pos hpos (by norm_num), ?_, ?_, ?_, ?_⟩ <;> show _ ≤ _ <;> linarith
      · simp at hf
        subst hf
        refine ⟨mul_pos hpos (by norm_num), ?_, ?_, ?_, ?_⟩ <;> show _ ≤ _ <;> linarith
    · simp at hf
  · unfold Offline.detectFacesSimple
    constructor
    · intro h
      by_contra hneg
      push_neg at hneg
      have hc : width > 200 ∧ height > 200 := ⟨hneg.1, hneg.2⟩
      rw [if_pos hc] at h
      split at h <;> simp at h
    · intro h
      have hc : ¬ (width > 200 ∧ height > 200) := by omega
      rw [if_neg hc]
/-! ## Averaging twice -/

theorem blockStart_div (p X dx : Nat) (hp : 1 ≤ p) (hdx : dx < p) :
    (X / p * p + dx) / p = X / p := by
  rw [div_eq_iff_block p (X / p) (X / p * p + dx) hp]
  omega

theorem blockSum_averaged (w h p : Nat) (d0 d : List Byte) (hp : 1 ≤ p)
    (hA : Averaged w h p d0 d (fun _ _ => True)) (X Y c : Nat) (hX : X < w) (hY : Y < h)
    (hc : c < 4) :
    blockSum d w h p X Y c =
      blockCount w h p X Y * (blockSum d0 w h p X Y c / blockCount w h p X Y) := by
  have hX0 : X / p * p ≤ X := Nat.div_mul_le_self X p
  have hY0 : Y / p * p ≤ Y := Nat.div_mul_le_self Y p
  have hterm : ∀ dy ∈ Finset.range (blockSide h p (Y / p * p)),
      ∀ dx ∈ Finset.range (blockSide w p (X / p * p)),
        readAt d (chanIndex w (X / p * p + dx) (Y / p * p + dy) c) =
          blockSum d0 w h p X Y c / blockCount w h p X Y := by
    intro dy hdy dx hdx
    simp only [Finset.mem_range, blockSide] at hdy hdx
    have hdx1 : dx < p := lt_of_lt_of_le hdx (min_le_left _ _)
    have hdy1 : dy < p := lt_of_lt_of_le hdy (min_le_left _ _)
    have hdx2 : dx < w - X / p * p := lt_of_lt_of_le hdx (min_le_right _ _)
    have hdy2 : dy < h - Y / p * p := lt_of_lt_of_le hdy (min_le_right _ _)
    have hX' : X / p * p + dx < w := by omega
    have hY' : Y / p * p + dy < h := by omega
    have h1 := ((hA.2 (X / p * p + dx) (Y / p * p + dy) c hX' hY' hc).1 trivial)
    rw [h1]
    have ex : (X / p * p + dx) / p = X / p := blockStart_div p X dx hp hdx1
    have ey : (Y / p * p + dy) / p = Y / p := blockStart_div p Y dy hp hdy1
    simp only [blockSum, blockCount, ex, ey]
  unfold blockSum at hterm ⊢
  rw [Finset.sum_congr rfl (fun dy hdy => Finset.sum_congr rfl (fun dx hdx => hterm dy hdy dx hdx))]
  simp only [Finset.sum_const, Finset.card_range, smul_eq_mul]
  unfold blockCount
  ring

theorem blockCount_pos (w h p X Y : Nat) (hp : 1 ≤ p) (hX : X < w) (hY : Y < h) :
    0 < blockCount w h p X Y := by
  have hX0 : X / p * p ≤ X := Nat.div_mul_le_self X p
  have hY0 : Y / p * p ≤ Y := Nat.div_mul_le_self Y p
  unfold blockCount blockSide
  have h1 : 0 < min p (h - Y / p * p) := lt_min (by omega) (by omega)
  have h2 : 0 < min p (w - X / p * p) := lt_min (by omega) (by omega)
  exact Nat.mul_pos h1 h2

theorem buffer_ext (w h : Nat) (d1 d2 : List Byte) (h1 : d1.length = 4 * w * h)
    (h2 : d2.length = 4 * w * h)
    (hpix : ∀ X Y c, X < w → Y < h → c < 4 →
      readAt d2 (chanIndex w X Y c) = readAt d1 (chanIndex w X Y c)) : d2 = d1 := by
  apply List.ext_getElem (by rw [h1, h2])
  intro i hi2 hi1
  have hi : i < 4 * w * h := by rw [← h1]; exact hi1
  have hw : 0 < w := by
    rcases Nat.eq_zero_or_pos w with h0 | h0
    · subst h0
      simp at hi
    · exact h0
  have hq : i / 4 < w * h := by
    have : 4 * w * h = 4 * (w * h) := by ring
    omega
  have hY : i / 4 / w < h := (Nat.div_lt_iff_lt_mul hw).2 (by rw [Nat.mul_comm h w]; exact hq)
  have hX : i / 4 % w < w := Nat.mod_lt _ hw
  have hc : i % 4 < 4 := Nat.mod_lt _ (by norm_num)
  have hidx : chanIndex w (i / 4 % w) (i / 4 / w) (i % 4) = i := by
    unfold chanIndex
    have e1 : i / 4 / w * w + i / 4 % w = i / 4 := by
      rw [Nat.mul_comm]
      exact Nat.div_add_mod (i / 4) w
    rw [e1]
    omega
  have hr := hpix (i / 4 % w) (i / 4 / w) (i % 4) hX hY hc
  rw [hidx] at hr
  unfold readAt at hr
  rw [List.getD_eq_getElem _ _ hi2, List.getD_eq_getElem _ _ hi1] at hr
  exact Fin.ext hr

/-- C29: for every RGBA buffer of a `w` by `h` image and every block size `p >= 1`, the
block loop of `applyHeavyPixelation` applied to its own result gives that result
again. -/
theorem blockLoop_idempotent (data : List Byte) (w h p : Nat) (hp : 1 ≤ p)
    (hlen : data.length = 4 * w * h) :
    ∃ out, blockLoop data w h p = some out ∧ blockLoop out w h p = some out := by
  obtain ⟨out, hrun, hA⟩ := blockLoop_spec w h p data hp hlen
  have hlen1 : out.length = 4 * w * h := by rw [hA.1, hlen]
  obtain ⟨out2, hrun2, hA2⟩ := blockLoop_spec w h p out hp hlen1
  have hlen2 : out2.length = 4 * w * h := by rw [hA2.1, hlen1]
  have heq : out2 = out := by
    apply buffer_ext w h out out2 hlen1 hlen2
    intro X Y c hX hY hc
    rw [(hA2.2 X Y c hX hY hc).1 trivial, blockSum_averaged w h p data out hp hA X Y c hX hY hc,
      Nat.mul_div_cancel_left _ (blockCount_pos w h p X Y hp hX hY)]
    exact ((hA.2 X Y c hX hY hc).1 trivial).symm
  exact ⟨out, hrun, by rw [← heq] at hrun2 ⊢; exact hrun2⟩

theorem blockLoop_idempotent_witness :
    ∃ out, blockLoop [10, 20, 30, 255, 31, 41, 51, 255] 2 1 15 = some out ∧
      blockLoop out 2 1 15 = some out :=
  blockLoop_idempotent [10, 20, 30, 255, 31, 41, 51, 255] 2 1 15 (by decide) (by decide)
/-! ## The noise blobs of still mode -/

theorem noiseStep_draws (face : FaceRegion) (s : Draw) (hrng : s.rng.InUnit) :
    ∃ t, noiseStep face s = some t ∧ t.rng.draws = s.rng.draws ∧
      (t.rng.pos = s.rng.pos + 2 ∧ t.ctx = s.ctx ∨ t.rng.pos = s.rng.pos + 6) := by
  unfold noiseStep
  simp only [Rng.next]
  split_ifs with hd
  · have h6 := hrng (s.rng.pos + 1 + 1 + 1 + 1 + 1)
    have hr6 : ¬ s.rng.draws (s.rng.pos + 1 + 1 + 1 + 1 + 1) * 8 + 3 < 0 := by
      push_neg
      linarith [h6.1]
    simp only [Ctx.arc, hr6, if_false, Option.map_some']
    exact ⟨_, rfl, rfl, Or.inr rfl⟩
  · exact ⟨_, rfl, rfl, Or.inl ⟨rfl, rfl⟩⟩

theorem noiseLoop_draws (face : FaceRegion) (s : Draw) (hrng : s.rng.InUnit) :
    ∃ t k, noiseLoop face s = some t ∧ k ≤ 30 ∧ t.rng.pos = s.rng.pos + 2 * 30 + 4 * k := by
  obtain ⟨t, j, hrun, ⟨h1, hj, k, hk, hpos⟩, hcj⟩ := forLoop_rule (fun i => decide (i < 30))
    (· + 1) (fun _ s => noiseStep face s)
    (fun i t => t.rng.draws = s.rng.draws ∧ i ≤ 30 ∧
      ∃ k, k ≤ i ∧ t.rng.pos = s.rng.pos + 2 * i + 4 * k)
    (fun i => 30 - i)
    (by
      intro i t ⟨h1, _, k, hk, hpos⟩ hc
      have hi : i < 30 := by simpa using hc
      obtain ⟨u, hu, g1, g2⟩ := noiseStep_draws face t (by
        intro n
        rw [h1]
        exact hrng n)
      refine ⟨u, hu, g1.trans h1, by show i + 1 ≤ 30; omega, ?_⟩
      rcases g2 with ⟨g2, _⟩ | g2
      · exact ⟨k, by show k ≤ i + 1; omega, by show _ = _ + 2 * (i + 1) + _; omega⟩
      · exact ⟨k + 1, by show k + 1 ≤ i + 1; omega, by show _ = _ + 2 * (i + 1) + _; omega⟩)
    (by
      intro i hc
      have hi : i < 30 := by simpa using hc
      show 30 - (i + 1) < 30 - i
      omega)
    30 0 s (by show 30 - 0 ≤ 30; omega) ⟨rfl, by omega, 0, le_refl 0, by omega⟩
  have hj30 : j = 30 := by
    have : ¬ j < 30 := by simpa using hcj
    omega
  subst hj30
  exact ⟨t, k, hrun, hk, hpos⟩

/-- C21: the claim fails.  The noise loop of `createBlurredImage` draws at most 30 blobs
(in a run that draws `k` blobs it takes `60 + 4 * k` random numbers, with `k <= 30`), but
a blob is a disc of radius between 3 and 11 around a point of the circle and is drawn
without clipping.  (1) With `smallFace` (radius 1/2) and every draw 1/2, the first blob
has centre `(3/2, 3/2)` and radius 7 and paints the pixel `(4, 1)`, which lies wholly
outside the circle.  (2) With `wideFace` (centre `(50, 50)`, radius 20), first draw
99/100 and the others 1/2, the first blob has centre `(348/5, 50)` and radius 7 and paints
the pixel `(72, 50)`, which lies wholly outside the circle. -/
theorem noise_blob_leaves_circle :
    ((noiseStep smallFace
          { ctx := (Ctx.fresh 5 3).drawImage (plainPhoto 5 3 200), rng := constRng (1 / 2) }).map
        (fun d => (d.ctx.path, d.ctx.bitmap.px 4 1)) =
        some ([Region.circle (3 / 2) (3 / 2) 7], gray 170) ∧
      (plainPhoto 5 3 200).px 4 1 = gray 200 ∧
      smallFace.radius ^ 2 < (4 - smallFace.x) ^ 2 + (3 / 2 - smallFace.y) ^ 2) ∧
    ((noiseStep wideFace
          { ctx := (Ctx.fresh 100 100).drawImage (plainPhoto 100 100 200), rng := edgeRng }).map
        (fun d => (d.ctx.path, d.ctx.bitmap.px 72 50)) =
        some ([Region.circle (348 / 5) 50 7], gray 170) ∧
      (plainPhoto 100 100 200).px 72 50 = gray 200 ∧
      wideFace.radius ^ 2 < (72 - wideFace.x) ^ 2 + (50 - wideFace.y) ^ 2) ∧
    (∀ (face : FaceRegion) (s : Draw), s.rng.InUnit →
      ∃ t k, noiseLoop face s = some t ∧ k ≤ 30 ∧ t.rng.pos = s.rng.pos + 2 * 30 + 4 * k) := by
  refine ⟨⟨?_, ?_, ?_⟩, ⟨?_, ?_, ?_⟩, fun face s h => noiseLoop_draws face s h⟩ <;> decide!
/-! ## Timers and late answers of live detection -/

/-- C23: there is such an execution of app-live.  Live detection is started on a 640 by
480 video, `detectAndBlurLive` calls the detector, `stopLiveDetection` runs (the overlay
is cleared, `lastDetectedFaces` is emptied, no timer is left), and then the detector
answers with the face `boxPrediction`: the call resumes, paints the overlay at the centre
`(20, 25)` of the region and stores the region in `lastDetectedFaces`, while
`isLiveDetectionActive` is false and no timer is scheduled. -/
theorem late_answer_draws_after_stop :
    ((Live.tickBegin (Live.startLiveDetection (LiveState.init true true 640 480))).2 = true ∧
      (Live.stopLiveDetection
        (Live.tickBegin (Live.startLiveDetection (LiveState.init true true 640 480))).1
        ).liveCtx.bitmap.px 20 25 = Pixel.clear ∧
      (Live.stopLiveDetection
        (Live.tickBegin (Live.startLiveDetection (LiveState.init true true 640 480))).1
        ).lastDetectedFaces.length = 0) ∧
    (staleAnswerSession.isLiveDetectionActive = false ∧
      staleAnswerSession.detectionInterval = none ∧
      staleAnswerSession.timers = [] ∧
      staleAnswerSession.lastDetectedFaces.map (fun f => (f.x, f.y, f.radius)) =
        [(20, 25, 33 / 2)] ∧
      staleAnswerSession.liveCtx.bitmap.px 20 25 ≠ Pixel.clear) := by
  refine ⟨by decide!, by decide!⟩

/-- C24: the claim fails in app-optimized.  Live detection is started (timer 1), the page
is hidden (`pauseApp` stops it) and shown again (`resumeApp` schedules the restart), the
live button is clicked before the restart runs (timer 2), and the restart runs
`startLiveDetection` once more (timer 3) without clearing timer 2: two detection timers
are scheduled and `detectionInterval` holds only the last.  `stopLiveDetection` then
clears timer 3 and leaves timer 2 scheduled.  The same happens without any click when
the page is hidden and shown twice within a second. -/
theorem restart_leaves_second_timer :
    (doubleStartSession.timers = [3, 2] ∧ doubleStartSession.detectionInterval = some 3 ∧
      doubleStartSession.isLiveDetectionActive = true) ∧
    ((Optimized.stopLiveDetection doubleStartSession).timers = [2] ∧
      (Optimized.stopLiveDetection doubleStartSession).detectionInterval = none ∧
      (Optimized.stopLiveDetection doubleStartSession).isLiveDetectionActive = false) ∧
    (flickerSession.timers = [3, 2] ∧ flickerSession.detectionInterval = some 3 ∧
      (Optimized.stopLiveDetection flickerSession).timers = [2]) := by
  refine ⟨by decide!, by decide!, by decide!⟩

/-! ## The canvas after a retake in app.js and app-improved -/

theorem clearRect_outside (c : Ctx) (x y : Nat) (w h : ℚ) (hw : 0 ≤ w)
    (hx : w ≤ (x : ℚ)) : (c.clearRect 0 0 w h).bitmap.px x y = c.bitmap.px x y := by
  have h2 : ¬ ((x : ℚ) + 1 / 2 < max 0 (0 + w)) := by
    rw [zero_add, max_eq_right hw]
    linarith
  have hcov : (Region.rect 0 0 w h).covers x y = false := by
    have hd : decide ((x : ℚ) + 1 / 2 < max 0 (0 + w)) = false := decide_eq_false h2
    simp only [Region.covers, hd, Bool.and_false, Bool.false_and]
  simp [Ctx.clearRect, Ctx.mapPx, Bitmap.withPx, hcov]

theorem clearRect_below (c : Ctx) (x y : Nat) (w h : ℚ) (hh : 0 ≤ h)
    (hy : h ≤ (y : ℚ)) : (c.clearRect 0 0 w h).bitmap.px x y = c.bitmap.px x y := by
  have h2 : ¬ ((y : ℚ) + 1 / 2 < max 0 (0 + h)) := by
    rw [zero_add, max_eq_right hh]
    linarith
  have hcov : (Region.rect 0 0 w h).covers x y = false := by
    have hd : decide ((y : ℚ) + 1 / 2 < max 0 (0 + h)) = false := decide_eq_false h2
    simp only [Region.covers, hd, Bool.and_false]
  simp [Ctx.clearRect, Ctx.mapPx, Bitmap.withPx, hcov]

/-- C27: the claim fails for a canvas wider or higher than 1000 pixels.  In app-improved
and in app.js, after the obfuscated image of a photo of 1920 by 1080 pixels was drawn and
`retakePhoto` ran, the canvas still has its 1920 by 1080 pixels, the pixel `(500, 500)`
is transparent and the pixel `(1500, 500)` still holds the photo.  In general
`retakePhoto` of these two variants leaves every pixel with `x >= 1000` or `y >= 1000` as
it was. -/
theorem retake_leaves_canvas_beyond_1000 :
    ((largeImprovedSession.retakePhoto CanvasVariant.improved).blurredCanvas.bitmap.width = 1920 ∧
      (largeImprovedSession.retakePhoto CanvasVariant.improved).blurredCanvas.bitmap.height =
        1080 ∧
      (largeImprovedSession.retakePhoto CanvasVariant.improved).blurredCanvas.bitmap.px 500 500 =
        Pixel.clear ∧
      (largeImprovedSession.retakePhoto CanvasVariant.improved).blurredCanvas.bitmap.px 1500 500 =
        gray 100) ∧
    ((largeAppSession.retakePhoto CanvasVariant.app).blurredCanvas.bitmap.width = 1920 ∧
      (largeAppSession.retakePhoto CanvasVariant.app).blurredCanvas.bitmap.height = 1080 ∧
      (largeAppSession.retakePhoto CanvasVariant.app).blurredCanvas.bitmap.px 500 500 =
        Pixel.clear ∧
      (largeAppSession.retakePhoto CanvasVariant.app).blurredCanvas.bitmap.px 1500 500 =
        gray 100) ∧
    (∀ (c : CanvasState) (x y : Nat), 1000 ≤ x ∨ 1000 ≤ y →
      (c.retakePhoto CanvasVariant.app).blurredCanvas.bitmap.px x y =
          c.blurredCanvas.bitmap.px x y ∧
        (c.retakePhoto CanvasVariant.improved).blurredCanvas.bitmap.px x y =
          c.blurredCanvas.bitmap.px x y) := by
  refine ⟨by decide!, by decide!, ?_⟩
  intro c x y hxy
  rcases hxy with hx | hy
  · have hx1 : (1000 : ℚ) ≤ (x : ℚ) := by exact_mod_cast hx
    exact ⟨clearRect_outside c.blurredCanvas x y 1000 1000 (by norm_num) hx1,
      clearRect_outside c.blurredCanvas x y 1000 1000 (by norm_num) hx1⟩
  · have hy1 : (1000 : ℚ) ≤ (y : ℚ) := by exact_mod_cast hy
    exact ⟨clearRect_below c.blurredCanvas x y 1000 1000 (by norm_num) hy1,
      clearRect_below c.blurredCanvas x y 1000 1000 (by norm_num) hy1⟩
/-! ## Frame skipping in app-optimized -/

theorem applyEffect_frame (s t : LiveState) (face : FaceRegion)
    (h : Optimized.applyEffect s face = some t) :
    t.app = s.app ∧ t.faceDetectionModel = s.faceDetectionModel ∧
      t.isLiveDetectionActive = s.isLiveDetectionActive ∧
      t.frameSkipCounter = s.frameSkipCounter ∧ t.lastDetectedFaces = s.lastDetectedFaces ∧
      t.currentEffect = s.currentEffect := by
  unfold Optimized.applyEffect at h
  cases he : s.currentEffect <;> rw [he] at h <;>
    simp only [Optimized.applyBlurEffect, Optimized.applyEmojiEffect, Option.bind_eq_some,
      Option.map_eq_some'] at h <;>
    obtain ⟨g, _, c, _, rfl⟩ := h <;>
    exact ⟨rfl, rfl, rfl, rfl, rfl, he.symm ▸ rfl⟩

theorem applyLiveBlur_frame (faces : List FaceRegion) (s : LiveState) :
    (Optimized.applyLiveBlur s faces).1.app = s.app ∧
      (Optimized.applyLiveBlur s faces).1.faceDetectionModel = s.faceDetectionModel ∧
      (Optimized.applyLiveBlur s faces).1.isLiveDetectionActive = s.isLiveDetectionActive ∧
      (Optimized.applyLiveBlur s faces).1.frameSkipCounter = s.frameSkipCounter ∧
      (Optimized.applyLiveBlur s faces).1.lastDetectedFaces = s.lastDetectedFaces := by
  have key : ∀ (faces : List FaceRegion) (acc : LiveState × Bool),
      (faces.foldl
        (fun acc face =>
          if acc.2 then
            match Optimized.applyEffect acc.1 face with
            | some t => (t, true)
            | none => (acc.1, false)
          else acc) acc).1.app = acc.1.app ∧
      (faces.foldl
        (fun acc face =>
          if acc.2 then
            match Optimized.applyEffect acc.1 face with
            | some t => (t, true)
            | none => (acc.1, false)
          else acc) acc).1.faceDetectionModel = acc.1.faceDetectionModel ∧
      (faces.foldl
        (fun acc face =>
          if acc.2 then
            match Optimized.applyEffect acc.1 face with
            | some t => (t, true)
            | none => (acc.1, false)
          else acc) acc).1.isLiveDetectionActive = acc.1.isLiveDetectionActive ∧
      (faces.foldl
        (fun acc face =>
          if acc.2 then
            match Optimized.applyEffect acc.1 face with
            | some t => (t, true)
            | none => (acc.1, false)
          else acc) acc).1.frameSkipCounter = acc.1.frameSkipCounter ∧
      (faces.foldl
        (fun acc face =>
          if acc.2 then
            match Optimized.applyEffect acc.1 face with
            | some t => (t, true)
            | none => (acc.1, false)
          else acc) acc).1.lastDetectedFaces = acc.1.lastDetectedFaces := by
    intro faces
    induction faces with
    | nil => intro acc; exact ⟨rfl, rfl, rfl, rfl, rfl⟩
    | cons face rest ih =>
      intro acc
      simp only [List.foldl_cons]
      by_cases hb : acc.2 = true
      · cases he : Optimized.applyEffect acc.1 face with
        | none =>
          simp only [hb, if_true]
          exact ih (acc.1, false)
        | some t =>
          obtain ⟨a1, a2, a3, a4, a5, _⟩ := applyEffect_frame acc.1 t face he
          obtain ⟨b1, b2, b3, b4, b5⟩ := ih (t, true)
          simp only [hb, if_true]
          exact ⟨b1.trans a1, b2.trans a2, b3.trans a3, b4.trans a4, b5.trans a5⟩
      · simp only [hb]
        exact ih acc
  exact key faces (s, true)

theorem tickResume_frame (s : LiveState) (estimate : Except String (List Prediction)) :
    (Optimized.tickResume s estimate).faceDetectionModel = s.faceDetectionModel ∧
      (Optimized.tickResume s estimate).isLiveDetectionActive = s.isLiveDetectionActive ∧
      (Optimized.tickResume s estimate).frameSkipCounter = s.frameSkipCounter := by
  unfold Optimized.tickResume
  cases estimate with
  | error e => exact ⟨rfl, rfl, rfl⟩
  | ok predictions =>
    simp only
    split_ifs with h1 h2
    · obtain ⟨_, a2, a3, a4, _⟩ := applyLiveBlur_frame
        (predictions.map (Optimized.liveFace s.clearOverlay.liveCtx.bitmap.width
          s.clearOverlay.liveCtx.bitmap.height s.clearOverlay.videoWidth
          s.clearOverlay.videoHeight)) s.clearOverlay
      exact ⟨a2, a3, a4⟩
    · obtain ⟨_, a2, a3, a4, _⟩ := applyLiveBlur_frame
        (predictions.map (Optimized.liveFace s.clearOverlay.liveCtx.bitmap.width
          s.clearOverlay.liveCtx.bitmap.height s.clearOverlay.videoWidth
          s.clearOverlay.videoHeight)) s.clearOverlay
      exact ⟨a2, a3, a4⟩
    · exact ⟨rfl, rfl, rfl⟩

theorem tickBegin_frame (s : LiveState) (ha : s.isLiveDetectionActive = true)
    (hm : s.faceDetectionModel = true) :
    (Optimized.tickBegin s).1.faceDetectionModel = true ∧
      (Optimized.tickBegin s).1.isLiveDetectionActive = true ∧
      (Optimized.tickBegin s).1.frameSkipCounter = s.frameSkipCounter + 1 ∧
      (Optimized.tickBegin s).2 = decide ((s.frameSkipCounter + 1) % 2 = 0) ∧
      (Optimized.tickBegin s).1.lastDetectedFaces = s.lastDetectedFaces ∧
      (Optimized.tickBegin s).1.app = s.app ∧
      (s.lastDetectedFaces = [] → (Optimized.tickBegin s).1.liveCtx = s.liveCtx) := by
  unfold Optimized.tickBegin
  rw [if_neg (by simp [ha, hm])]
  simp only []
  split_ifs with hodd hl
  · have hodd1 : ¬ (s.frameSkipCounter + 1) % 2 = 0 := hodd
    have hd : decide ((s.frameSkipCounter + 1) % 2 = 0) = false := decide_eq_false hodd1
    have hl1 : s.lastDetectedFaces.length > 0 := hl
    obtain ⟨a1, a2, a3, a4, a5⟩ := applyLiveBlur_frame s.lastDetectedFaces
      ({ s with frameSkipCounter := s.frameSkipCounter + 1 } : LiveState).clearOverlay
    refine ⟨a2.trans hm, a3.trans ha, a4, hd.symm, a5, a1, ?_⟩
    intro he
    rw [he] at hl1
    simp at hl1
  · have hodd1 : ¬ (s.frameSkipCounter + 1) % 2 = 0 := hodd
    have hd : decide ((s.frameSkipCounter + 1) % 2 = 0) = false := decide_eq_false hodd1
    exact ⟨hm, ha, rfl, hd.symm, rfl, rfl, fun _ => rfl⟩
  · have hev : (s.frameSkipCounter + 1) % 2 = 0 := not_not.mp hodd
    have hd : decide ((s.frameSkipCounter + 1) % 2 = 0) = true := decide_eq_true hev
    exact ⟨hm, ha, rfl, hd.symm, rfl, rfl, fun _ => rfl⟩

theorem ticks_count (events : List TickEvent) (s : LiveState)
    (ha : s.isLiveDetectionActive = true) (hm : s.faceDetectionModel = true) :
    (events.foldl Optimized.tickStep s).isLiveDetectionActive = true ∧
      (events.foldl Optimized.tickStep s).faceDetectionModel = true ∧
      (events.foldl Optimized.tickStep s).frameSkipCounter =
        s.frameSkipCounter + (events.filter TickEvent.isTick).length := by
  induction events generalizing s with
  | nil => exact ⟨ha, hm, by simp⟩
  | cons e rest ih =>
    simp only [List.foldl_cons]
    cases e with
    | tick =>
      obtain ⟨b1, b2, b3, _⟩ := tickBegin_frame s ha hm
      obtain ⟨c1, c2, c3⟩ := ih (Optimized.tickStep s TickEvent.tick) b2 b1
      refine ⟨c1, c2, ?_⟩
      rw [c3]
      show (Optimized.tickBegin s).1.frameSkipCounter + _ = _
      rw [b3]
      simp [TickEvent.isTick]
      omega
    | answer estimate =>
      obtain ⟨b1, b2, b3⟩ := tickResume_frame s estimate
      obtain ⟨c1, c2, c3⟩ := ih (Optimized.tickStep s (TickEvent.answer estimate))
        (b2.trans ha) (b1.trans hm)
      refine ⟨c1, c2, ?_⟩
      rw [c3]
      show (Optimized.tickResume s estimate).frameSkipCounter + _ = _
      rw [b3]
      simp [TickEvent.isTick]

theorem startLiveDetection_fields (s : LiveState) (hm : s.faceDetectionModel = true) :
    (Optimized.startLiveDetection s).isLiveDetectionActive = true ∧
      (Optimized.startLiveDetection s).faceDetectionModel = true ∧
      (Optimized.startLiveDetection s).frameSkipCounter = 0 := by
  unfold Optimized.startLiveDetection
  simp [hm, LiveState.showError, LiveState.setInterval, Optimized.updateLiveCanvasSize]

/-- C22: in app-optimized with the model loaded, after `startLiveDetection` and any
sequence of timer calls of `detectAndBlurLive` and answers of the detector, the frame
counter is the number of calls so far; the next call invokes the detector exactly when
its number is even, and when its number is odd it leaves `lastDetectedFaces` and the
session as they are, and the overlay too when `lastDetectedFaces` is empty (otherwise it
clears the overlay and draws `lastDetectedFaces`).  So the first call after a start never
invokes the detector. -/
theorem detector_runs_on_even_ticks (s0 : LiveState) (events : List TickEvent)
    (hmodel : s0.faceDetectionModel = true) :
    (events.foldl Optimized.tickStep (Optimized.startLiveDetection s0)).frameSkipCounter =
        (events.filter TickEvent.isTick).length ∧
    (Optimized.tickBegin
        (events.foldl Optimized.tickStep (Optimized.startLiveDetection s0))).2 =
        decide (((events.filter TickEvent.isTick).length + 1) % 2 = 0) ∧
    (Optimized.tickBegin
        (events.foldl Optimized.tickStep (Optimized.startLiveDetection s0))).1.frameSkipCounter =
        (events.filter TickEvent.isTick).length + 1 ∧
    (Optimized.tickBegin
        (events.foldl Optimized.tickStep (Optimized.startLiveDetection s0))).1.lastDetectedFaces =
        (events.foldl Optimized.tickStep (Optimized.startLiveDetection s0)).lastDetectedFaces ∧
    (Optimized.tickBegin
        (events.foldl Optimized.tickStep (Optimized.startLiveDetection s0))).1.app =
        (events.foldl Optimized.tickStep (Optimized.startLiveDetection s0)).app ∧
    ((events.foldl Optimized.tickStep (Optimized.startLiveDetection s0)).lastDetectedFaces = [] →
      (Optimized.tickBegin
        (events.foldl Optimized.tickStep (Optimized.startLiveDetection s0))).1.liveCtx =
        (events.foldl Optimized.tickStep (Optimized.startLiveDetection s0)).liveCtx) ∧
    (Optimized.tickBegin (Optimized.startLiveDetection s0)).2 = false := by
  obtain ⟨a1, a2, a3⟩ := startLiveDetection_fields s0 hmodel
  obtain ⟨b1, b2, b3⟩ := ticks_count events (Optimized.startLiveDetection s0) a1 a2
  rw [a3, Nat.zero_add] at b3
  obtain ⟨c1, c2, c3, c4, c5, c6, c7⟩ := tickBegin_frame
    (events.foldl Optimized.tickStep (Optimized.startLiveDetection s0)) b1 b2
  obtain ⟨_, _, _, d4, _⟩ := tickBegin_frame (Optimized.startLiveDetection s0) a1 a2
  rw [b3] at c3 c4
  refine ⟨b3, c4, c3, c5, c6, c7, ?_⟩
  rw [d4, a3]
  rfl

theorem detector_runs_on_even_ticks_witness :
    (Optimized.tickBegin
        ([TickEvent.tick, TickEvent.tick, TickEvent.answer (Except.ok [boxPrediction]),
          TickEvent.tick].foldl Optimized.tickStep
          (Optimized.startLiveDetection (LiveState.init true true 640 480)))).2 =
        decide ((([TickEvent.tick, TickEvent.tick, TickEvent.answer (Except.ok [boxPrediction]),
          TickEvent.tick].filter TickEvent.isTick).length + 1) % 2 = 0) :=
  (detector_runs_on_even_ticks (LiveState.init true true 640 480)
    [TickEvent.tick, TickEvent.tick, TickEvent.answer (Except.ok [boxPrediction]),
      TickEvent.tick] rfl).2.1
/-! ## The blur flag and the cache -/

theorem showResults_cache (s : AppState) (photoBlob : Bitmap) (result : AnalysisResult) :
    (s.showResults photoBlob result).isBlurred = s.isBlurred ∧
      (s.showResults photoBlob result).blurredImageData = s.blurredImageData := by
  unfold AppState.showResults
  simp only [AppState.createObjectURL, AppState.createBlurredImage, AppState.updateFaceInfo]
  split_ifs <;> exact ⟨rfl, rfl⟩

theorem analyzePhoto_cache (s : AppState) (photoBlob : Bitmap) (outcome : Detection) :
    (s.analyzePhoto photoBlob outcome).isBlurred = s.isBlurred ∧
      (s.analyzePhoto photoBlob outcome).blurredImageData = s.blurredImageData := by
  unfold AppState.analyzePhoto
  cases outcome <;>
    simp [showResults_cache, AppState.newArray, AppState.showError]

theorem capturePhoto_cache (s : AppState) (frame : Bitmap) (outcome : Detection) :
    (s.capturePhoto frame outcome).isBlurred = s.isBlurred ∧
      (s.capturePhoto frame outcome).blurredImageData = s.blurredImageData := by
  unfold AppState.capturePhoto
  split_ifs
  · exact analyzePhoto_cache _ frame outcome
  · exact ⟨rfl, rfl⟩

theorem toggleBlur_cached (s : AppState) : s.toggleBlur.BlurredIsCached := by
  unfold AppState.BlurredIsCached
  unfold AppState.toggleBlur
  cases hb : s.isBlurred <;> cases hd : s.blurredImageData <;>
    simp [hb, hd, AppState.showError]

theorem blurredImageLoaded_cached (s : AppState) (rng : Rng) (h : s.BlurredIsCached) :
    (s.blurredImageLoaded rng).BlurredIsCached := by
  unfold AppState.BlurredIsCached at h ⊢
  unfold AppState.blurredImageLoaded
  cases hj : s.blurJobs with
  | nil => simpa using h
  | cons job rest =>
    simp only
    cases hc : PicAI.createBlurredImage job.photo (s.arrays job.faces) rng with
    | none => simpa using h
    | some d => simp [AppState.createObjectURL]

theorem clickImage_cache (s : AppState) (image : ImageElement) (left top clientX clientY : ℚ) :
    (s.clickImage image left top clientX clientY).isBlurred = s.isBlurred ∧
      (s.clickImage image left top clientX clientY).blurredImageData = s.blurredImageData := by
  unfold AppState.clickImage
  split_ifs
  · unfold AppState.manualClick
    cases hr : s.analysisResult with
    | none => exact ⟨rfl, rfl⟩
    | some r =>
      simp only
      cases hp : s.currentPhoto with
      | none => exact ⟨rfl, rfl⟩
      | some photo => exact ⟨rfl, rfl⟩
  · exact ⟨rfl, rfl⟩

theorem step_cached (s : AppState) (e : SessionEvent) (h : s.BlurredIsCached) :
    (s.step e).BlurredIsCached := by
  cases e with
  | capture frame outcome =>
    obtain ⟨h1, h2⟩ := capturePhoto_cache s frame outcome
    unfold AppState.BlurredIsCached at h ⊢
    show (s.capturePhoto frame outcome).isBlurred = true → _
    rw [h1]
    intro hb
    show (s.capturePhoto frame outcome).blurredImageData.isSome = true
    rw [h2]
    exact h hb
  | imageLoaded rng => exact blurredImageLoaded_cached s rng h
  | enableManual => exact h
  | click image left top clientX clientY =>
    obtain ⟨h1, h2⟩ := clickImage_cache s image left top clientX clientY
    unfold AppState.BlurredIsCached at h ⊢
    show (s.clickImage image left top clientX clientY).isBlurred = true → _
    rw [h1]
    intro hb
    show (s.clickImage image left top clientX clientY).blurredImageData.isSome = true
    rw [h2]
    exact h hb
  | toggleBlur => exact toggleBlur_cached s
  | retake =>
    unfold AppState.BlurredIsCached
    intro hb
    have := (retakePhoto_fields s).2.2.1
    rw [show (s.step SessionEvent.retake).isBlurred = s.retakePhoto.isBlurred from rfl, this] at hb
    exact absurd hb (by decide)

theorem live_stop_cache (s : LiveState) :
    (Live.stopLiveDetection s).app.isBlurred = s.app.isBlurred ∧
      (Live.stopLiveDetection s).app.blurredImageData = s.app.blurredImageData := by
  unfold Live.stopLiveDetection
  cases s.detectionInterval <;> exact ⟨rfl, rfl⟩

theorem optimized_stop_cache (s : LiveState) :
    (Optimized.stopLiveDetection s).app.isBlurred = s.app.isBlurred ∧
      (Optimized.stopLiveDetection s).app.blurredImageData = s.app.blurredImageData := by
  cases h : s.detectionInterval
  · simp only [Optimized.stopLiveDetection, h]
    obtain ⟨_, _, a3, _, a5⟩ := performMemoryCleanup_fields
      { ({ s with isLiveDetectionActive := false } : LiveState).clearOverlay with
        lastDetectedFaces := [] }
    exact ⟨a3, a5⟩
  · rename_i id
    simp only [Optimized.stopLiveDetection, h]
    obtain ⟨_, _, a3, _, a5⟩ := performMemoryCleanup_fields
      { ({ ({ s with isLiveDetectionActive := false } : LiveState).clearInterval id with
            detectionInterval := none } : LiveState).clearOverlay with
        lastDetectedFaces := [] }
    exact ⟨a3, a5⟩

theorem live_showResults_cache (s : LiveState) (photoBlob : Bitmap) (result : AnalysisResult) :
    (Live.showResults s photoBlob result).app.isBlurred = s.app.isBlurred ∧
      (Live.showResults s photoBlob result).app.blurredImageData = s.app.blurredImageData := by
  unfold Live.showResults
  simp only
  split_ifs
  · obtain ⟨a1, a2⟩ := live_stop_cache s
    obtain ⟨b1, b2⟩ := showResults_cache (Live.stopLiveDetection s).app photoBlob result
    exact ⟨b1.trans a1, b2.trans a2⟩
  · exact showResults_cache s.app photoBlob result

theorem optimized_showResults_cache (s : LiveState) (photoBlob : Bitmap)
    (result : AnalysisResult) :
    (Optimized.showResults s photoBlob result).app.isBlurred = s.app.isBlurred ∧
      (Optimized.showResults s photoBlob result).app.blurredImageData =
        s.app.blurredImageData := by
  unfold Optimized.showResults
  simp only
  split_ifs
  · obtain ⟨a1, a2⟩ := optimized_stop_cache s
    obtain ⟨b1, b2⟩ := showResults_cache (Optimized.stopLiveDetection s).app photoBlob result
    exact ⟨b1.trans a1, b2.trans a2⟩
  · exact showResults_cache s.app photoBlob result

theorem live_analyzePhoto_cache (s : LiveState) (photoBlob : Bitmap) (outcome : Detection) :
    (Live.analyzePhoto s photoBlob outcome).app.isBlurred = s.app.isBlurred ∧
      (Live.analyzePhoto s photoBlob outcome).app.blurredImageData = s.app.blurredImageData := by
  unfold Live.analyzePhoto
  cases outcome <;>
    simp [live_showResults_cache, AppState.newArray, AppState.showError, LiveState.showError]

theorem optimized_analyzePhoto_cache (s : LiveState) (photoBlob : Bitmap) (outcome : Detection) :
    (Optimized.analyzePhoto s photoBlob outcome).app.isBlurred = s.app.isBlurred ∧
      (Optimized.analyzePhoto s photoBlob outcome).app.blurredImageData =
        s.app.blurredImageData := by
  unfold Optimized.analyzePhoto
  cases outcome <;>
    simp [optimized_showResults_cache, AppState.newArray, AppState.showError,
      LiveState.showError]

theorem live_capturePhoto_cache (s : LiveState) (frame : Bitmap) (outcome : Detection) :
    (Live.capturePhoto s frame outcome).app.isBlurred = s.app.isBlurred ∧
      (Live.capturePhoto s frame outcome).app.blurredImageData = s.app.blurredImageData := by
  unfold Live.capturePhoto
  simp only
  split_ifs
  · obtain ⟨a1, a2⟩ := live_stop_cache s
    obtain ⟨b1, b2⟩ := live_analyzePhoto_cache
      { Live.stopLiveDetection s with
        app := { (Live.stopLiveDetection s).app with currentPhoto := some frame } } frame outcome
    exact ⟨b1.trans a1, b2.trans a2⟩
  · exact live_analyzePhoto_cache { s with app := { s.app with currentPhoto := some frame } }
      frame outcome
  · exact ⟨rfl, rfl⟩

theorem optimized_capturePhoto_cache (s : LiveState) (frame : Bitmap) (outcome : Detection) :
    (Optimized.capturePhoto s frame outcome).app.isBlurred = s.app.isBlurred ∧
      (Optimized.capturePhoto s frame outcome).app.blurredImageData =
        s.app.blurredImageData := by
  unfold Optimized.capturePhoto
  simp only
  split_ifs
  · obtain ⟨a1, a2⟩ := optimized_stop_cache s
    obtain ⟨b1, b2⟩ := optimized_analyzePhoto_cache
      { Optimized.stopLiveDetection s with
        app := { (Optimized.stopLiveDetection s).app with currentPhoto := some frame } }
      frame outcome
    exact ⟨b1.trans a1, b2.trans a2⟩
  · exact optimized_analyzePhoto_cache
      { s with app := { s.app with currentPhoto := some frame } } frame outcome
  · exact ⟨rfl, rfl⟩

theorem cached_of_eq (a b : AppState) (h1 : b.isBlurred = a.isBlurred)
    (h2 : b.blurredImageData = a.blurredImageData) (h : a.BlurredIsCached) :
    b.BlurredIsCached := by
  unfold AppState.BlurredIsCached at h ⊢
  rw [h1, h2]
  exact h

theorem cached_of_false (a : AppState) (h : a.isBlurred = false) : a.BlurredIsCached := by
  unfold AppState.BlurredIsCached
  rw [h]
  intro hb
  exact absurd hb (by decide)

theorem live_step_cached (s : LiveState) (e : SessionEvent) (h : s.app.BlurredIsCached) :
    (Live.step s e).app.BlurredIsCached := by
  cases e with
  | capture frame outcome =>
    obtain ⟨h1, h2⟩ := live_capturePhoto_cache s frame outcome
    exact cached_of_eq _ _ h1 h2 h
  | imageLoaded rng => exact blurredImageLoaded_cached s.app rng h
  | enableManual => exact h
  | click image left top clientX clientY =>
    obtain ⟨h1, h2⟩ := clickImage_cache s.app image left top clientX clientY
    exact cached_of_eq _ _ h1 h2 h
  | toggleBlur => exact toggleBlur_cached s.app
  | retake => exact cached_of_false _ (retakePhoto_fields _).2.2.1

theorem optimized_step_cached (s : LiveState) (e : SessionEvent) (h : s.app.BlurredIsCached) :
    (Optimized.step s e).app.BlurredIsCached := by
  cases e with
  | capture frame outcome =>
    obtain ⟨h1, h2⟩ := optimized_capturePhoto_cache s frame outcome
    exact cached_of_eq _ _ h1 h2 h
  | imageLoaded rng => exact blurredImageLoaded_cached s.app rng h
  | enableManual => exact h
  | click image left top clientX clientY =>
    obtain ⟨h1, h2⟩ := clickImage_cache s.app image left top clientX clientY
    exact cached_of_eq _ _ h1 h2 h
  | toggleBlur => exact toggleBlur_cached s.app
  | retake =>
    have h3 := (performMemoryCleanup_fields
      { (if s.isLiveDetectionActive then Optimized.stopLiveDetection s else s) with
        app := (if s.isLiveDetectionActive then Optimized.stopLiveDetection s else s).app.retakePhoto,
        liveBtnActive := false }).2.2.1
    exact cached_of_false _ (h3.trans (retakePhoto_fields _).2.2.1)

theorem run_cached (events : List SessionEvent) (s : AppState) (h : s.BlurredIsCached) :
    (events.foldl AppState.step s).BlurredIsCached := by
  induction events generalizing s with
  | nil => exact h
  | cons e rest ih => exact ih (s.step e) (step_cached s e h)

theorem live_run_cached (events : List SessionEvent) (s : LiveState) (h : s.app.BlurredIsCached) :
    (events.foldl Live.step s).app.BlurredIsCached := by
  induction events generalizing s with
  | nil => exact h
  | cons e rest ih => exact ih (Live.step s e) (live_step_cached s e h)

theorem optimized_run_cached (events : List SessionEvent) (s : LiveState)
    (h : s.app.BlurredIsCached) : (events.foldl Optimized.step s).app.BlurredIsCached := by
  induction events generalizing s with
  | nil => exact h
  | cons e rest ih => exact ih (Optimized.step s e) (optimized_step_cached s e h)

/-- C28: in app-simple, app-live and app-optimized, in every state reached from the
initial state by captures (each ending in `showResults`), completions of
`createBlurredImage`, clicks on the manual button and on the result image, clicks on the
toggle button and retakes, in any order, `isBlurred = true` implies that
`blurredImageData` is not `null`. -/
theorem blurred_implies_cached (streamReady modelLoaded : Bool) (videoWidth videoHeight : Nat)
    (events : List SessionEvent) :
    ((events.foldl AppState.step (AppState.init streamReady)).isBlurred = true →
      (events.foldl AppState.step (AppState.init streamReady)).blurredImageData.isSome = true) ∧
    ((events.foldl Live.step
        (LiveState.init streamReady modelLoaded videoWidth videoHeight)).app.isBlurred = true →
      (events.foldl Live.step
        (LiveState.init streamReady modelLoaded videoWidth videoHeight)).app.blurredImageData.isSome =
        true) ∧
    ((events.foldl Optimized.step
        (LiveState.init streamReady modelLoaded videoWidth videoHeight)).app.isBlurred = true →
      (events.foldl Optimized.step
        (LiveState.init streamReady modelLoaded videoWidth videoHeight)).app.blurredImageData.isSome =
        true) :=
  ⟨run_cached events _ (cached_of_false _ rfl), live_run_cached events _ (cached_of_false _ rfl),
    optimized_run_cached events _ (cached_of_false _ rfl)⟩

theorem blurred_implies_cached_witness :
    ([SessionEvent.capture (plainPhoto 3 3 200) (Detection.resolved "" [centreFace]),
        SessionEvent.imageLoaded (constRng 0), SessionEvent.toggleBlur].foldl AppState.step
      (AppState.init true)).blurredImageData.isSome = true :=
  (blurred_implies_cached true true 640 480
    [SessionEvent.capture (plainPhoto 3 3 200) (Detection.resolved "" [centreFace]),
      SessionEvent.imageLoaded (constRng 0), SessionEvent.toggleBlur]).1 (by decide!)

end PicAI
